import Mathlib

/-!
TalentFlow: the mock API store and the drag-and-drop controllers of src/App.jsx.

A shallow embedding of the class MockAPI (the in-memory store, its persisted
snapshot, the simulated transport and the query and mutation operations), of
the JobsView controller functions loadJobs and handleReorder, and of the
candidates board functions loadCandidates and handleDrop.

Conventions of the embedding.

* Random draws and clock readings are inputs. A draw is a rational number; the
  latency it produces is computed but has no effect on the state.
* An operation takes the store and returns its outcome together with the store
  after the call, so that a call that throws can still be observed.
* The stored jobs array holds object references. Positions in the stored list
  play the part of the references: reorderJobs sorts and splices a list of
  positions and writes the new order values through them, exactly as the
  source writes through the shared objects.
* The local storage entry is held as the snapshot its document parses to. The
  document JSON.stringify writes and its reading by JSON.parse are modelled as
  trees in the section on the stored document, where writing and then parsing
  is shown to give back the snapshot.
* String.prototype.toLowerCase is a parameter of the operations that use it.
* Numbers are integers; an integer stands for the Number it denotes. The one
  place where the rendering of a Number matters is parseInt, which reads the
  decimal rendering of its argument: a Number below 10^21 is read back as
  itself, one in exponent notation as its first digit, Infinity as NaN.
* Records have the fields the source gives them; a property that is absent and
  a property that is undefined are the same value. The timelines and the
  assessments are plain objects keyed by id: a read finds the own property
  first and otherwise what Object.prototype provides under that name.
* The seed data initializeData builds from random draws is an input.
-/

namespace TalentFlow

/-! ## JavaScript array primitives -/

/-- Relative index resolution shared by Array.prototype.slice and splice: a
negative index counts from the end and is clamped at 0, a non-negative one is
clamped at the length. -/
def relIndex (len : Nat) (i : Int) : Nat :=
  if i < 0 then ((len : Int) + i).toNat else min i.toNat len

/-- Array.prototype.slice(start, end). -/
def jsSlice {α : Type} (xs : List α) (start stop : Int) : List α :=
  let k := relIndex xs.length start
  let final := relIndex xs.length stop
  (xs.drop k).take (final - k)

/-- Array.prototype.splice(start, deleteCount, ...items): the removed elements
and the array afterwards. -/
def jsSplice {α : Type} (xs : List α) (start : Int) (deleteCount : Nat)
    (items : List α) : List α × List α :=
  let k := relIndex xs.length start
  let dc := min deleteCount (xs.length - k)
  ((xs.drop k).take dc, xs.take k ++ items ++ xs.drop (k + dc))

/-- Array.prototype.findIndex: the first index whose element satisfies the
predicate, or -1 when there is none. -/
def findIndex {α : Type} (p : α → Bool) (xs : List α) : Int :=
  if xs.findIdx p < xs.length then ((xs.findIdx p : Nat) : Int) else -1

/-- String.prototype.includes. -/
def includes (s t : String) : Bool :=
  decide (t.toList <:+: s.toList)

/-- A string used as a condition: undefined and the empty string are falsy. -/
def truthy : Option String → Option String
  | some s => if s = "" then none else some s
  | none => none

/-- The own property of a keyed object with the given name, if there is one. -/
def objGet {β : Type} (o : List (String × β)) (k : String) : Option β :=
  (o.find? (fun p => p.1 == k)).map Prod.snd

/-- The names of the properties a plain object inherits from Object.prototype. -/
def inheritedKeys : List String :=
  ["constructor", "__defineGetter__", "__defineSetter__", "hasOwnProperty",
   "__lookupGetter__", "__lookupSetter__", "isPrototypeOf", "propertyIsEnumerable",
   "toString", "valueOf", "__proto__", "toLocaleString"]

/-- What the expression o[k] yields on a plain object: the value of the own
property, else the property of that name inherited from Object.prototype (a
function, or the prototype itself for __proto__), else undefined. -/
inductive Lookup (β : Type) where
  | value (v : β)
  | inherited
  | undefined
deriving DecidableEq, Repr

/-- Reading a property of a keyed object, o[k]: own properties first, then the
prototype chain. -/
def objRead {β : Type} (o : List (String × β)) (k : String) : Lookup β :=
  match objGet o k with
  | some v => .value v
  | none => if k ∈ inheritedKeys then .inherited else .undefined

/-- Assigning a property of a keyed object: an existing key keeps its place, a
new key is added at the end. -/
def objSet {β : Type} : List (String × β) → String → β → List (String × β)
  | [], k, v => [(k, v)]
  | (k0, v0) :: rest, k, v =>
    if k0 = k then (k, v) :: rest else (k0, v0) :: objSet rest k v

/-! ## Numbers read by parseInt -/

/-- The number of binary digits of n, by halving at most n times. -/
def bitLengthAux : Nat → Nat → Nat
  | 0, _ => 0
  | fuel + 1, n => if n = 0 then 0 else bitLengthAux fuel (n / 2) + 1

/-- The number of binary digits of a natural number. -/
def bitLength (n : Nat) : Nat :=
  bitLengthAux n n

/-- The Number a natural number denotes: the nearest value with 53 significant
binary digits, ties going to the even significand; none stands for Infinity,
the outcome when the rounded value needs more than 1024 binary digits. -/
def toNumber (n : Nat) : Option Nat :=
  let unit := 2 ^ (bitLength n - 53)
  let q := n / unit
  let r := n % unit
  let q1 := if unit < 2 * r ∨ (unit = 2 * r ∧ q % 2 = 1) then q + 1 else q
  if bitLength (q1 * unit) ≤ 1024 then some (q1 * unit) else none

/-- The first decimal digit of n, by dividing by ten at most n times. -/
def leadingDigitAux : Nat → Nat → Nat
  | 0, n => n
  | fuel + 1, n => if n < 10 then n else leadingDigitAux fuel (n / 10)

/-- The first decimal digit of a natural number. -/
def leadingDigit (n : Nat) : Nat :=
  leadingDigitAux n n

/-- The number of decimal digits of n, by dividing by ten at most n times. -/
def digitCountAux : Nat → Nat → Nat
  | 0, _ => 0
  | fuel + 1, n => if n < 10 then 1 else digitCountAux fuel (n / 10) + 1

/-- The number of decimal digits of a natural number. -/
def digitCount (n : Nat) : Nat :=
  digitCountAux n n

/-- The first digit of the digit string Number::toString chooses for the Number
x: the shortest string of k digits s such that s times a power of ten denotes
x, the nearer one when both the digits of x cut after k places and their
successor do. The search runs over k = 1, 2, ...; seventeen digits always
denote x. -/
def firstDigitAux (x : Nat) : Nat → Nat → Nat
  | 0, _ => leadingDigit x
  | fuel + 1, k =>
    let p := 10 ^ (digitCount x - k)
    let lo := x / p
    if toNumber (lo * p) = some x ∧
        (toNumber ((lo + 1) * p) ≠ some x ∨ x - lo * p ≤ (lo + 1) * p - x) then
      leadingDigit x
    else if toNumber ((lo + 1) * p) = some x then leadingDigit (lo + 1)
    else firstDigitAux x fuel (k + 1)

/-- The first digit of the rendering String(x) of a Number x. -/
def firstDigit (x : Nat) : Nat :=
  firstDigitAux x 17 1

/-- The call parseInt(n) on a number; none stands for NaN. An integer stands
for the Number it denotes. parseInt reads the decimal rendering of its
argument and stops at the first character that is not a digit: below 10^21 the
rendering is the digits of the Number, so it is read back; from 10^21 on it is
in exponent notation (1e+21, 1.5e+21), of which parseInt reads the first digit
only; Infinity gives NaN. -/
def parseInt (n : Int) : Option Int :=
  match toNumber n.natAbs with
  | none => none
  | some x => if x < 10 ^ 21 then some (n.sign * (x : Int))
    else some (n.sign * (firstDigit x : Int))

/-- The expression parseInt(v) || d for a number or absent v: an absent value
parses to NaN and, like NaN and 0, is replaced by the default. -/
def parseIntOr (v : Option Int) (d : Int) : Int :=
  match v with
  | some n =>
    match parseInt n with
    | some m => if m = 0 then d else m
    | none => d
  | none => d

/-- A number that parseInt reads back as itself: an integer that is itself a
Number and lies below 10^21 in magnitude. Every integer of magnitude below
2^53 is one. -/
def isPlainNumber (n : Int) : Prop :=
  toNumber n.natAbs = some n.natAbs ∧ n.natAbs < 10 ^ 21

instance (n : Int) : Decidable (isPlainNumber n) :=
  inferInstanceAs (Decidable (_ ∧ _))

/-! ## Data model -/

/-- A job record of data.jobs. -/
structure Job where
  id : String
  title : String
  slug : String
  status : String
  tags : List String
  order : Int
  createdAt : String
deriving DecidableEq, Repr

/-- A candidate record of data.candidates. -/
structure Candidate where
  id : String
  name : String
  email : String
  stage : String
  jobId : String
  appliedAt : String
deriving DecidableEq, Repr

/-- An entry of a candidate timeline; fromStage is the field from, which is
null for the seed event. -/
structure TimelineEvent where
  id : String
  type : String
  fromStage : Option String
  toStage : String
  timestamp : String
  note : String
deriving DecidableEq, Repr

/-- The validation object of a question. -/
structure Validation where
  min : Option Int
  max : Option Int
  maxLength : Option Nat
deriving DecidableEq, Repr

/-- A question of an assessment section. -/
structure Question where
  id : String
  type : String
  title : String
  required : Bool
  options : Option (List String)
  validation : Option Validation
deriving DecidableEq, Repr

/-- A section of an assessment. -/
structure Section where
  id : String
  title : String
  questions : List Question
deriving DecidableEq, Repr

/-- An assessment, stored under the id of its job. -/
structure Assessment where
  id : String
  jobId : String
  title : String
  sections : List Section
deriving DecidableEq, Repr

/-- The object this.data. -/
structure Data where
  jobs : List Job
  candidates : List Candidate
  assessments : List (String × Assessment)
  candidateTimelines : List (String × List TimelineEvent)
deriving DecidableEq, Repr

/-- The MockAPI instance together with the local storage entry hr-app-data. The
entry is held as the snapshot its document parses to, or none when there is
no entry. -/
structure MockAPI where
  data : Data
  storage : Option Data
deriving DecidableEq, Repr

/-- The errors an operation can throw. -/
inductive ApiError where
  | networkError
  | reorderFailed
  | jobNotFound
  | candidateNotFound
  | typeError
deriving DecidableEq, Repr

/-- The simulated transport failures: the error of delay and the error of the
reorder draw. -/
def ApiError.isTransport : ApiError → Bool
  | .networkError => true
  | .reorderFailed => true
  | _ => false

deriving instance DecidableEq for Except

/-- The two draws of one call of delay. -/
structure Draws where
  latency : ℚ
  failure : ℚ

/-- The clock readings of one call: Date.now() and new Date().toISOString(). -/
structure Clock where
  now : Nat
  iso : String

/-- The suspension length of delay, in milliseconds. -/
def latency (d : Draws) : ℚ :=
  200 + d.latency * 1000

/-- The method delay: after the suspension it throws when the second draw is
below 0.075. -/
def delay (d : Draws) : Except ApiError Unit :=
  if d.failure < 0.075 then .error .networkError else .ok ()

/-- The method saveToStorage: the entry becomes the document of this.data, which
parses back to this.data. -/
def saveToStorage (api : MockAPI) : MockAPI :=
  { api with storage := some api.data }

/-- The method loadFromStorage: this.data becomes what the entry parses to, when
there is an entry. -/
def loadFromStorage (api : MockAPI) : MockAPI :=
  match api.storage with
  | some stored => { api with data := stored }
  | none => api

/-! ## Process start -/

/-- The state this.data of a new instance before initializeData has run. -/
def emptyData : Data :=
  { jobs := [], candidates := [], assessments := [], candidateTimelines := [] }

/-- The method initializeData: it fills this.data with the seed jobs,
candidates, timelines and assessments, which it builds from random draws and
clock readings, and ends with saveToStorage. The data it builds is an input. -/
def initializeData (api : MockAPI) (seed : Data) : MockAPI :=
  saveToStorage { api with data := seed }

/-- The constructor of MockAPI, run against the local storage as it stands. -/
def construct (localStorage : Option Data) (seed : Data) : MockAPI :=
  initializeData { data := emptyData, storage := localStorage } seed

/-- Process start: the module creates the instance api, then the effect of HRApp
calls loadFromStorage. -/
def startup (localStorage : Option Data) (seed : Data) : MockAPI :=
  loadFromStorage (construct localStorage seed)

/-! ## Query operations -/

/-- The comparator sort((a, b) => a.order - b.order): the sort of an array is
stable, so the result is the stable ascending arrangement by order. -/
def sortByOrder (jobs : List Job) : List Job :=
  jobs.insertionSort (fun a b => a.order ≤ b.order)

/-- The parameter object of getJobs. -/
structure JobParams where
  search : Option String
  status : Option String
  page : Option Int
  pageSize : Option Int
deriving DecidableEq, Repr

/-- The object returned by getJobs. -/
structure JobsPage where
  jobs : List Job
  total : Nat
  page : Int
  pageSize : Int
deriving DecidableEq, Repr

/-- The method getJobs. -/
def getJobs (lower : String → String) (api : MockAPI) (d : Draws) (params : JobParams) :
    Except ApiError JobsPage × MockAPI :=
  match delay d with
  | .error e => (.error e, api)
  | .ok _ =>
    let jobs := api.data.jobs
    let jobs := match truthy params.search with
      | some search => jobs.filter (fun job => includes (lower job.title) (lower search))
      | none => jobs
    let jobs := match truthy params.status with
      | some status => jobs.filter (fun job => job.status = status)
      | none => jobs
    let jobs := sortByOrder jobs
    let page := parseIntOr params.page 1
    let pageSize := parseIntOr params.pageSize 10
    let start := (page - 1) * pageSize
    (.ok { jobs := jsSlice jobs start (start + pageSize), total := jobs.length,
           page := page, pageSize := pageSize }, api)

/-- The parameter object of getCandidates. -/
structure CandidateParams where
  search : Option String
  stage : Option String
  page : Option Int
  pageSize : Option Int
deriving DecidableEq, Repr

/-- The object returned by getCandidates. -/
structure CandidatesPage where
  candidates : List Candidate
  total : Nat
  page : Int
  pageSize : Int
deriving DecidableEq, Repr

/-- The method getCandidates. -/
def getCandidates (lower : String → String) (api : MockAPI) (d : Draws)
    (params : CandidateParams) : Except ApiError CandidatesPage × MockAPI :=
  match delay d with
  | .error e => (.error e, api)
  | .ok _ =>
    let candidates := api.data.candidates
    let candidates := match truthy params.search with
      | some s =>
        let search := lower s
        candidates.filter (fun candidate =>
          includes (lower candidate.name) search || includes (lower candidate.email) search)
      | none => candidates
    let candidates := match truthy params.stage with
      | some stage => candidates.filter (fun candidate => candidate.stage = stage)
      | none => candidates
    let page := parseIntOr params.page 1
    let pageSize := parseIntOr params.pageSize 50
    let start := (page - 1) * pageSize
    (.ok { candidates := jsSlice candidates start (start + pageSize),
           total := candidates.length, page := page, pageSize := pageSize }, api)

/-- The method getCandidateTimeline: the property of the timelines object, with
the empty array in place of undefined. -/
def getCandidateTimeline (api : MockAPI) (d : Draws) (id : String) :
    Except ApiError (Lookup (List TimelineEvent)) × MockAPI :=
  match delay d with
  | .error e => (.error e, api)
  | .ok _ =>
    match objRead api.data.candidateTimelines id with
    | .undefined => (.ok (.value []), api)
    | found => (.ok found, api)

/-- The method getAssessment: the property of the assessments object. -/
def getAssessment (api : MockAPI) (d : Draws) (jobId : String) :
    Except ApiError (Lookup Assessment) × MockAPI :=
  match delay d with
  | .error e => (.error e, api)
  | .ok _ => (.ok (objRead api.data.assessments jobId), api)

/-! ## Mutating operations -/

/-- The characters of the class of white space of a regular expression. -/
def isWhiteSpace (c : Char) : Bool :=
  c.toNat ∈ [9, 10, 11, 12, 13, 32, 160, 5760, 8232, 8233, 8239, 8287, 12288, 65279]
    || (8192 ≤ c.toNat && c.toNat ≤ 8202)

/-- Replacement of every maximal run of white space by one hyphen; the flag
tells that the previous character belonged to a run. -/
def replaceRuns : Bool → List Char → List Char
  | _, [] => []
  | inRun, c :: cs =>
    if isWhiteSpace c then
      if inRun then replaceRuns true cs else '-' :: replaceRuns true cs
    else c :: replaceRuns false cs

/-- The expression title.toLowerCase().replace(/\s+/g, '-'). -/
def slugOf (lower : String → String) (title : String) : String :=
  String.mk (replaceRuns false (lower title).toList)

/-- The argument of createJob: the form fields, and the fields the method
overwrites when the caller supplies them. -/
structure JobInput where
  title : String
  status : String
  tags : List String
  id : Option String
  slug : Option String
  order : Option Int
  createdAt : Option String
deriving DecidableEq, Repr

/-- The method createJob. -/
def createJob (lower : String → String) (api : MockAPI) (d : Draws) (c : Clock)
    (job : JobInput) : Except ApiError Job × MockAPI :=
  match delay d with
  | .error e => (.error e, api)
  | .ok _ =>
    let newJob : Job :=
      { id := "job-" ++ toString c.now, title := job.title, slug := slugOf lower job.title,
        status := job.status, tags := job.tags, order := (api.data.jobs.length : Int),
        createdAt := c.iso }
    let api1 := { api with data := { api.data with jobs := api.data.jobs ++ [newJob] } }
    (.ok newJob, saveToStorage api1)

/-- The argument updates of updateJob: every field may be absent. -/
structure JobPatch where
  id : Option String
  title : Option String
  slug : Option String
  status : Option String
  tags : Option (List String)
  order : Option Int
  createdAt : Option String
deriving DecidableEq, Repr

/-- The object spread of a job followed by the updates. -/
def Job.spread (job : Job) (updates : JobPatch) : Job :=
  { id := updates.id.getD job.id, title := updates.title.getD job.title,
    slug := updates.slug.getD job.slug, status := updates.status.getD job.status,
    tags := updates.tags.getD job.tags, order := updates.order.getD job.order,
    createdAt := updates.createdAt.getD job.createdAt }

/-- The method updateJob. The index findIndex returns is an index of the array,
so the branch for a missing element is never taken. -/
def updateJob (api : MockAPI) (d : Draws) (id : String) (updates : JobPatch) :
    Except ApiError Job × MockAPI :=
  match delay d with
  | .error e => (.error e, api)
  | .ok _ =>
    let index := findIndex (fun job => job.id = id) api.data.jobs
    if index ≥ 0 then
      match api.data.jobs[index.toNat]? with
      | some job =>
        let updated := job.spread updates
        let api1 :=
          { api with data := { api.data with jobs := api.data.jobs.set index.toNat updated } }
        (.ok updated, saveToStorage api1)
      | none => (.error .typeError, api)
    else (.error .jobNotFound, api)

/-- The argument updates of updateCandidate. -/
structure CandidatePatch where
  id : Option String
  name : Option String
  email : Option String
  stage : Option String
  jobId : Option String
  appliedAt : Option String
deriving DecidableEq, Repr

/-- The object spread of a candidate followed by the updates. -/
def Candidate.spread (c : Candidate) (updates : CandidatePatch) : Candidate :=
  { id := updates.id.getD c.id, name := updates.name.getD c.name,
    email := updates.email.getD c.email, stage := updates.stage.getD c.stage,
    jobId := updates.jobId.getD c.jobId, appliedAt := updates.appliedAt.getD c.appliedAt }

/-- The timelines object after the stage-change block of updateCandidate. An
own trail gets the event pushed; an undefined one is first set to the empty
array. A property inherited from Object.prototype is truthy and has no push, so
the call throws there: none. -/
def pushStageChange (timelines : List (String × List TimelineEvent)) (id : String)
    (event : TimelineEvent) : Option (List (String × List TimelineEvent)) :=
  match objRead timelines id with
  | .value trail => some (objSet timelines id (trail ++ [event]))
  | .undefined => some (objSet timelines id [event])
  | .inherited => none

/-- The method updateCandidate. The index findIndex returns is an index of the
array, so the branch for a missing element is never taken. When the push onto
the trail throws, the candidate has been replaced already and saveToStorage is
not reached. -/
def updateCandidate (api : MockAPI) (d : Draws) (c : Clock) (id : String)
    (updates : CandidatePatch) : Except ApiError Candidate × MockAPI :=
  match delay d with
  | .error e => (.error e, api)
  | .ok _ =>
    let index := findIndex (fun c => c.id = id) api.data.candidates
    if index ≥ 0 then
      match api.data.candidates[index.toNat]? with
      | some old =>
        let oldStage := old.stage
        let updated := old.spread updates
        let candidates := api.data.candidates.set index.toNat updated
        let timelines :=
          match truthy updates.stage with
          | some stage =>
            if stage ≠ oldStage then
              pushStageChange api.data.candidateTimelines id
                { id := "timeline-" ++ id ++ "-" ++ toString c.now,
                  type := "stage_change", fromStage := some oldStage,
                  toStage := stage, timestamp := c.iso,
                  note := "Moved from " ++ oldStage ++ " to " ++ stage }
            else some api.data.candidateTimelines
          | none => some api.data.candidateTimelines
        match timelines with
        | some timelines =>
          let api1 :=
            { api with data :=
                { api.data with candidates := candidates, candidateTimelines := timelines } }
          (.ok updated, saveToStorage api1)
        | none =>
          (.error .typeError, { api with data := { api.data with candidates := candidates } })
      | none => (.error .typeError, api)
    else (.error .candidateNotFound, api)

/-- The method saveAssessment. -/
def saveAssessment (api : MockAPI) (d : Draws) (jobId : String) (assessment : Assessment) :
    Except ApiError Assessment × MockAPI :=
  match delay d with
  | .error e => (.error e, api)
  | .ok _ =>
    let api1 :=
      { api with data :=
          { api.data with assessments := objSet api.data.assessments jobId assessment } }
    (.ok assessment, saveToStorage api1)

/-- The references of the spread copy of the stored array after
sort((a, b) => a.order - b.order): positions in the stored array, arranged by
the order value read through them. -/
def sortedRefs (jobs : List Job) : List Nat :=
  (jobs.enum.insertionSort (fun a b => a.2.order ≤ b.2.order)).map Prod.fst

/-- The assignment job.order = index made through a reference. -/
def writeOrder (heap : List Job) (r : Nat) (index : Nat) : List Job :=
  match heap[r]? with
  | some job => heap.set r { job with order := (index : Int) }
  | none => heap

/-- The loop forEach((job, index) => job.order = index) from the given index
on. An undefined entry makes the assignment throw; the error carries the
objects as the writes made before it left them. -/
def renumber : List (Option Nat) → Nat → List Job → Except (List Job) (List Job)
  | [], _, heap => .ok heap
  | none :: _, _, heap => .error heap
  | some r :: rest, index, heap => renumber rest (index + 1) (writeOrder heap r index)

/-- The object behind an array entry. -/
def deref (heap : List Job) : Option Nat → Option Job
  | some r => heap[r]?
  | none => none

/-- The method reorderJobs. The local array holds references or undefined. -/
def reorderJobs (api : MockAPI) (d : Draws) (reorderDraw : ℚ) (fromOrder toOrder : Int) :
    Except ApiError (List Job) × MockAPI :=
  match delay d with
  | .error e => (.error e, api)
  | .ok _ =>
    if reorderDraw < 0.1 then (.error .reorderFailed, api)
    else
      let jobs := (sortedRefs api.data.jobs).map some
      let first := jsSplice jobs fromOrder 1 []
      let moved : Option Nat := first.1.head?.join
      let jobs := (jsSplice first.2 toOrder 0 [moved]).2
      match renumber jobs 0 api.data.jobs with
      | .error heap => (.error .typeError, { api with data := { api.data with jobs := heap } })
      | .ok heap =>
        let result := jobs.filterMap (deref heap)
        (.ok result, saveToStorage { api with data := { api.data with jobs := result } })

/-! ## The JobsView controller -/

/-- What the controller does that another component can observe, in the order
in which it happens. -/
inductive Effect where
  | setJobs (jobs : List (Option Job))
  | setTotal (total : Nat)
  | setCurrentPage (page : Int)
  | setLoading (loading : Bool)
  | callGetJobs (params : JobParams)
  | callReorderJobs (fromOrder toOrder : Int)
  | consoleError (e : ApiError)
deriving DecidableEq, Repr

/-- The state of the component JobsView that its handlers read and write, with
the trace of the effects so far. An entry of the jobs array is a job or
undefined. -/
structure JobsView where
  jobs : List (Option Job)
  loading : Bool
  searchTerm : String
  statusFilter : String
  currentPage : Int
  total : Nat
  trace : List Effect
deriving DecidableEq, Repr

/-- The constant pageSize of JobsView. -/
def pageSize : Int := 10

/-- The parameter object loadJobs passes to getJobs. -/
def loadParams (v : JobsView) (page : Int) : JobParams :=
  { search := some v.searchTerm, status := some v.statusFilter, page := some page,
    pageSize := some pageSize }

/-- The callback loadJobs. -/
def loadJobs (lower : String → String) (v : JobsView) (api : MockAPI) (d : Draws)
    (page : Int) : JobsView × MockAPI :=
  let params := loadParams v page
  let v1 := { v with loading := true,
                     trace := v.trace ++ [Effect.setLoading true, Effect.callGetJobs params] }
  match getJobs lower api d params with
  | (.ok result, api1) =>
    ({ v1 with jobs := result.jobs.map some, total := result.total,
               currentPage := result.page, loading := false,
               trace := v1.trace ++
                 [Effect.setJobs (result.jobs.map some), Effect.setTotal result.total,
                  Effect.setCurrentPage result.page, Effect.setLoading false] }, api1)
  | (.error e, api1) =>
    ({ v1 with loading := false,
               trace := v1.trace ++ [Effect.consoleError e, Effect.setLoading false] }, api1)

/-- The call findIndex(job => job.id === id) on the local array: reading id of
an undefined entry met before a match throws. -/
def findIndexById (id : String) : List (Option Job) → Except ApiError Int
  | [] => .ok (-1)
  | none :: _ => .error .typeError
  | some job :: rest =>
    if job.id = id then .ok 0
    else
      match findIndexById id rest with
      | .ok i => .ok (if i < 0 then -1 else i + 1)
      | .error e => .error e

/-- The tentative array handleReorder computes from the local view. -/
def optimisticJobs (jobs : List (Option Job)) (draggedJob dropTargetJob : Job) :
    Except ApiError (List (Option Job)) :=
  match findIndexById draggedJob.id jobs with
  | .error e => .error e
  | .ok dragIndex =>
    match findIndexById dropTargetJob.id jobs with
    | .error e => .error e
    | .ok dropIndex =>
      let first := jsSplice jobs dragIndex 1 []
      let movedItem : Option Job := first.1.head?.join
      .ok (jsSplice first.2 dropIndex 0 [movedItem]).2

/-- The handler handleReorder, run to the end of the reload it starts: d and
reorderDraw are the draws of the reorderJobs call, dLoad the draws of the
getJobs call of the reload. A throw while the tentative array is computed
happens before the first effect and leaves the component as it was. -/
def handleReorder (lower : String → String) (v : JobsView) (api : MockAPI)
    (draggedJob dropTargetJob : Job) (d : Draws) (reorderDraw : ℚ) (dLoad : Draws) :
    JobsView × MockAPI :=
  if draggedJob.order = dropTargetJob.order then (v, api)
  else
    match optimisticJobs v.jobs draggedJob dropTargetJob with
    | .error _ => (v, api)
    | .ok tentative =>
      let v1 := { v with jobs := tentative,
                         trace := v.trace ++ [Effect.setJobs tentative,
                           Effect.callReorderJobs draggedJob.order dropTargetJob.order] }
      match reorderJobs api d reorderDraw draggedJob.order dropTargetJob.order with
      | (.ok _, api1) => loadJobs lower v1 api1 dLoad v.currentPage
      | (.error e, api1) =>
        loadJobs lower { v1 with trace := v1.trace ++ [Effect.consoleError e] } api1 dLoad
          v.currentPage

/-! ## The CandidatesKanban controller -/

/-- The updates object that names the stage only. -/
def stagePatch (newStage : String) : CandidatePatch :=
  { id := none, name := none, email := none, stage := some newStage, jobId := none,
    appliedAt := none }

/-- What the candidates components do that another component can observe, in
the order in which it happens. -/
inductive CandidateEffect where
  | setCandidates (candidates : List Candidate)
  | setLoading (loading : Bool)
  | setDraggedCandidate (candidate : Option Candidate)
  | callGetCandidates (params : CandidateParams)
  | callUpdateCandidate (id : String) (updates : CandidatePatch)
  | consoleError (e : ApiError)
deriving DecidableEq, Repr

/-- The state of CandidatesView and of its CandidatesKanban that the handlers
read and write, with the trace of the effects so far. -/
structure CandidatesView where
  candidates : List Candidate
  loading : Bool
  searchTerm : String
  stageFilter : String
  draggedCandidate : Option Candidate
  trace : List CandidateEffect
deriving DecidableEq, Repr

/-- The parameter object loadCandidates passes to getCandidates. -/
def candidateLoadParams (v : CandidatesView) : CandidateParams :=
  { search := some v.searchTerm, stage := some v.stageFilter, page := none,
    pageSize := some 1000 }

/-- The callback loadCandidates up to its await: the loading flag is set and
the query is dispatched. -/
def loadCandidatesStart (v : CandidatesView) : CandidatesView :=
  { v with loading := true,
           trace := v.trace ++ [CandidateEffect.setLoading true,
             CandidateEffect.callGetCandidates (candidateLoadParams v)] }

/-- The callback loadCandidates from the settling of its query on. -/
def loadCandidatesFinish (lower : String → String) (v : CandidatesView) (api : MockAPI)
    (d : Draws) : CandidatesView × MockAPI :=
  match getCandidates lower api d (candidateLoadParams v) with
  | (.ok result, api1) =>
    ({ v with candidates := result.candidates, loading := false,
              trace := v.trace ++ [CandidateEffect.setCandidates result.candidates,
                CandidateEffect.setLoading false] }, api1)
  | (.error e, api1) =>
    ({ v with loading := false,
              trace := v.trace ++ [CandidateEffect.consoleError e,
                CandidateEffect.setLoading false] }, api1)

/-- The handler handleDrop of CandidatesKanban, run to the end of the reload it
starts: d and c are the draws and clock of the updateCandidate call, dLoad the
draws of the getCandidates call of the reload. The reload is started without
being awaited, so the dragged candidate is cleared before its query settles. -/
def handleDrop (lower : String → String) (v : CandidatesView) (api : MockAPI)
    (newStage : String) (d : Draws) (c : Clock) (dLoad : Draws) : CandidatesView × MockAPI :=
  match v.draggedCandidate with
  | some dragged =>
    if dragged.stage ≠ newStage then
      let v1 := { v with trace := v.trace ++
        [CandidateEffect.callUpdateCandidate dragged.id (stagePatch newStage)] }
      match updateCandidate api d c dragged.id (stagePatch newStage) with
      | (.ok _, api1) =>
        let v2 := loadCandidatesStart v1
        let v3 := { v2 with draggedCandidate := none,
                            trace := v2.trace ++ [CandidateEffect.setDraggedCandidate none] }
        loadCandidatesFinish lower v3 api1 dLoad
      | (.error e, api1) =>
        ({ v1 with draggedCandidate := none,
                   trace := v1.trace ++ [CandidateEffect.consoleError e,
                     CandidateEffect.setDraggedCandidate none] }, api1)
    else
      ({ v with draggedCandidate := none,
                trace := v.trace ++ [CandidateEffect.setDraggedCandidate none] }, api)
  | none =>
    ({ v with draggedCandidate := none,
              trace := v.trace ++ [CandidateEffect.setDraggedCandidate none] }, api)

/-! ## The stored document -/

/-- A JSON document as a tree. Numbers are integers, as all numbers of the data
model are. -/
inductive Json where
  | null
  | bool (b : Bool)
  | num (n : Int)
  | str (s : String)
  | arr (items : List Json)
  | obj (fields : List (String × Json))

/-- A property in the output of JSON.stringify: a property whose value is
undefined is left out. -/
def optField (k : String) (v : Option Json) : List (String × Json) :=
  match v with
  | some j => [(k, j)]
  | none => []

/-- The document JSON.stringify writes for a job. -/
def Job.toJson (job : Job) : Json :=
  .obj [("id", .str job.id), ("title", .str job.title), ("slug", .str job.slug),
        ("status", .str job.status), ("tags", .arr (job.tags.map Json.str)),
        ("order", .num job.order), ("createdAt", .str job.createdAt)]

/-- The document JSON.stringify writes for a candidate. -/
def Candidate.toJson (c : Candidate) : Json :=
  .obj [("id", .str c.id), ("name", .str c.name), ("email", .str c.email),
        ("stage", .str c.stage), ("jobId", .str c.jobId), ("appliedAt", .str c.appliedAt)]

/-- The document JSON.stringify writes for a timeline event; from is null for
the seed event. -/
def TimelineEvent.toJson (e : TimelineEvent) : Json :=
  .obj [("id", .str e.id), ("type", .str e.type),
        ("from", match e.fromStage with
          | some s => .str s
          | none => .null),
        ("to", .str e.toStage), ("timestamp", .str e.timestamp), ("note", .str e.note)]

/-- The document JSON.stringify writes for a validation object. -/
def Validation.toJson (v : Validation) : Json :=
  .obj (optField "min" (v.min.map Json.num) ++ optField "max" (v.max.map Json.num) ++
        optField "maxLength" (v.maxLength.map (fun n => Json.num (n : Int))))

/-- The document JSON.stringify writes for a question. -/
def Question.toJson (q : Question) : Json :=
  .obj ([("id", .str q.id), ("type", .str q.type), ("title", .str q.title),
         ("required", .bool q.required)] ++
        optField "options" (q.options.map (fun os => Json.arr (os.map Json.str))) ++
        optField "validation" (q.validation.map Validation.toJson))

/-- The document JSON.stringify writes for a section. -/
def Section.toJson (s : Section) : Json :=
  .obj [("id", .str s.id), ("title", .str s.title),
        ("questions", .arr (s.questions.map Question.toJson))]

/-- The document JSON.stringify writes for an assessment. -/
def Assessment.toJson (a : Assessment) : Json :=
  .obj [("id", .str a.id), ("jobId", .str a.jobId), ("title", .str a.title),
        ("sections", .arr (a.sections.map Section.toJson))]

/-- The document JSON.stringify(this.data) writes. -/
def stringify (data : Data) : Json :=
  .obj [("jobs", .arr (data.jobs.map Job.toJson)),
        ("candidates", .arr (data.candidates.map Candidate.toJson)),
        ("assessments", .obj (data.assessments.map (fun p => (p.1, p.2.toJson)))),
        ("candidateTimelines", .obj (data.candidateTimelines.map
          (fun p => (p.1, Json.arr (p.2.map TimelineEvent.toJson)))))]

/-- Reading a property of a parsed document: undefined when the document is not
an object or has no such property. -/
def Json.field (k : String) : Json → Option Json
  | .obj fields => objGet fields k
  | _ => none

/-- A parsed value read as a string. -/
def Json.asStr : Json → Option String
  | .str s => some s
  | _ => none

/-- A parsed value read as an integer. -/
def Json.asInt : Json → Option Int
  | .num n => some n
  | _ => none

/-- A parsed value read as a boolean. -/
def Json.asBool : Json → Option Bool
  | .bool b => some b
  | _ => none

/-- A parsed value read as an array. -/
def Json.asArr : Json → Option (List Json)
  | .arr items => some items
  | _ => none

/-- A parsed value read as the properties of an object. -/
def Json.asObj : Json → Option (List (String × Json))
  | .obj fields => some fields
  | _ => none

/-- All the values of a list of optional values, when none is missing. -/
def allSome {α : Type} : List (Option α) → Option (List α)
  | [] => some []
  | none :: _ => none
  | some x :: rest => (allSome rest).map (fun xs => x :: xs)

/-- An array property read element by element. -/
def readArr {α : Type} (read : Json → Option α) (j : Json) : Option (List α) :=
  j.asArr.bind (fun items => allSome (items.map read))

/-- An optional property: absent reads as undefined; present, it has to read. -/
def readOpt {α : Type} (read : Json → Option α) (j : Option Json) : Option (Option α) :=
  match j with
  | none => some none
  | some v => (read v).map some

/-- A parsed document read as a job. -/
def Job.ofJson (j : Json) : Option Job := do
  let id ← (j.field "id").bind Json.asStr
  let title ← (j.field "title").bind Json.asStr
  let slug ← (j.field "slug").bind Json.asStr
  let status ← (j.field "status").bind Json.asStr
  let tags ← (j.field "tags").bind (readArr Json.asStr)
  let order ← (j.field "order").bind Json.asInt
  let createdAt ← (j.field "createdAt").bind Json.asStr
  pure { id := id, title := title, slug := slug, status := status, tags := tags,
         order := order, createdAt := createdAt }

/-- A parsed document read as a candidate. -/
def Candidate.ofJson (j : Json) : Option Candidate := do
  let id ← (j.field "id").bind Json.asStr
  let name ← (j.field "name").bind Json.asStr
  let email ← (j.field "email").bind Json.asStr
  let stage ← (j.field "stage").bind Json.asStr
  let jobId ← (j.field "jobId").bind Json.asStr
  let appliedAt ← (j.field "appliedAt").bind Json.asStr
  pure { id := id, name := name, email := email, stage := stage, jobId := jobId,
         appliedAt := appliedAt }

/-- The property from of a timeline event: null or a string. -/
def readFrom : Json → Option (Option String)
  | .null => some none
  | .str s => some (some s)
  | _ => none

/-- A parsed document read as a timeline event. -/
def TimelineEvent.ofJson (j : Json) : Option TimelineEvent := do
  let id ← (j.field "id").bind Json.asStr
  let type ← (j.field "type").bind Json.asStr
  let fromStage ← (j.field "from").bind readFrom
  let toStage ← (j.field "to").bind Json.asStr
  let timestamp ← (j.field "timestamp").bind Json.asStr
  let note ← (j.field "note").bind Json.asStr
  pure { id := id, type := type, fromStage := fromStage, toStage := toStage,
         timestamp := timestamp, note := note }

/-- A parsed value read as a natural number. -/
def Json.asNat : Json → Option Nat
  | .num n => if 0 ≤ n then some n.toNat else none
  | _ => none

/-- A parsed document read as a validation object. -/
def Validation.ofJson (j : Json) : Option Validation := do
  let _ ← j.asObj
  let min ← readOpt Json.asInt (j.field "min")
  let max ← readOpt Json.asInt (j.field "max")
  let maxLength ← readOpt Json.asNat (j.field "maxLength")
  pure { min := min, max := max, maxLength := maxLength }

/-- A parsed document read as a question. -/
def Question.ofJson (j : Json) : Option Question := do
  let id ← (j.field "id").bind Json.asStr
  let type ← (j.field "type").bind Json.asStr
  let title ← (j.field "title").bind Json.asStr
  let required ← (j.field "required").bind Json.asBool
  let options ← readOpt (readArr Json.asStr) (j.field "options")
  let validation ← readOpt Validation.ofJson (j.field "validation")
  pure { id := id, type := type, title := title, required := required, options := options,
         validation := validation }

/-- A parsed document read as a section. -/
def Section.ofJson (j : Json) : Option Section := do
  let id ← (j.field "id").bind Json.asStr
  let title ← (j.field "title").bind Json.asStr
  let questions ← (j.field "questions").bind (readArr Question.ofJson)
  pure { id := id, title := title, questions := questions }

/-- A parsed document read as an assessment. -/
def Assessment.ofJson (j : Json) : Option Assessment := do
  let id ← (j.field "id").bind Json.asStr
  let jobId ← (j.field "jobId").bind Json.asStr
  let title ← (j.field "title").bind Json.asStr
  let sections ← (j.field "sections").bind (readArr Section.ofJson)
  pure { id := id, jobId := jobId, title := title, sections := sections }

/-- A keyed object read value by value, the keys kept in their sequence. -/
def readObj {α : Type} (read : Json → Option α) (j : Json) : Option (List (String × α)) :=
  j.asObj.bind (fun fields => allSome (fields.map (fun p => (read p.2).map (fun v => (p.1, v)))))

/-- The value JSON.parse gives for a stored document, read as this.data. -/
def parse (j : Json) : Option Data := do
  let jobs ← (j.field "jobs").bind (readArr Job.ofJson)
  let candidates ← (j.field "candidates").bind (readArr Candidate.ofJson)
  let assessments ← (j.field "assessments").bind (readObj Assessment.ofJson)
  let candidateTimelines ← (j.field "candidateTimelines").bind
    (readObj (readArr TimelineEvent.ofJson))
  pure { jobs := jobs, candidates := candidates, assessments := assessments,
         candidateTimelines := candidateTimelines }

/-! ## Calls and sequences of calls -/

/-- A call of one of the mutating operations with its arguments. -/
inductive Mutation where
  | createJob (c : Clock) (job : JobInput)
  | updateJob (id : String) (updates : JobPatch)
  | reorderJobs (reorderDraw : ℚ) (fromOrder toOrder : Int)
  | updateCandidate (c : Clock) (id : String) (updates : CandidatePatch)
  | saveAssessment (jobId : String) (assessment : Assessment)

/-- The error a call threw, if any. -/
def thrown {α : Type} : Except ApiError α → Option ApiError
  | .ok _ => none
  | .error e => some e

/-- The error thrown by a mutating call, if any, and the store after it. -/
def Mutation.run (lower : String → String) (api : MockAPI) (d : Draws) :
    Mutation → Option ApiError × MockAPI
  | .createJob c job => ((thrown (TalentFlow.createJob lower api d c job).1),
      (TalentFlow.createJob lower api d c job).2)
  | .updateJob id updates => (thrown (TalentFlow.updateJob api d id updates).1,
      (TalentFlow.updateJob api d id updates).2)
  | .reorderJobs reorderDraw fromOrder toOrder =>
    (thrown (TalentFlow.reorderJobs api d reorderDraw fromOrder toOrder).1,
      (TalentFlow.reorderJobs api d reorderDraw fromOrder toOrder).2)
  | .updateCandidate c id updates => (thrown (TalentFlow.updateCandidate api d c id updates).1,
      (TalentFlow.updateCandidate api d c id updates).2)
  | .saveAssessment jobId assessment =>
    (thrown (TalentFlow.saveAssessment api d jobId assessment).1,
      (TalentFlow.saveAssessment api d jobId assessment).2)

/-- One call of reorderJobs with its draws. -/
structure ReorderCall where
  d : Draws
  reorderDraw : ℚ
  fromOrder : Int
  toOrder : Int

/-- A sequence of reorderJobs calls, each one successful: the store after the
last call, or the error of the first call that fails. -/
def runReorders : MockAPI → List ReorderCall → Except ApiError MockAPI
  | api, [] => .ok api
  | api, c :: cs =>
    match reorderJobs api c.d c.reorderDraw c.fromOrder c.toOrder with
    | (.ok _, api1) => runReorders api1 cs
    | (.error e, _) => .error e

/-- One call of createJob with its draws and clock readings. -/
structure CreateCall where
  d : Draws
  c : Clock
  job : JobInput

/-- A sequence of createJob calls, each one successful: the store after the
last call, or the error of the first call that fails. -/
def runCreates (lower : String → String) : MockAPI → List CreateCall → Except ApiError MockAPI
  | api, [] => .ok api
  | api, call :: rest =>
    match createJob lower api call.d call.c call.job with
    | (.ok _, api1) => runCreates lower api1 rest
    | (.error e, _) => .error e

/-! ## Descriptions used in the statements -/

/-- The value-level reading of the two splices of a move when the first one
removes an element: the element at position f is taken out and put back at
the position toOrder resolves to in the shortened array. -/
def moveItem {α : Type} (xs : List α) (f : Nat) (toOrder : Int) : List α :=
  match xs[f]? with
  | some x =>
    let rest := xs.eraseIdx f
    let k := relIndex rest.length toOrder
    rest.take k ++ x :: rest.drop k
  | none => xs

/-- The writes of the renumbering loop over defined entries. -/
def writeAll : List Nat → Nat → List Job → List Job
  | [], _, heap => heap
  | r :: rest, index, heap => writeAll rest (index + 1) (writeOrder heap r index)

/-- The order values 0, 1, ... written into a list of jobs by value, starting
from the given index. -/
def reindex : Nat → List Job → List Job
  | _, [] => []
  | k, job :: rest => { job with order := (k : Int) } :: reindex (k + 1) rest

/-- The sorted copy as pairs of a reference and the object read through it. -/
def sortedPairs (jobs : List Job) : List (Nat × Job) :=
  jobs.enum.insertionSort (fun a b => a.2.order ≤ b.2.order)

/-- The outcome of reorderJobs by value: the jobs sorted by order, the one at
position f moved, and the positions written as orders. -/
def reordered (jobs : List Job) (f : Nat) (toOrder : Int) : List Job :=
  reindex 0 (moveItem (sortByOrder jobs) f toOrder)

/-- The order values 0, 1, ..., n-1. -/
def denseOrders (n : Nat) : List Int :=
  (List.range n).map (fun (i : Nat) => (i : Int))

/-- The test status === 'active'. -/
def isActive (job : Job) : Bool :=
  job.status = "active"

/-- The trail of a candidate as getCandidateTimeline reads it: the own trail, the
empty trail when the timelines object has no property of that name at all, or
the inherited property, which is no trail. -/
def trailOf (api : MockAPI) (id : String) : Lookup (List TimelineEvent) :=
  match objRead api.data.candidateTimelines id with
  | .undefined => .value []
  | found => found

/-- The event updateCandidate pushes for a stage change. -/
def stageChangeEvent (c : Clock) (id oldStage newStage : String) : TimelineEvent :=
  { id := "timeline-" ++ id ++ "-" ++ toString c.now, type := "stage_change",
    fromStage := some oldStage, toStage := newStage, timestamp := c.iso,
    note := "Moved from " ++ oldStage ++ " to " ++ newStage }

/-- A filter that is absent or the empty string. -/
def isEmptyFilter : Option String → Bool
  | some s => s = ""
  | none => true

/-- Case-insensitive containment of the search text in a text field. -/
def containsIgnoringCase (lower : String → String) (text : String) (search : Option String) :
    Bool :=
  match search with
  | some s => includes (lower text) (lower s)
  | none => true

/-- The matching condition of the jobs query in the words of the specification:
the title contains the search text case-insensitively, or the search is empty,
and the status equals the status filter exactly, or the filter is empty. -/
def jobMatches (lower : String → String) (search status : Option String) (job : Job) : Bool :=
  (isEmptyFilter search || containsIgnoringCase lower job.title search) &&
    (isEmptyFilter status || some job.status = status)

/-- The matching condition of the candidates query in the words of the
specification: the name or the email contains the search text
case-insensitively, or the search is empty, and the stage equals the stage
filter exactly, or the filter is empty. -/
def candidateMatches (lower : String → String) (search stage : Option String) (c : Candidate) :
    Bool :=
  (isEmptyFilter search || containsIgnoringCase lower c.name search
      || containsIgnoringCase lower c.email search) &&
    (isEmptyFilter stage || some c.stage = stage)

/-- The number of the last page, the ceiling of total / pageSize. -/
def lastPage (total : Nat) (pageSize : Int) : Int :=
  ((total : Int) + pageSize - 1) / pageSize

/-- The value of a list of decimal digit characters. -/
def decimalValue (cs : List Char) : Nat :=
  cs.foldl (fun acc c => acc * 10 + (c.toNat - 48)) 0

/-- A thrown error that is one of the simulated transport failures. -/
def failsBySimulation (thrownError : Option ApiError) : Bool :=
  match thrownError with
  | some e => e.isTransport
  | none => false

/-- The general writes: the mutating calls other than reorderJobs. -/
def Mutation.isGeneralWrite : Mutation → Bool
  | .reorderJobs _ _ _ => false
  | _ => true

/-- The slice of a list shown on page k + 1 for pages of the given size. -/
def pageSlice {α : Type} (xs : List α) (size k : Nat) : List α :=
  (xs.drop (k * size)).take size

/-- The number of pages: the ceiling of the length over the page size. -/
def pageCount (total size : Nat) : Nat :=
  (total + size - 1) / size

/-- The filtered, order-sorted list of jobs a query ranges over. -/
def matchingJobs (lower : String → String) (api : MockAPI) (search status : Option String) :
    List Job :=
  sortByOrder (api.data.jobs.filter (jobMatches lower search status))

/-- The filtered list of candidates a query ranges over, in store order. -/
def matchingCandidates (lower : String → String) (api : MockAPI)
    (search stage : Option String) : List Candidate :=
  api.data.candidates.filter (candidateMatches lower search stage)

/-- The fields of a job other than order: id, title, slug, status, tags and
createdAt. -/
def Job.otherFields (job : Job) : String × String × String × String × List String × String :=
  (job.id, job.title, job.slug, job.status, job.tags, job.createdAt)

/-! ## Worked examples -/

/-- A job with the given id and order, for the worked examples. -/
def sampleJob (id : String) (order : Int) : Job :=
  { id := id, title := id, slug := id, status := "active", tags := [], order := order,
    createdAt := "" }

/-- A store holding the given jobs and nothing else, with nothing persisted. -/
def sampleStore (jobs : List Job) : MockAPI :=
  { data := { jobs := jobs, candidates := [], assessments := [], candidateTimelines := [] },
    storage := none }

/-- Draws under which delay does not throw. -/
def calmDraws : Draws := { latency := 1 / 2, failure := 1 / 2 }

/-- Draws under which delay throws. -/
def failingDraws : Draws := { latency := 1 / 2, failure := 0 }

/-- A clock reading, for the worked examples. -/
def sampleClock : Clock := { now := 1700000000000, iso := "2023-11-14T22:13:20.000Z" }

/-- A candidate in the given stage, for the worked examples. -/
def sampleCandidate (id stage : String) : Candidate :=
  { id := id, name := "Jane Smith", email := "jane.smith@email.com", stage := stage,
    jobId := "job-1", appliedAt := "2024-01-01T00:00:00.000Z" }

/-- The event every seeded timeline starts with. -/
def seedEvent : TimelineEvent :=
  { id := "timeline-0-1", type := "stage_change", fromStage := none, toStage := "applied",
    timestamp := "2024-01-01T00:00:00.000Z", note := "Application submitted" }

/-- A store with one candidate and its seed timeline. -/
def candidateStore (id stage : String) : MockAPI :=
  { data := { jobs := [], candidates := [sampleCandidate id stage], assessments := [],
              candidateTimelines := [(id, [seedEvent])] },
    storage := none }

/-- A store whose one candidate has an id that names a property of
Object.prototype, and no timeline. -/
def inheritedIdStore : MockAPI :=
  { data := { jobs := [], candidates := [sampleCandidate "constructor" "applied"],
              assessments := [], candidateTimelines := [] },
    storage := none }

/-- A store with sixteen candidates, exactly fifteen of them in stage hired. -/
def hiredStore : MockAPI :=
  { data :=
      { jobs := [],
        candidates := List.replicate 7 (sampleCandidate "x" "hired") ++
          [sampleCandidate "y" "applied"] ++ List.replicate 8 (sampleCandidate "z" "hired"),
        assessments := [], candidateTimelines := [] },
    storage := none }

/-- A jobs view showing the given jobs on page 1 with empty filters. -/
def sampleView (jobs : List Job) : JobsView :=
  { jobs := jobs.map some, loading := false, searchTerm := "", statusFilter := "",
    currentPage := 1, total := jobs.length, trace := [] }

/-- The form input of a new job with the given title, for the worked examples. -/
def sampleInput (title : String) : JobInput :=
  { title := title, status := "active", tags := ["Remote"], id := some "mine", slug := none,
    order := some 99, createdAt := none }

/-- A candidates view showing the given candidates with empty filters, the
given candidate being dragged. -/
def sampleCandidatesView (candidates : List Candidate) (dragged : Candidate) : CandidatesView :=
  { candidates := candidates, loading := false, searchTerm := "", stageFilter := "",
    draggedCandidate := some dragged, trace := [] }

/-- A store with dense orders in which two jobs carry the same id. -/
def duplicateIdStore : MockAPI :=
  sampleStore [sampleJob "a" 0, sampleJob "c" 1, sampleJob "a" 2, sampleJob "b" 3]

/-- The parameters of the first page of ten with empty filters. -/
def firstPageParams : JobParams :=
  { search := none, status := none, page := some 1, pageSize := some 10 }

/-! ## Theorems -/

/-! ### Reordering by value (C1) -/

theorem relIndex_of_nonneg (len : Nat) (i : Int) (h : 0 ≤ i) :
    relIndex len i = min i.toNat len := by
  unfold relIndex
  rw [if_neg (by omega)]

theorem relIndex_le (len : Nat) (i : Int) : relIndex len i ≤ len := by
  unfold relIndex
  split <;> omega

theorem twoSplices_eq {α : Type} (xs : List α) (fromOrder toOrder : Int) (h0 : 0 ≤ fromOrder)
    (hN : fromOrder < xs.length) :
    (jsSplice (jsSplice (xs.map some) fromOrder 1 []).2 toOrder 0
        [(jsSplice (xs.map some) fromOrder 1 []).1.head?.join]).2
      = (moveItem xs fromOrder.toNat toOrder).map some := by
  obtain ⟨f, rfl⟩ := Int.eq_ofNat_of_zero_le h0
  have hf : f < xs.length := by exact_mod_cast hN
  have hk : relIndex (xs.map some).length (f : Int) = f := by
    rw [relIndex_of_nonneg _ _ (by omega)]; simp; omega
  have hm : min 1 ((xs.map some).length - f) = 1 := by
    rw [List.length_map]; omega
  have h1 : (jsSplice (xs.map some) (f : Int) 1 []).1 = [some xs[f]] := by
    simp only [jsSplice, hk, hm]
    rw [List.drop_eq_getElem_cons (by simpa using hf)]
    simp
  have h2 : (jsSplice (xs.map some) (f : Int) 1 []).2 = (xs.eraseIdx f).map some := by
    simp only [jsSplice, hk, hm]
    rw [List.eraseIdx_eq_take_drop_succ]
    simp
  rw [h1, h2]
  simp only [jsSplice, moveItem, Int.toNat_ofNat, List.getElem?_eq_getElem hf]
  simp

theorem moveItem_map {α β : Type} (g : α → β) (xs : List α) (f : Nat) (toOrder : Int) :
    moveItem (xs.map g) f toOrder = (moveItem xs f toOrder).map g := by
  unfold moveItem
  rw [List.getElem?_map]
  cases h : xs[f]? with
  | none => simp
  | some x =>
    simp only [Option.map_some', List.eraseIdx_eq_take_drop_succ, List.map_append, List.map_cons,
      List.map_take, List.map_drop, List.length_append, List.length_take, List.length_drop,
      List.length_map]

theorem moveItem_perm {α : Type} (xs : List α) (f : Nat) (toOrder : Int) :
    (moveItem xs f toOrder).Perm xs := by
  unfold moveItem
  cases h : xs[f]? with
  | none => exact List.Perm.refl _
  | some x =>
    obtain ⟨hf, hx⟩ := List.getElem?_eq_some.mp h
    have h1 : ((xs.eraseIdx f).take (relIndex (xs.eraseIdx f).length toOrder) ++
        x :: (xs.eraseIdx f).drop (relIndex (xs.eraseIdx f).length toOrder)).Perm
        (x :: xs.eraseIdx f) := by
      refine List.perm_middle.trans ?_
      rw [List.take_append_drop]
    have h2 : (x :: xs.eraseIdx f).Perm xs := by
      rw [List.eraseIdx_eq_take_drop_succ]
      refine List.perm_middle.symm.trans ?_
      rw [← hx, ← List.drop_eq_getElem_cons hf, List.take_append_drop]
    exact h1.trans h2

theorem moveItem_length {α : Type} (xs : List α) (f : Nat) (toOrder : Int) :
    (moveItem xs f toOrder).length = xs.length :=
  (moveItem_perm xs f toOrder).length_eq

theorem renumber_map_some (rs : List Nat) (k : Nat) (heap : List Job) :
    renumber (rs.map some) k heap = .ok (writeAll rs k heap) := by
  induction rs generalizing k heap with
  | nil => rfl
  | cons r rest ih => simp only [List.map_cons, renumber, writeAll, ih]

theorem writeOrder_getElem?_ne (heap : List Job) (r k i : Nat) (h : i ≠ r) :
    (writeOrder heap r k)[i]? = heap[i]? := by
  unfold writeOrder
  cases hr : heap[r]? with
  | none => rfl
  | some job => simp [List.getElem?_set, Ne.symm h]

theorem writeOrder_getElem?_self (heap : List Job) (r k : Nat) (job : Job)
    (h : heap[r]? = some job) :
    (writeOrder heap r k)[r]? = some { job with order := (k : Int) } := by
  unfold writeOrder
  obtain ⟨hr, _⟩ := List.getElem?_eq_some.mp h
  simp [h, List.getElem?_set, hr]

theorem writeAll_getElem?_of_not_mem (rs : List Nat) (k : Nat) (heap : List Job) (i : Nat)
    (h : i ∉ rs) : (writeAll rs k heap)[i]? = heap[i]? := by
  induction rs generalizing k heap with
  | nil => rfl
  | cons r rest ih =>
    simp only [List.mem_cons, not_or] at h
    rw [writeAll, ih _ _ h.2, writeOrder_getElem?_ne _ _ _ _ h.1]

theorem filterMap_writeAll (P : List (Nat × Job)) (k : Nat) (heap : List Job)
    (hnd : (P.map Prod.fst).Nodup) (hget : ∀ p ∈ P, heap[p.1]? = some p.2) :
    (P.map Prod.fst).filterMap (fun r => (writeAll (P.map Prod.fst) k heap)[r]?)
      = reindex k (P.map Prod.snd) := by
  induction P generalizing k heap with
  | nil => rfl
  | cons p rest ih =>
    simp only [List.map_cons, List.nodup_cons] at hnd
    have hhead : (writeAll (p.1 :: rest.map Prod.fst) k heap)[p.1]?
        = some { p.2 with order := (k : Int) } := by
      rw [writeAll, writeAll_getElem?_of_not_mem _ _ _ _ hnd.1]
      exact writeOrder_getElem?_self _ _ _ _ (hget p (List.mem_cons_self _ _))
    have htail : ∀ q ∈ rest, (writeOrder heap p.1 k)[q.1]? = some q.2 := by
      intro q hq
      have hne : q.1 ≠ p.1 := by
        intro heq
        exact hnd.1 (heq ▸ List.mem_map_of_mem Prod.fst hq)
      rw [writeOrder_getElem?_ne _ _ _ _ hne]
      exact hget q (List.mem_cons_of_mem _ hq)
    simp only [List.map_cons, reindex]
    rw [List.filterMap_cons_some hhead]
    congr 1
    exact ih (k + 1) (writeOrder heap p.1 k) hnd.2 htail

theorem delay_ok {d : Draws} (h : ¬ d.failure < 0.075) : delay d = .ok () := by
  unfold delay; rw [if_neg h]

theorem delay_fail {d : Draws} (h : d.failure < 0.075) : delay d = .error .networkError := by
  unfold delay; rw [if_pos h]

theorem delay_eq_ok_iff (d : Draws) : delay d = .ok () ↔ ¬ d.failure < 0.075 := by
  unfold delay; split <;> simp [*]

theorem sortedPairs_perm (jobs : List Job) : (sortedPairs jobs).Perm jobs.enum :=
  List.perm_insertionSort _ _

theorem sortedPairs_map_snd (jobs : List Job) :
    (sortedPairs jobs).map Prod.snd = sortByOrder jobs := by
  unfold sortedPairs sortByOrder
  rw [List.map_insertionSort (fun a b => a.2.order ≤ b.2.order) (fun a b => a.order ≤ b.order)
    Prod.snd jobs.enum (fun _ _ _ _ => Iff.rfl), List.enum_map_snd]

theorem sortedRefs_length (jobs : List Job) : (sortedRefs jobs).length = jobs.length := by
  simp [sortedRefs, List.length_insertionSort]

theorem reorderJobs_ok (api : MockAPI) (d : Draws) (reorderDraw : ℚ) (fromOrder toOrder : Int)
    (hd : ¬ d.failure < 0.075) (hr : ¬ reorderDraw < 0.1) (h0 : 0 ≤ fromOrder)
    (hN : fromOrder < api.data.jobs.length) :
    reorderJobs api d reorderDraw fromOrder toOrder
      = (.ok (reordered api.data.jobs fromOrder.toNat toOrder),
         saveToStorage { api with data :=
           { api.data with jobs := reordered api.data.jobs fromOrder.toNat toOrder } }) := by
  have hlen : fromOrder < ((sortedRefs api.data.jobs).length : Int) := by
    rw [sortedRefs_length]; exact hN
  have hM : moveItem (sortedRefs api.data.jobs) fromOrder.toNat toOrder
      = (moveItem (sortedPairs api.data.jobs) fromOrder.toNat toOrder).map Prod.fst := by
    rw [← moveItem_map]; rfl
  have hperm : (moveItem (sortedPairs api.data.jobs) fromOrder.toNat toOrder).Perm
      api.data.jobs.enum := (moveItem_perm _ _ _).trans (sortedPairs_perm _)
  have hnd : ((moveItem (sortedPairs api.data.jobs) fromOrder.toNat toOrder).map
      Prod.fst).Nodup := by
    rw [(hperm.map Prod.fst).nodup_iff, List.enum_map_fst]
    exact List.nodup_range _
  have hget : ∀ p ∈ moveItem (sortedPairs api.data.jobs) fromOrder.toNat toOrder,
      api.data.jobs[p.1]? = some p.2 := by
    intro p hp
    exact List.mk_mem_enum_iff_getElem?.mp (hperm.mem_iff.mp hp)
  have hval : (moveItem (sortedPairs api.data.jobs) fromOrder.toNat toOrder).map Prod.snd
      = moveItem (sortByOrder api.data.jobs) fromOrder.toNat toOrder := by
    rw [← moveItem_map, sortedPairs_map_snd]
  unfold reorderJobs
  rw [delay_ok hd]
  simp only [if_neg hr]
  rw [twoSplices_eq _ _ _ h0 hlen, renumber_map_some]
  simp only [List.filterMap_map]
  have hfun : (deref (writeAll (moveItem (sortedRefs api.data.jobs) fromOrder.toNat toOrder) 0
      api.data.jobs) ∘ some) = fun r => (writeAll (moveItem (sortedRefs api.data.jobs)
        fromOrder.toNat toOrder) 0 api.data.jobs)[r]? := rfl
  rw [hfun, hM, filterMap_writeAll _ _ _ hnd hget, hval]
  rfl

theorem reindex_length (k : Nat) (xs : List Job) : (reindex k xs).length = xs.length := by
  induction xs generalizing k with
  | nil => rfl
  | cons x rest ih => simp [reindex, ih]

theorem reindex_map_order (k : Nat) (xs : List Job) :
    (reindex k xs).map (fun j => j.order)
      = (List.range' k xs.length).map (fun (i : Nat) => (i : Int)) := by
  induction xs generalizing k with
  | nil => rfl
  | cons x rest ih => simp [reindex, ih, List.range'_succ]

theorem reindex_map_id (k : Nat) (xs : List Job) :
    (reindex k xs).map (fun j => j.id) = xs.map (fun j => j.id) := by
  induction xs generalizing k with
  | nil => rfl
  | cons x rest ih => simp [reindex, ih]

theorem reindex_getElem? (k : Nat) (xs : List Job) (i : Nat) :
    (reindex k xs)[i]? = xs[i]?.map (fun j => { j with order := ((k + i : Nat) : Int) }) := by
  induction xs generalizing k i with
  | nil => rfl
  | cons x rest ih =>
    cases i with
    | zero => simp [reindex]
    | succ i =>
      simp only [reindex, List.getElem?_cons_succ, ih]
      have : k + 1 + i = k + (i + 1) := by omega
      rw [this]

theorem sortByOrder_length (jobs : List Job) : (sortByOrder jobs).length = jobs.length :=
  List.length_insertionSort _ _

theorem sortByOrder_perm (jobs : List Job) : (sortByOrder jobs).Perm jobs :=
  List.perm_insertionSort _ _

theorem reordered_orders (jobs : List Job) (f : Nat) (toOrder : Int) :
    (reordered jobs f toOrder).map (fun j => j.order) = denseOrders jobs.length := by
  unfold reordered denseOrders
  rw [reindex_map_order, moveItem_length, sortByOrder_length, List.range_eq_range']

theorem reordered_length (jobs : List Job) (f : Nat) (toOrder : Int) :
    (reordered jobs f toOrder).length = jobs.length := by
  unfold reordered
  rw [reindex_length, moveItem_length, sortByOrder_length]

theorem reorderJobs_success (api api1 : MockAPI) (d : Draws) (reorderDraw : ℚ)
    (fromOrder toOrder : Int) (result : List Job) (h0 : 0 ≤ fromOrder)
    (hN : fromOrder < api.data.jobs.length)
    (h : reorderJobs api d reorderDraw fromOrder toOrder = (.ok result, api1)) :
    (¬ d.failure < 0.075 ∧ ¬ reorderDraw < 0.1) ∧
      api1.data.jobs = reordered api.data.jobs fromOrder.toNat toOrder := by
  by_cases hd : d.failure < 0.075
  · simp [reorderJobs, delay_fail hd] at h
  · by_cases hr : reorderDraw < 0.1
    · simp [reorderJobs, delay_ok hd, hr] at h
    · rw [reorderJobs_ok api d reorderDraw fromOrder toOrder hd hr h0 hN] at h
      simp only [Prod.mk.injEq] at h
      refine ⟨⟨hd, hr⟩, ?_⟩
      rw [← h.2]; rfl

theorem runReorders_dense (cs : List ReorderCall) (api api1 : MockAPI) (n : Nat)
    (hlen : api.data.jobs.length = n)
    (hrange : ∀ call ∈ cs, 0 ≤ call.fromOrder ∧ call.fromOrder < n)
    (hdense : api.data.jobs.map (fun j => j.order) = denseOrders n)
    (h : runReorders api cs = .ok api1) :
    api1.data.jobs.map (fun j => j.order) = denseOrders n := by
  induction cs generalizing api with
  | nil =>
    simp only [runReorders, Except.ok.injEq] at h
    rw [← h]; exact hdense
  | cons c rest ih =>
    obtain ⟨hc0, hcN⟩ := hrange c (List.mem_cons_self _ _)
    simp only [runReorders] at h
    cases hcall : reorderJobs api c.d c.reorderDraw c.fromOrder c.toOrder with
    | mk out api2 =>
      rw [hcall] at h
      cases out with
      | error e => simp at h
      | ok result =>
        simp only at h
        have hs := (reorderJobs_success api api2 c.d c.reorderDraw c.fromOrder c.toOrder result
          hc0 (by rw [hlen]; exact hcN) hcall).2
        refine ih api2 ?_ (fun call hcall => hrange call (List.mem_cons_of_mem _ hcall)) ?_ h
        · rw [hs, reordered_length, hlen]
        · rw [hs, reordered_orders, hlen]

theorem runReorders_succeeds (cs : List ReorderCall) (api : MockAPI) (n : Nat)
    (hlen : api.data.jobs.length = n)
    (hrange : ∀ call ∈ cs, 0 ≤ call.fromOrder ∧ call.fromOrder < n)
    (hok : ∀ call ∈ cs, ¬ call.d.failure < 0.075 ∧ ¬ call.reorderDraw < 0.1) :
    ∃ api1, runReorders api cs = .ok api1 := by
  induction cs generalizing api with
  | nil => exact ⟨api, rfl⟩
  | cons c rest ih =>
    obtain ⟨hc0, hcN⟩ := hrange c (List.mem_cons_self _ _)
    obtain ⟨hd, hr⟩ := hok c (List.mem_cons_self _ _)
    simp only [runReorders]
    rw [reorderJobs_ok api c.d c.reorderDraw c.fromOrder c.toOrder hd hr hc0
      (by rw [hlen]; exact hcN)]
    simp only
    refine ih _ ?_ (fun call hcall => hrange call (List.mem_cons_of_mem _ hcall))
      (fun call hcall => hok call (List.mem_cons_of_mem _ hcall))
    simp only [saveToStorage]
    rw [reordered_length, hlen]

/-- C1: after a non-empty sequence of successful reorderJobs calls with
fromOrder in 0..N-1 on a collection of N jobs, whatever the order values were
before, the order values are exactly 0, 1, ..., N-1 in the stored sequence; and
such a sequence does succeed whenever no draw makes the transport fail. -/
theorem C1_order_invariant (api : MockAPI) (c : ReorderCall) (cs : List ReorderCall)
    (hrange : ∀ call ∈ c :: cs,
      0 ≤ call.fromOrder ∧ call.fromOrder < (api.data.jobs.length : Int)) :
    ((∀ call ∈ c :: cs, ¬ call.d.failure < 0.075 ∧ ¬ call.reorderDraw < 0.1) →
        ∃ api1, runReorders api (c :: cs) = .ok api1) ∧
      (∀ api1, runReorders api (c :: cs) = .ok api1 →
        api1.data.jobs.map (fun j => j.order) = denseOrders api.data.jobs.length ∧
        api1.data.jobs.length = api.data.jobs.length) := by
  have hrange1 : ∀ call ∈ c :: cs,
      0 ≤ call.fromOrder ∧ call.fromOrder < ((api.data.jobs.length : Nat) : Int) := hrange
  refine ⟨fun hok => runReorders_succeeds (c :: cs) api api.data.jobs.length rfl
    (fun call hcall => by have := hrange call hcall; omega) hok, ?_⟩
  intro api1 h
  obtain ⟨hc0, hcN⟩ := hrange c (List.mem_cons_self _ _)
  simp only [runReorders] at h
  cases hcall : reorderJobs api c.d c.reorderDraw c.fromOrder c.toOrder with
  | mk out api2 =>
    rw [hcall] at h
    cases out with
    | error e => simp at h
    | ok result =>
      simp only at h
      have hs := (reorderJobs_success api api2 c.d c.reorderDraw c.fromOrder c.toOrder result
        hc0 hcN hcall).2
      have hd := runReorders_dense cs api2 api1 api.data.jobs.length
        (by rw [hs, reordered_length])
        (fun call hcall => by
          have := hrange call (List.mem_cons_of_mem _ hcall); omega)
        (by rw [hs, reordered_orders]) h
      refine ⟨hd, ?_⟩
      have hl := congrArg List.length hd
      rw [List.length_map, denseOrders, List.length_map, List.length_range] at hl
      exact hl

theorem calmDraws_ok : ¬ calmDraws.failure < 0.075 := by
  norm_num [calmDraws]

theorem failingDraws_fail : failingDraws.failure < 0.075 := by
  norm_num [failingDraws]

theorem half_not_lt_tenth : ¬ ((1 : ℚ) / 2 < 0.1) := by norm_num

theorem C1_order_invariant_witness :
    ∃ api1, runReorders (sampleStore [sampleJob "a" 5, sampleJob "b" 3])
        [{ d := calmDraws, reorderDraw := 1 / 2, fromOrder := 1, toOrder := 0 }] = .ok api1 ∧
      api1.data.jobs.map (fun j => j.order) = [0, 1] := by
  have h := C1_order_invariant (sampleStore [sampleJob "a" 5, sampleJob "b" 3])
    { d := calmDraws, reorderDraw := 1 / 2, fromOrder := 1, toOrder := 0 } []
    (by intro call hc; simp only [List.mem_singleton] at hc; subst hc; decide)
  obtain ⟨api1, h1⟩ := h.1
    (by intro call hc; simp only [List.mem_singleton] at hc; subst hc
        exact ⟨calmDraws_ok, half_not_lt_tenth⟩)
  exact ⟨api1, h1, (h.2 api1 h1).1⟩

/-! ### The move as erase and insert (C2) -/

theorem insertIdx_eq_take_drop {α : Type} (x : α) (xs : List α) (k : Nat) (h : k ≤ xs.length) :
    xs.insertIdx k x = xs.take k ++ x :: xs.drop k := by
  induction xs generalizing k with
  | nil =>
    have : k = 0 := by simpa using h
    subst this; rfl
  | cons y rest ih =>
    cases k with
    | zero => rfl
    | succ k =>
      simp only [List.insertIdx_succ_cons, List.take_succ_cons, List.drop_succ_cons,
        List.cons_append]
      rw [ih k (by simpa using h)]

theorem moveItem_eq_insertIdx {α : Type} (xs : List α) (f t : Nat) (x : α)
    (hx : xs[f]? = some x) (ht : t < xs.length) :
    moveItem xs f (t : Int) = (xs.eraseIdx f).insertIdx t x := by
  obtain ⟨hf, _⟩ := List.getElem?_eq_some.mp hx
  have hlen : (xs.eraseIdx f).length = xs.length - 1 := List.length_eraseIdx_of_lt hf
  have hk : relIndex (xs.eraseIdx f).length (t : Int) = t := by
    rw [relIndex_of_nonneg _ _ (by omega), hlen]; simp; omega
  unfold moveItem
  rw [hx]
  simp only [hk]
  rw [insertIdx_eq_take_drop _ _ _ (by omega)]

theorem eraseIdx_map {α β : Type} (g : α → β) (xs : List α) (i : Nat) :
    (xs.map g).eraseIdx i = (xs.eraseIdx i).map g := by
  simp only [List.eraseIdx_eq_take_drop_succ, List.map_append, List.map_take, List.map_drop]

theorem sortByOrder_three (job1 job2 job3 : Job) (h1 : job1.order = 0) (h2 : job2.order = 1)
    (h3 : job3.order = 2) : sortByOrder [job1, job2, job3] = [job1, job2, job3] := by
  simp [sortByOrder, List.insertionSort, List.orderedInsert, h1, h2, h3]

/-- C2: on a collection of N jobs, a successful reorderJobs with fromOrder and
toOrder in 0..N-1 yields the order-sorted sequence with the element at index
fromOrder removed and inserted at index toOrder, renumbered: the moved job ends
with order toOrder, the ids of the other jobs keep their sequence, the ids are
a permutation of the original ids; and job1, job2, job3 at orders 0, 1, 2 with
reorderJobs(2, 0) give job3, job1, job2 with orders 0, 1, 2. -/
theorem C2_reorder_moves (api : MockAPI) (d : Draws) (reorderDraw : ℚ) (fromOrder toOrder : Int)
    (hd : ¬ d.failure < 0.075) (hr : ¬ reorderDraw < 0.1)
    (hf0 : 0 ≤ fromOrder) (hfN : fromOrder < (api.data.jobs.length : Int))
    (ht0 : 0 ≤ toOrder) (htN : toOrder < (api.data.jobs.length : Int)) :
    ∃ moved result,
      (sortByOrder api.data.jobs)[fromOrder.toNat]? = some moved ∧
      reorderJobs api d reorderDraw fromOrder toOrder
        = (.ok result, saveToStorage { api with data := { api.data with jobs := result } }) ∧
      result = reindex 0
        (((sortByOrder api.data.jobs).eraseIdx fromOrder.toNat).insertIdx toOrder.toNat moved) ∧
      result[toOrder.toNat]? = some { moved with order := toOrder } ∧
      (result.eraseIdx toOrder.toNat).map (fun j => j.id)
        = ((sortByOrder api.data.jobs).eraseIdx fromOrder.toNat).map (fun j => j.id) ∧
      (result.map (fun j => j.id)).Perm (api.data.jobs.map (fun j => j.id)) ∧
      result.map (fun j => j.order) = denseOrders api.data.jobs.length ∧
      (∀ job1 job2 job3 : Job, job1.order = 0 → job2.order = 1 → job3.order = 2 →
        api.data.jobs = [job1, job2, job3] → fromOrder = 2 → toOrder = 0 →
        result = [{ job3 with order := 0 }, { job1 with order := 1 },
                  { job2 with order := 2 }]) := by
  obtain ⟨f, rfl⟩ := Int.eq_ofNat_of_zero_le hf0
  obtain ⟨t, rfl⟩ := Int.eq_ofNat_of_zero_le ht0
  have hf : f < (sortByOrder api.data.jobs).length := by
    rw [sortByOrder_length]; exact_mod_cast hfN
  have ht : t < (sortByOrder api.data.jobs).length := by
    rw [sortByOrder_length]; exact_mod_cast htN
  have hx : (sortByOrder api.data.jobs)[f]? = some (sortByOrder api.data.jobs)[f] :=
    List.getElem?_eq_getElem hf
  have hmove := moveItem_eq_insertIdx (sortByOrder api.data.jobs) f t _ hx ht
  have hlenE : ((sortByOrder api.data.jobs).eraseIdx f).length
      = (sortByOrder api.data.jobs).length - 1 := List.length_eraseIdx_of_lt hf
  have htle : t ≤ ((sortByOrder api.data.jobs).eraseIdx f).length := by omega
  have hres : reordered api.data.jobs f (t : Int) = reindex 0
      (((sortByOrder api.data.jobs).eraseIdx f).insertIdx t (sortByOrder api.data.jobs)[f]) := by
    unfold reordered; rw [hmove]
  simp only [Int.toNat_ofNat]
  refine ⟨(sortByOrder api.data.jobs)[f], reordered api.data.jobs f (t : Int), hx, ?_, hres,
    ?_, ?_, ?_, ?_, ?_⟩
  · exact reorderJobs_ok api d reorderDraw (f : Int) (t : Int) hd hr hf0 hfN
  · rw [hres, reindex_getElem?]
    have hlt : t < (((sortByOrder api.data.jobs).eraseIdx f).insertIdx t
        (sortByOrder api.data.jobs)[f]).length := by
      rw [List.length_insertIdx _ _ htle]; omega
    rw [List.getElem?_eq_getElem hlt, List.getElem_insertIdx_self _ _ _ htle]
    simp
  · rw [← eraseIdx_map, hres, reindex_map_id, eraseIdx_map, List.eraseIdx_insertIdx]
  · rw [hres, reindex_map_id]
    refine List.Perm.map _ ?_
    rw [← hmove]
    exact (moveItem_perm _ _ _).trans (sortByOrder_perm _)
  · exact reordered_orders _ _ _
  · intro job1 job2 job3 h1 h2 h3 hjobs hfrom hto
    have hf2 : f = 2 := by exact_mod_cast hfrom
    have ht0 : t = 0 := by exact_mod_cast hto
    subst hf2; subst ht0
    rw [hres]
    simp only [hjobs, sortByOrder_three job1 job2 job3 h1 h2 h3]
    simp [reindex, List.eraseIdx]

theorem C2_reorder_moves_witness :
    ∃ result api1,
      reorderJobs (sampleStore [sampleJob "job1" 0, sampleJob "job2" 1, sampleJob "job3" 2])
          calmDraws (1 / 2) 2 0 = (.ok result, api1) ∧
      result = [sampleJob "job3" 0, sampleJob "job1" 1, sampleJob "job2" 2] := by
  obtain ⟨_, result, _, h2, _, _, _, _, _, h8⟩ :=
    C2_reorder_moves (sampleStore [sampleJob "job1" 0, sampleJob "job2" 1, sampleJob "job3" 2])
      calmDraws (1 / 2) 2 0 calmDraws_ok half_not_lt_tenth (by decide) (by decide) (by decide)
      (by decide)
  exact ⟨result, _, h2,
    h8 (sampleJob "job1" 0) (sampleJob "job2" 1) (sampleJob "job3" 2) rfl rfl rfl rfl rfl rfl⟩

/-! ### Transport failures of the mutating operations (C3) -/

theorem updateCandidate_outcome_of_calm (api : MockAPI) (d : Draws) (c : Clock) (id : String)
    (updates : CandidatePatch) (hd : ¬ d.failure < 0.075) :
    (∃ e, e.isTransport = false ∧ (updateCandidate api d c id updates).1 = .error e) ∨
    (∃ updated api1, updateCandidate api d c id updates = (.ok updated, saveToStorage api1)) := by
  unfold updateCandidate
  rw [delay_ok hd]
  simp only
  split
  · split
    · split
      · exact Or.inr ⟨_, _, rfl⟩
      · exact Or.inl ⟨.typeError, rfl, rfl⟩
    · exact Or.inl ⟨.typeError, rfl, rfl⟩
  · exact Or.inl ⟨.candidateNotFound, rfl, rfl⟩

/-- C3: a mutating call (createJob, updateJob, reorderJobs, updateCandidate,
saveAssessment) that fails with the simulated transport failure leaves the
store, that is the data and the persisted snapshot, as it was before. -/
theorem C3_transport_failure_atomic (lower : String → String) (api : MockAPI) (d : Draws)
    (m : Mutation) (e : ApiError) (hfail : (m.run lower api d).1 = some e)
    (htransport : e.isTransport = true) : (m.run lower api d).2 = api := by
  by_cases hd : d.failure < 0.075
  · cases m <;>
      simp [Mutation.run, TalentFlow.createJob, TalentFlow.updateJob, TalentFlow.reorderJobs,
        TalentFlow.updateCandidate, TalentFlow.saveAssessment, delay_fail hd]
  · cases m with
    | createJob c job =>
      simp [Mutation.run, TalentFlow.createJob, delay_ok hd, thrown] at hfail
    | saveAssessment jobId assessment =>
      simp [Mutation.run, TalentFlow.saveAssessment, delay_ok hd, thrown] at hfail
    | updateJob id updates =>
      simp only [Mutation.run, TalentFlow.updateJob, delay_ok hd] at hfail ⊢
      split at hfail
      · split at hfail
        · simp [thrown] at hfail
        · simp only [thrown, Option.some.injEq] at hfail
          subst hfail
          simp [ApiError.isTransport] at htransport
      · simp only [thrown, Option.some.injEq] at hfail
        subst hfail
        simp [ApiError.isTransport] at htransport
    | updateCandidate c id updates =>
      exfalso
      simp only [Mutation.run] at hfail
      rcases updateCandidate_outcome_of_calm api d c id updates hd
        with ⟨e1, he1, h⟩ | ⟨u, a, h⟩
      · rw [h] at hfail
        simp only [thrown, Option.some.injEq] at hfail
        subst hfail
        rw [he1] at htransport
        exact Bool.noConfusion htransport
      · rw [h] at hfail
        simp [thrown] at hfail
    | reorderJobs reorderDraw fromOrder toOrder =>
      simp only [Mutation.run, TalentFlow.reorderJobs, delay_ok hd] at hfail ⊢
      by_cases hr : reorderDraw < 0.1
      · simp [hr]
      · simp only [if_neg hr] at hfail ⊢
        split at hfail
        · simp only [thrown, Option.some.injEq] at hfail
          subst hfail
          simp [ApiError.isTransport] at htransport
        · simp [thrown] at hfail

theorem C3_transport_failure_atomic_witness :
    (Mutation.run id (sampleStore [sampleJob "a" 5, sampleJob "b" 3]) failingDraws
        (Mutation.reorderJobs (1 / 2) 0 1)).1 = some ApiError.networkError ∧
      (Mutation.run id (sampleStore [sampleJob "a" 5, sampleJob "b" 3]) failingDraws
        (Mutation.reorderJobs (1 / 2) 0 1)).2 = sampleStore [sampleJob "a" 5, sampleJob "b" 3] := by
  have hfail : (Mutation.run id (sampleStore [sampleJob "a" 5, sampleJob "b" 3]) failingDraws
      (Mutation.reorderJobs (1 / 2) 0 1)).1 = some ApiError.networkError := by
    simp [Mutation.run, TalentFlow.reorderJobs, delay_fail failingDraws_fail, thrown]
  exact ⟨hfail, C3_transport_failure_atomic id _ failingDraws _ ApiError.networkError hfail rfl⟩

/-! ### Out-of-range fromOrder (C4) -/

/-- C4 (failing input): on the jobs a (order 5) and b (order 3), reorderJobs(2, 1)
with a transport that does not fail throws a TypeError after b has been
renumbered to 0 and before a is reached: the stored collection is then neither
the collection before the call nor densely renumbered, and the persisted
snapshot is not written. -/
theorem C4_partial_renumbering_observable :
    reorderJobs (sampleStore [sampleJob "a" 5, sampleJob "b" 3]) calmDraws (1 / 2) 2 1
        = (.error .typeError, sampleStore [sampleJob "a" 5, sampleJob "b" 0]) ∧
      (sampleStore [sampleJob "a" 5, sampleJob "b" 0]).data.jobs
        ≠ (sampleStore [sampleJob "a" 5, sampleJob "b" 3]).data.jobs ∧
      (sampleStore [sampleJob "a" 5, sampleJob "b" 0]).data.jobs.map (fun j => j.order)
        ≠ denseOrders 2 := by
  refine ⟨?_, by decide, by decide⟩
  unfold reorderJobs
  rw [delay_ok calmDraws_ok]
  simp only [if_neg half_not_lt_tenth]
  rfl

/-! ### Stage changes and the trail (C5) -/

theorem find?_findIdx {α : Type} (p : α → Bool) (xs : List α) (x : α)
    (h : xs.find? p = some x) : xs.findIdx p < xs.length ∧ xs[xs.findIdx p]? = some x := by
  induction xs with
  | nil => simp at h
  | cons y ys ih =>
    rw [List.findIdx_cons]
    cases hp : p y with
    | true =>
      rw [List.find?_cons_of_pos _ hp] at h
      simp only [Option.some.injEq] at h
      subst h
      simp
    | false =>
      rw [List.find?_cons_of_neg _ (by simp [hp])] at h
      obtain ⟨h1, h2⟩ := ih h
      simp only [cond_false, List.length_cons, List.getElem?_cons_succ]
      exact ⟨by omega, h2⟩

theorem findIndex_of_find? {α : Type} (p : α → Bool) (xs : List α) (x : α)
    (h : xs.find? p = some x) :
    findIndex p xs ≥ 0 ∧ xs[(findIndex p xs).toNat]? = some x := by
  obtain ⟨h1, h2⟩ := find?_findIdx p xs x h
  unfold findIndex
  rw [if_pos h1]
  exact ⟨by omega, by simpa using h2⟩

theorem findIndex_of_find?_none {α : Type} (p : α → Bool) (xs : List α)
    (h : xs.find? p = none) : ¬ findIndex p xs ≥ 0 := by
  have hall : ∀ x ∈ xs, ¬ p x = true := by
    simpa [List.find?_eq_none] using h
  have : xs.findIdx p = xs.length := by
    rw [List.findIdx_eq_length]
    intro x hx
    simpa using hall x hx
  unfold findIndex
  rw [if_neg (by omega)]
  omega

theorem objGet_objSet {β : Type} (o : List (String × β)) (k : String) (v : β) :
    objGet (objSet o k v) k = some v := by
  induction o with
  | nil => simp [objSet, objGet]
  | cons p rest ih =>
    obtain ⟨k0, v0⟩ := p
    by_cases h : k0 = k
    · simp [objSet, objGet, h]
    · have hne : (k0 == k) = false := by simpa using h
      simp only [objSet, if_neg h, objGet, List.find?_cons, hne]
      exact ih

theorem truthy_of_ne_empty (s : String) (h : s ≠ "") : truthy (some s) = some s := by
  simp [truthy, h]

theorem objRead_objSet {β : Type} (o : List (String × β)) (k : String) (v : β) :
    objRead (objSet o k v) k = .value v := by
  simp [objRead, objGet_objSet]

theorem trailOf_ne_undefined (api : MockAPI) (id : String) : trailOf api id ≠ .undefined := by
  unfold trailOf
  split
  · simp
  · assumption

theorem pushStageChange_of_value (timelines : List (String × List TimelineEvent)) (id : String)
    (event : TimelineEvent) (trail : List TimelineEvent)
    (h : (match objRead timelines id with
          | .undefined => Lookup.value []
          | found => found) = .value trail) :
    pushStageChange timelines id event = some (objSet timelines id (trail ++ [event])) := by
  unfold pushStageChange
  cases hr : objRead timelines id with
  | value t =>
    rw [hr] at h
    simp only [Lookup.value.injEq] at h
    subst h
    rfl
  | inherited =>
    rw [hr] at h
    simp at h
  | undefined =>
    rw [hr] at h
    simp only [Lookup.value.injEq] at h
    subst h
    rfl

theorem pushStageChange_of_inherited (timelines : List (String × List TimelineEvent))
    (id : String) (event : TimelineEvent) (h : objRead timelines id = .inherited) :
    pushStageChange timelines id event = none := by
  unfold pushStageChange
  rw [h]

theorem updateCandidate_stage_kept (api : MockAPI) (d : Draws) (c : Clock) (id : String)
    (cand : Candidate) (newStage : String) (hd : ¬ d.failure < 0.075)
    (hfind : api.data.candidates.find? (fun x => x.id = id) = some cand)
    (hkept : newStage = "" ∨ newStage = cand.stage) :
    (updateCandidate api d c id (stagePatch newStage)).1 = .ok { cand with stage := newStage } ∧
    trailOf (updateCandidate api d c id (stagePatch newStage)).2 id = trailOf api id := by
  obtain ⟨h1, h2⟩ := findIndex_of_find? _ _ _ hfind
  unfold updateCandidate
  rw [delay_ok hd]
  simp only [if_pos h1, h2]
  by_cases he : newStage = ""
  · subst he
    simp [trailOf, saveToStorage, stagePatch, truthy, Candidate.spread]
  · rcases hkept with hk | hk
    · exact absurd hk he
    · subst hk
      simp [trailOf, saveToStorage, stagePatch, truthy, he, Candidate.spread]

theorem updateCandidate_stage_change (api : MockAPI) (d : Draws) (c : Clock) (id : String)
    (cand : Candidate) (newStage : String) (hd : ¬ d.failure < 0.075)
    (hfind : api.data.candidates.find? (fun x => x.id = id) = some cand)
    (hnonempty : newStage ≠ "") (hne : newStage ≠ cand.stage) (trail : List TimelineEvent)
    (htrail : trailOf api id = .value trail) :
    (updateCandidate api d c id (stagePatch newStage)).1 = .ok { cand with stage := newStage } ∧
    trailOf (updateCandidate api d c id (stagePatch newStage)).2 id
      = .value (trail ++ [stageChangeEvent c id cand.stage newStage]) := by
  obtain ⟨h1, h2⟩ := findIndex_of_find? _ _ _ hfind
  have hpush := pushStageChange_of_value api.data.candidateTimelines id
    (stageChangeEvent c id cand.stage newStage) trail htrail
  unfold stageChangeEvent at hpush
  unfold updateCandidate
  rw [delay_ok hd]
  simp only [if_pos h1, h2, stagePatch, truthy_of_ne_empty _ hnonempty, ne_eq, hne,
    not_false_eq_true, if_true, hpush]
  refine ⟨by simp [Candidate.spread], ?_⟩
  simp [trailOf, saveToStorage, objRead_objSet, stageChangeEvent]

theorem updateCandidate_stage_throws (api : MockAPI) (d : Draws) (c : Clock) (id : String)
    (cand : Candidate) (newStage : String) (hd : ¬ d.failure < 0.075)
    (hfind : api.data.candidates.find? (fun x => x.id = id) = some cand)
    (hnonempty : newStage ≠ "") (hne : newStage ≠ cand.stage)
    (htrail : trailOf api id = .inherited) :
    (updateCandidate api d c id (stagePatch newStage)).1 = .error .typeError ∧
    (updateCandidate api d c id (stagePatch newStage)).2.storage = api.storage := by
  obtain ⟨h1, h2⟩ := findIndex_of_find? _ _ _ hfind
  have hread : objRead api.data.candidateTimelines id = .inherited := by
    unfold trailOf at htrail
    split at htrail
    · simp at htrail
    · exact htrail
  have hpush := pushStageChange_of_inherited api.data.candidateTimelines id
    (stageChangeEvent c id cand.stage newStage) hread
  unfold stageChangeEvent at hpush
  unfold updateCandidate
  rw [delay_ok hd]
  simp only [if_pos h1, h2, stagePatch, truthy_of_ne_empty _ hnonempty, ne_eq, hne,
    not_false_eq_true, if_true, hpush]
  exact ⟨trivial, trivial⟩

/-- C5 (amended): for an existing candidate with stage oldStage and a non-empty
new stage, a successful updateCandidate(id, stage newStage) returns the
candidate with the new stage and leaves the trail with exactly one event
appended at the end when newStage differs from oldStage (type stage_change,
from oldStage, to newStage, note Moved from oldStage to newStage; the earlier
events are unchanged), and leaves the trail unchanged when the stages are
equal. When the transport does not fail the call succeeds, except for a stage
change of a candidate whose id the timelines object resolves to a property
inherited from Object.prototype: there it throws a TypeError. -/
theorem C5_stage_change_appends_one_event (api : MockAPI) (d : Draws) (c : Clock) (id : String)
    (cand : Candidate) (newStage : String) (hd : ¬ d.failure < 0.075)
    (hfind : api.data.candidates.find? (fun x => x.id = id) = some cand)
    (hnonempty : newStage ≠ "") :
    ((newStage = cand.stage ∨ trailOf api id ≠ .inherited) →
      (updateCandidate api d c id (stagePatch newStage)).1
        = .ok { cand with stage := newStage }) ∧
    (newStage ≠ cand.stage → trailOf api id = .inherited →
      (updateCandidate api d c id (stagePatch newStage)).1 = .error .typeError) ∧
    (∀ updated, (updateCandidate api d c id (stagePatch newStage)).1 = .ok updated →
      updated = { cand with stage := newStage } ∧
      (newStage ≠ cand.stage →
        ∃ trail, trailOf api id = .value trail ∧
          trailOf (updateCandidate api d c id (stagePatch newStage)).2 id
            = .value (trail ++
                [{ id := "timeline-" ++ id ++ "-" ++ toString c.now, type := "stage_change",
                   fromStage := some cand.stage, toStage := newStage, timestamp := c.iso,
                   note := "Moved from " ++ cand.stage ++ " to " ++ newStage }])) ∧
      (newStage = cand.stage →
        trailOf (updateCandidate api d c id (stagePatch newStage)).2 id = trailOf api id)) := by
  by_cases hs : newStage = cand.stage
  · obtain ⟨h1, h2⟩ := updateCandidate_stage_kept api d c id cand newStage hd hfind (Or.inr hs)
    refine ⟨fun _ => h1, fun hne => absurd hs hne, ?_⟩
    intro updated hu
    rw [h1] at hu
    exact ⟨(Except.ok.inj hu).symm, fun hne => absurd hs hne, fun _ => h2⟩
  · cases htrail : trailOf api id with
    | undefined => exact absurd htrail (trailOf_ne_undefined api id)
    | inherited =>
      obtain ⟨h1, _⟩ := updateCandidate_stage_throws api d c id cand newStage hd hfind
        hnonempty hs htrail
      refine ⟨?_, fun _ _ => h1, ?_⟩
      · rintro (h | h)
        · exact absurd h hs
        · exact absurd rfl h
      · intro updated hu
        rw [h1] at hu
        exact Except.noConfusion hu
    | value trail =>
      obtain ⟨h1, h2⟩ := updateCandidate_stage_change api d c id cand newStage hd hfind
        hnonempty hs trail htrail
      refine ⟨fun _ => h1, fun _ h => Lookup.noConfusion h, ?_⟩
      intro updated hu
      rw [h1] at hu
      exact ⟨(Except.ok.inj hu).symm, fun _ => ⟨trail, rfl, h2⟩, fun h => absurd h hs⟩

theorem C5_stage_change_appends_one_event_witness :
    (updateCandidate (candidateStore "candidate-1" "applied") calmDraws sampleClock
        "candidate-1" (stagePatch "tech")).1 = .ok (sampleCandidate "candidate-1" "tech") ∧
    ∃ trail, trailOf (candidateStore "candidate-1" "applied") "candidate-1" = .value trail ∧
      trailOf (updateCandidate (candidateStore "candidate-1" "applied") calmDraws sampleClock
        "candidate-1" (stagePatch "tech")).2 "candidate-1"
        = .value (trail ++ [stageChangeEvent sampleClock "candidate-1" "applied" "tech"]) := by
  have h := C5_stage_change_appends_one_event (candidateStore "candidate-1" "applied") calmDraws
    sampleClock "candidate-1" (sampleCandidate "candidate-1" "applied") "tech" calmDraws_ok
    rfl (by decide)
  have hok := h.1 (Or.inr (by decide))
  exact ⟨hok, (h.2.2 _ hok).2.1 (by decide)⟩

/-- C5 (counterexample): the new stage value given as the empty string differs
from the old stage applied and is stored as the stage of the candidate, yet the
successful call appends no event to the trail. -/
theorem C5_empty_stage_appends_nothing :
    (updateCandidate (candidateStore "candidate-1" "applied") calmDraws sampleClock
        "candidate-1" (stagePatch "")).1 = .ok (sampleCandidate "candidate-1" "") ∧
      "" ≠ (sampleCandidate "candidate-1" "applied").stage ∧
      trailOf (updateCandidate (candidateStore "candidate-1" "applied") calmDraws sampleClock
        "candidate-1" (stagePatch "")).2 "candidate-1"
        = trailOf (candidateStore "candidate-1" "applied") "candidate-1" := by
  obtain ⟨h1, h2⟩ := updateCandidate_stage_kept (candidateStore "candidate-1" "applied")
    calmDraws sampleClock "candidate-1" (sampleCandidate "candidate-1" "applied") ""
    calmDraws_ok rfl (Or.inl rfl)
  exact ⟨h1, by decide, h2⟩

theorem updateCandidate_inherited_key_throws :
    trailOf inheritedIdStore "constructor" = .inherited ∧
    updateCandidate inheritedIdStore calmDraws sampleClock "constructor" (stagePatch "tech")
      = (.error .typeError,
         { inheritedIdStore with
           data := { inheritedIdStore.data with
             candidates := [sampleCandidate "constructor" "tech"] } }) := by
  refine ⟨by decide, ?_⟩
  unfold updateCandidate
  rw [delay_ok calmDraws_ok]
  decide

/-! ### Queries: filter, sort, paginate (C6, C7, C8) -/

theorem jsSlice_of_nonneg {α : Type} (xs : List α) (s n : Int) (hs : 0 ≤ s) (hn : 0 ≤ n) :
    jsSlice xs s (s + n) = (xs.drop s.toNat).take n.toNat := by
  simp only [jsSlice]
  rw [relIndex_of_nonneg _ _ hs, relIndex_of_nonneg _ _ (by omega)]
  by_cases hlen : xs.length ≤ s.toNat
  · rw [min_eq_right hlen, List.drop_of_length_le (le_refl _), List.drop_of_length_le hlen]
    simp
  · have hk : min s.toNat xs.length = s.toNat := by omega
    rw [hk, List.take_eq_take]
    simp only [List.length_drop]
    omega

theorem jsSlice_of_length_le {α : Type} (xs : List α) (s e : Int) (hs : (xs.length : Int) ≤ s) :
    jsSlice xs s e = [] := by
  simp only [jsSlice]
  rw [relIndex_of_nonneg xs.length s (by omega)]
  have hk : min s.toNat xs.length = xs.length := by omega
  rw [hk, List.drop_of_length_le (le_refl _)]
  simp

theorem truthy_eq_none (filter : Option String) (h : truthy filter = none) :
    isEmptyFilter filter = true := by
  cases filter with
  | none => rfl
  | some s =>
    by_cases hs : s = ""
    · simp [isEmptyFilter, hs]
    · simp [truthy, hs] at h

theorem truthy_eq_some (filter : Option String) (s : String) (h : truthy filter = some s) :
    filter = some s ∧ isEmptyFilter (some s) = false := by
  cases filter with
  | none => simp [truthy] at h
  | some t =>
    by_cases ht : t = ""
    · simp [truthy, ht] at h
    · simp only [truthy, if_neg ht, Option.some.injEq] at h
      subst h
      simp [isEmptyFilter, ht]

theorem getJobs_eq (lower : String → String) (api : MockAPI) (d : Draws) (params : JobParams)
    (hd : ¬ d.failure < 0.075) :
    getJobs lower api d params
      = (.ok { jobs := jsSlice
                 (sortByOrder (api.data.jobs.filter (jobMatches lower params.search params.status)))
                 ((parseIntOr params.page 1 - 1) * parseIntOr params.pageSize 10)
                 ((parseIntOr params.page 1 - 1) * parseIntOr params.pageSize 10
                   + parseIntOr params.pageSize 10),
               total := (api.data.jobs.filter
                 (jobMatches lower params.search params.status)).length,
               page := parseIntOr params.page 1,
               pageSize := parseIntOr params.pageSize 10 }, api) := by
  unfold getJobs
  rw [delay_ok hd]
  simp only [sortByOrder_length]
  cases h1 : truthy params.search with
  | none =>
    have e1 := truthy_eq_none _ h1
    cases h2 : truthy params.status with
    | none =>
      have e2 := truthy_eq_none _ h2
      have hp : jobMatches lower params.search params.status = fun _ => true := by
        funext job; simp [jobMatches, e1, e2]
      simp [hp]
    | some st =>
      obtain ⟨e2, e3⟩ := truthy_eq_some _ _ h2
      have hp : jobMatches lower params.search params.status
          = fun job => decide (job.status = st) := by
        funext job; simp [jobMatches, e1, e2, e3]
      simp [hp]
  | some se =>
    obtain ⟨e1, e1'⟩ := truthy_eq_some _ _ h1
    cases h2 : truthy params.status with
    | none =>
      have e2 := truthy_eq_none _ h2
      have hp : jobMatches lower params.search params.status
          = fun job => includes (lower job.title) (lower se) := by
        funext job; simp [jobMatches, e1, e1', e2, containsIgnoringCase]
      simp [hp]
    | some st =>
      obtain ⟨e2, e3⟩ := truthy_eq_some _ _ h2
      have hp : jobMatches lower params.search params.status
          = fun job => decide (job.status = st) && includes (lower job.title) (lower se) := by
        funext job
        simp [jobMatches, e1, e1', e2, e3, containsIgnoringCase, Bool.and_comm]
      simp [hp, List.filter_filter]

theorem getCandidates_eq (lower : String → String) (api : MockAPI) (d : Draws)
    (params : CandidateParams) (hd : ¬ d.failure < 0.075) :
    getCandidates lower api d params
      = (.ok { candidates := jsSlice
                 (api.data.candidates.filter (candidateMatches lower params.search params.stage))
                 ((parseIntOr params.page 1 - 1) * parseIntOr params.pageSize 50)
                 ((parseIntOr params.page 1 - 1) * parseIntOr params.pageSize 50
                   + parseIntOr params.pageSize 50),
               total := (api.data.candidates.filter
                 (candidateMatches lower params.search params.stage)).length,
               page := parseIntOr params.page 1,
               pageSize := parseIntOr params.pageSize 50 }, api) := by
  unfold getCandidates
  rw [delay_ok hd]
  simp only
  cases h1 : truthy params.search with
  | none =>
    have e1 := truthy_eq_none _ h1
    cases h2 : truthy params.stage with
    | none =>
      have e2 := truthy_eq_none _ h2
      have hp : candidateMatches lower params.search params.stage = fun _ => true := by
        funext c; simp [candidateMatches, e1, e2]
      simp [hp]
    | some st =>
      obtain ⟨e2, e3⟩ := truthy_eq_some _ _ h2
      have hp : candidateMatches lower params.search params.stage
          = fun c => decide (c.stage = st) := by
        funext c; simp [candidateMatches, e1, e2, e3]
      simp [hp]
  | some se =>
    obtain ⟨e1, e1'⟩ := truthy_eq_some _ _ h1
    cases h2 : truthy params.stage with
    | none =>
      have e2 := truthy_eq_none _ h2
      have hp : candidateMatches lower params.search params.stage
          = fun c => includes (lower c.name) (lower se) || includes (lower c.email) (lower se) := by
        funext c; simp [candidateMatches, e1, e1', e2, containsIgnoringCase]
      simp [hp]
    | some st =>
      obtain ⟨e2, e3⟩ := truthy_eq_some _ _ h2
      have hp : candidateMatches lower params.search params.stage
          = fun c => decide (c.stage = st) &&
              (includes (lower c.name) (lower se) || includes (lower c.email) (lower se)) := by
        funext c
        simp [candidateMatches, e1, e1', e2, e3, containsIgnoringCase, Bool.and_comm]
      simp [hp, List.filter_filter]

theorem sortByOrder_sorted (jobs : List Job) :
    (sortByOrder jobs).Sorted (fun a b => a.order ≤ b.order) := by
  haveI : IsTotal Job (fun a b => a.order ≤ b.order) := ⟨fun a b => le_total a.order b.order⟩
  haveI : IsTrans Job (fun a b => a.order ≤ b.order) :=
    ⟨fun a b c hab hbc => le_trans hab hbc⟩
  exact List.sorted_insertionSort _ _

theorem bitLengthAux_le (fuel n k : Nat) (h : n < 2 ^ k) : bitLengthAux fuel n ≤ k := by
  induction fuel generalizing n k with
  | zero => simp [bitLengthAux]
  | succ fuel ih =>
    unfold bitLengthAux
    split
    · omega
    · rename_i hn
      cases k with
      | zero => simp at h; exact absurd h hn
      | succ k =>
        have := ih (n / 2) k (by rw [pow_succ] at h; omega)
        omega

theorem toNumber_of_lt (n : Nat) (h : n < 2 ^ 53) : toNumber n = some n := by
  have hb : bitLength n ≤ 53 := bitLengthAux_le n n 53 h
  have hb2 : bitLength n ≤ 1024 := by omega
  unfold toNumber
  simp only [Nat.sub_eq_zero_of_le hb, pow_zero, Nat.div_one, Nat.mod_one, Nat.mul_zero,
    Nat.mul_one]
  simp [hb2]

theorem isPlainNumber_of_lt (n : Int) (h : n.natAbs < 2 ^ 53) : isPlainNumber n :=
  ⟨toNumber_of_lt _ h, lt_trans h (by norm_num)⟩

theorem parseInt_of_plain (n : Int) (h : isPlainNumber n) : parseInt n = some n := by
  obtain ⟨h1, h2⟩ := h
  have key : ∀ r : Option Nat, r = some n.natAbs →
      (match r with
        | none => none
        | some x => if x < 10 ^ 21 then some (n.sign * (x : Int))
          else some (n.sign * (firstDigit x : Int))) = some n := by
    intro r hr
    subst hr
    simp only
    rw [if_pos h2, Int.sign_mul_natAbs]
  exact key _ h1

theorem parseIntOr_of_pos (n d : Int) (h : 1 ≤ n) (hplain : isPlainNumber n) :
    parseIntOr (some n) d = n := by
  have key : ∀ r : Option Int, r = some n →
      (match r with
        | some m => if m = 0 then d else m
        | none => d) = n := by
    intro r hr
    subst hr
    simp only
    rw [if_neg (by omega)]
  exact key _ (parseInt_of_plain n hplain)

theorem parseIntOr_pos (n d : Int) (hn : 1 ≤ n) (hd : 1 ≤ d) : 1 ≤ parseIntOr (some n) d := by
  have hsign : n.sign = 1 := Int.sign_eq_one_of_pos (by omega)
  have key : ∀ m : Nat, 1 ≤ (if ((m : Int) = 0) then d else (m : Int)) := by
    intro m
    split
    · exact hd
    · omega
  unfold parseIntOr parseInt
  simp only [hsign, one_mul]
  cases toNumber n.natAbs with
  | none => exact hd
  | some x =>
    simp only
    by_cases hx : x < 10 ^ 21
    · rw [if_pos hx]
      exact key x
    · rw [if_neg hx]
      exact key (firstDigit x)

theorem parseInt_sextillion : parseInt (10 ^ 21) = some 1 := by decide

/-- C6 (amended): for search, status, and page and pageSize at least 1 that
parseInt reads back as themselves (Numbers below 10^21), a successful getJobs
returns as total the number of jobs whose title contains the search text
case-insensitively (every job when the search is empty) and whose status
equals the status filter (every job when the filter is empty), and as items
the slice from (page-1)*pageSize of length pageSize of those jobs sorted
ascending by order; the store is not changed. -/
theorem C6_getJobs_filter_sort_paginate (lower : String → String) (api : MockAPI) (d : Draws)
    (params : JobParams) (page pageSize : Int) (hd : ¬ d.failure < 0.075)
    (hpage : params.page = some page) (hsize : params.pageSize = some pageSize)
    (h1 : 1 ≤ page) (h2 : 1 ≤ pageSize)
    (hplain : isPlainNumber page ∧ isPlainNumber pageSize) :
    ∃ result, getJobs lower api d params = (.ok result, api) ∧
      result.total = api.data.jobs.countP (jobMatches lower params.search params.status) ∧
      result.jobs =
        ((sortByOrder (api.data.jobs.filter (jobMatches lower params.search params.status))).drop
          ((page - 1) * pageSize).toNat).take pageSize.toNat ∧
      (sortByOrder (api.data.jobs.filter (jobMatches lower params.search params.status))).Sorted
        (fun a b => a.order ≤ b.order) ∧
      (sortByOrder (api.data.jobs.filter (jobMatches lower params.search params.status))).Perm
        (api.data.jobs.filter (jobMatches lower params.search params.status)) ∧
      result.page = page ∧ result.pageSize = pageSize ∧
      (isEmptyFilter params.search = true → isEmptyFilter params.status = true →
        result.total = api.data.jobs.length) := by
  refine ⟨_, getJobs_eq lower api d params hd, ?_, ?_, ?_, ?_, ?_, ?_, ?_⟩
  · exact (List.countP_eq_length_filter _ _).symm
  · rw [hpage, hsize, parseIntOr_of_pos _ _ h1 hplain.1, parseIntOr_of_pos _ _ h2 hplain.2]
    exact jsSlice_of_nonneg _ _ _ (by nlinarith) (by omega)
  · exact sortByOrder_sorted _
  · exact sortByOrder_perm _
  · rw [hpage, parseIntOr_of_pos _ _ h1 hplain.1]
  · rw [hsize, parseIntOr_of_pos _ _ h2 hplain.2]
  · intro he1 he2
    have hp : jobMatches lower params.search params.status = fun _ => true := by
      funext job; simp [jobMatches, he1, he2]
    simp [hp]

theorem C6_getJobs_filter_sort_paginate_witness :
    ∃ result,
      getJobs id (sampleStore [sampleJob "a" 2, sampleJob "b" 0, sampleJob "c" 1]) calmDraws
        { search := none, status := some "active", page := some 1, pageSize := some 2 }
        = (.ok result, sampleStore [sampleJob "a" 2, sampleJob "b" 0, sampleJob "c" 1]) ∧
      result.total = 3 ∧ result.jobs = [sampleJob "b" 0, sampleJob "c" 1] := by
  obtain ⟨result, h1, h2, h3, _⟩ := C6_getJobs_filter_sort_paginate id
    (sampleStore [sampleJob "a" 2, sampleJob "b" 0, sampleJob "c" 1]) calmDraws
    { search := none, status := some "active", page := some 1, pageSize := some 2 } 1 2
    calmDraws_ok rfl rfl (by decide) (by decide) (by decide)
  exact ⟨result, h1, h2.trans (by decide), h3.trans (by decide)⟩

/-- C6 (counterexample): page 10^21 is at least 1, and the slice from
(page-1)*pageSize of the three jobs is empty; but parseInt reads the rendering
1e+21 of the page as 1, so the successful getJobs returns the first two jobs
and page 1. -/
theorem C6_page_in_exponent_notation_read_as_one :
    (getJobs id (sampleStore [sampleJob "a" 0, sampleJob "b" 1, sampleJob "c" 2]) calmDraws
        { search := none, status := none, page := some (10 ^ 21), pageSize := some 2 }).1
      = .ok { jobs := [sampleJob "a" 0, sampleJob "b" 1], total := 3, page := 1,
              pageSize := 2 } ∧
    (([sampleJob "a" 0, sampleJob "b" 1, sampleJob "c" 2].drop
        ((((10 : Int) ^ 21 - 1) * 2).toNat)).take (2 : Int).toNat) = [] := by
  constructor
  · rw [getJobs_eq _ _ _ _ calmDraws_ok]
    decide
  · decide

/-- C7 (amended): for search, stage, and page and pageSize at least 1 that
parseInt reads back as themselves (Numbers below 10^21), a successful
getCandidates returns as total the number of candidates whose name or email
contains the search text case-insensitively (all when the search is empty) and
whose stage equals the stage filter (all when the filter is empty), and as
items the slice from (page-1)*pageSize of length pageSize of the matching
candidates in store order; with exactly 15 candidates in stage hired, the
query for stage hired, page 2, pageSize 10 returns 5 items and total 15. -/
theorem C7_getCandidates_filter_paginate (lower : String → String) (api : MockAPI) (d : Draws)
    (params : CandidateParams) (page pageSize : Int) (hd : ¬ d.failure < 0.075)
    (hpage : params.page = some page) (hsize : params.pageSize = some pageSize)
    (h1 : 1 ≤ page) (h2 : 1 ≤ pageSize)
    (hplain : isPlainNumber page ∧ isPlainNumber pageSize) :
    ∃ result, getCandidates lower api d params = (.ok result, api) ∧
      result.total
        = api.data.candidates.countP (candidateMatches lower params.search params.stage) ∧
      result.candidates =
        ((api.data.candidates.filter (candidateMatches lower params.search params.stage)).drop
          ((page - 1) * pageSize).toNat).take pageSize.toNat ∧
      result.page = page ∧ result.pageSize = pageSize ∧
      (isEmptyFilter params.search = true → isEmptyFilter params.stage = true →
        result.total = api.data.candidates.length) ∧
      (params.search = none → params.stage = some "hired" → page = 2 → pageSize = 10 →
        api.data.candidates.countP (fun c => c.stage = "hired") = 15 →
        result.candidates.length = 5 ∧ result.total = 15) := by
  have hslice : jsSlice
      (api.data.candidates.filter (candidateMatches lower params.search params.stage))
      ((parseIntOr params.page 1 - 1) * parseIntOr params.pageSize 50)
      ((parseIntOr params.page 1 - 1) * parseIntOr params.pageSize 50
        + parseIntOr params.pageSize 50)
      = ((api.data.candidates.filter (candidateMatches lower params.search params.stage)).drop
          ((page - 1) * pageSize).toNat).take pageSize.toNat := by
    rw [hpage, hsize, parseIntOr_of_pos _ _ h1 hplain.1, parseIntOr_of_pos _ _ h2 hplain.2]
    exact jsSlice_of_nonneg _ _ _ (by nlinarith) (by omega)
  refine ⟨_, getCandidates_eq lower api d params hd, ?_, hslice, ?_, ?_, ?_, ?_⟩
  · exact (List.countP_eq_length_filter _ _).symm
  · rw [hpage, parseIntOr_of_pos _ _ h1 hplain.1]
  · rw [hsize, parseIntOr_of_pos _ _ h2 hplain.2]
  · intro he1 he2
    have hp : candidateMatches lower params.search params.stage = fun _ => true := by
      funext c; simp [candidateMatches, he1, he2]
    simp [hp]
  · intro hs hst hp2 hps hcount
    have hp : candidateMatches lower params.search params.stage
        = fun c => decide (c.stage = "hired") := by
      funext c; simp [candidateMatches, hs, hst, isEmptyFilter]
    have hlen : (api.data.candidates.filter (fun c => decide (c.stage = "hired"))).length = 15 := by
      rw [← List.countP_eq_length_filter]; exact hcount
    simp only
    rw [hslice, hp, hp2, hps]
    simp [hlen]

theorem C7_getCandidates_filter_paginate_witness :
    ∃ result,
      getCandidates id hiredStore calmDraws
        { search := none, stage := some "hired", page := some 2, pageSize := some 10 }
        = (.ok result, hiredStore) ∧
      result.candidates.length = 5 ∧ result.total = 15 := by
  obtain ⟨result, h1, _, _, _, _, _, h7⟩ := C7_getCandidates_filter_paginate id hiredStore
    calmDraws { search := none, stage := some "hired", page := some 2, pageSize := some 10 }
    2 10 calmDraws_ok rfl rfl (by decide) (by decide) (by decide)
  exact ⟨result, h1, h7 rfl rfl rfl rfl (by decide)⟩

/-- C7 (counterexample): with fifteen candidates in stage hired and pageSize 10,
page 10^21 is at least 1 and its slice from (page-1)*pageSize is empty; but
parseInt reads the rendering 1e+21 of the page as 1, so the successful
getCandidates returns ten candidates and page 1. -/
theorem C7_page_in_exponent_notation_read_as_one :
    (∃ result, (getCandidates id hiredStore calmDraws
        { search := none, stage := some "hired", page := some (10 ^ 21),
          pageSize := some 10 }).1 = .ok result ∧
      result.candidates.length = 10 ∧ result.total = 15 ∧ result.page = 1) ∧
    (((hiredStore.data.candidates.filter (candidateMatches id none (some "hired"))).drop
        ((((10 : Int) ^ 21 - 1) * 10).toNat)).take (10 : Int).toNat) = [] := by
  constructor
  · rw [getCandidates_eq _ _ _ _ calmDraws_ok]
    exact ⟨_, rfl, by decide, by decide, by decide⟩
  · decide

theorem start_ge_of_beyond (total : Nat) (page pageSize : Int) (hsize : 1 ≤ pageSize)
    (hbeyond : lastPage total pageSize < page) : (total : Int) ≤ (page - 1) * pageSize := by
  unfold lastPage at hbeyond
  have h := (Int.ediv_lt_iff_lt_mul (by omega : 0 < pageSize)).mp hbeyond
  nlinarith

/-- C8 (amended): for pageSize at least 1 and a page beyond the last one, that
is greater than the ceiling of total / pageSize, both of them numbers that
parseInt reads back as themselves (Numbers below 10^21), a successful getJobs
or getCandidates returns no items together with total equal to the number of
entities matching the filters. -/
theorem C8_page_beyond_last_is_empty (lower : String → String) (api : MockAPI) (d : Draws)
    (jp : JobParams) (cp : CandidateParams) (page pageSize : Int) (hd : ¬ d.failure < 0.075)
    (hsize : 1 ≤ pageSize) (hplain : isPlainNumber page ∧ isPlainNumber pageSize)
    (hjp : jp.page = some page ∧ jp.pageSize = some pageSize)
    (hcp : cp.page = some page ∧ cp.pageSize = some pageSize) :
    (lastPage (api.data.jobs.countP (jobMatches lower jp.search jp.status)) pageSize < page →
      ∃ result, getJobs lower api d jp = (.ok result, api) ∧ result.jobs = [] ∧
        result.total = api.data.jobs.countP (jobMatches lower jp.search jp.status)) ∧
    (lastPage (api.data.candidates.countP (candidateMatches lower cp.search cp.stage)) pageSize
        < page →
      ∃ result, getCandidates lower api d cp = (.ok result, api) ∧ result.candidates = [] ∧
        result.total
          = api.data.candidates.countP (candidateMatches lower cp.search cp.stage)) := by
  have hnonneg : ∀ total : Nat, 0 ≤ lastPage total pageSize := by
    intro total
    unfold lastPage
    exact Int.ediv_nonneg (by omega) (by omega)
  constructor
  · intro hb
    have hpage : 1 ≤ page := by have := hnonneg (api.data.jobs.countP
      (jobMatches lower jp.search jp.status)); omega
    have hstart := start_ge_of_beyond _ page pageSize hsize hb
    refine ⟨_, getJobs_eq lower api d jp hd, ?_, (List.countP_eq_length_filter _ _).symm⟩
    rw [hjp.1, hjp.2, parseIntOr_of_pos _ _ hpage hplain.1,
      parseIntOr_of_pos _ _ hsize hplain.2]
    apply jsSlice_of_length_le
    rw [sortByOrder_length, ← List.countP_eq_length_filter]
    exact hstart
  · intro hb
    have hpage : 1 ≤ page := by have := hnonneg (api.data.candidates.countP
      (candidateMatches lower cp.search cp.stage)); omega
    have hstart := start_ge_of_beyond _ page pageSize hsize hb
    refine ⟨_, getCandidates_eq lower api d cp hd, ?_, (List.countP_eq_length_filter _ _).symm⟩
    rw [hcp.1, hcp.2, parseIntOr_of_pos _ _ hpage hplain.1,
      parseIntOr_of_pos _ _ hsize hplain.2]
    apply jsSlice_of_length_le
    rw [← List.countP_eq_length_filter]
    exact hstart

theorem C8_page_beyond_last_is_empty_witness :
    ∃ result,
      getJobs id (sampleStore [sampleJob "a" 0, sampleJob "b" 1, sampleJob "c" 2]) calmDraws
        { search := none, status := none, page := some 3, pageSize := some 2 }
        = (.ok result, sampleStore [sampleJob "a" 0, sampleJob "b" 1, sampleJob "c" 2]) ∧
      result.jobs = [] ∧ result.total = 3 := by
  obtain ⟨result, h1, h2, h3⟩ := (C8_page_beyond_last_is_empty id
    (sampleStore [sampleJob "a" 0, sampleJob "b" 1, sampleJob "c" 2]) calmDraws
    { search := none, status := none, page := some 3, pageSize := some 2 }
    { search := none, stage := none, page := some 3, pageSize := some 2 } 3 2
    calmDraws_ok (by decide) (by decide) ⟨rfl, rfl⟩ ⟨rfl, rfl⟩).1 (by decide)
  exact ⟨result, h1, h2, h3.trans (by decide)⟩

/-- C8 (counterexample): with three jobs and pageSize 2 the pages in range are
1 and 2; page 0 returns the two jobs of page 1, and page -1 returns one job,
taken by the slice from the end of the list; total is 3 in both. -/
theorem C8_page_zero_and_negative_not_empty :
    (getJobs id (sampleStore [sampleJob "a" 0, sampleJob "b" 1, sampleJob "c" 2]) calmDraws
        { search := none, status := none, page := some 0, pageSize := some 2 }).1
      = .ok { jobs := [sampleJob "a" 0, sampleJob "b" 1], total := 3, page := 1, pageSize := 2 } ∧
    (getJobs id (sampleStore [sampleJob "a" 0, sampleJob "b" 1, sampleJob "c" 2]) calmDraws
        { search := none, status := none, page := some (-1), pageSize := some 2 }).1
      = .ok { jobs := [sampleJob "a" 0], total := 3, page := -1, pageSize := 2 } := by
  constructor
  · rw [getJobs_eq _ _ _ _ calmDraws_ok]
    decide
  · rw [getJobs_eq _ _ _ _ calmDraws_ok]
    decide

/-! ### Transport failures of the read operations (C9) -/

/-- C9 (failing input): whenever the failure draw of delay is below 0.075, each
of the read operations getJobs, getCandidates, getCandidateTimeline and
getAssessment throws the network error. -/
theorem C9_reads_fail_on_low_draw (lower : String → String) (api : MockAPI) (d : Draws)
    (jp : JobParams) (cp : CandidateParams) (id jobId : String) (hd : d.failure < 0.075) :
    getJobs lower api d jp = (.error .networkError, api) ∧
    getCandidates lower api d cp = (.error .networkError, api) ∧
    getCandidateTimeline api d id = (.error .networkError, api) ∧
    getAssessment api d jobId = (.error .networkError, api) := by
  refine ⟨?_, ?_, ?_, ?_⟩
  · unfold getJobs; rw [delay_fail hd]
  · unfold getCandidates; rw [delay_fail hd]
  · unfold getCandidateTimeline; rw [delay_fail hd]
  · unfold getAssessment; rw [delay_fail hd]

theorem C9_reads_fail_on_low_draw_witness :
    getJobs id (sampleStore [sampleJob "a" 0]) failingDraws
        { search := none, status := none, page := some 1, pageSize := some 10 }
      = (.error .networkError, sampleStore [sampleJob "a" 0]) :=
  (C9_reads_fail_on_low_draw id (sampleStore [sampleJob "a" 0]) failingDraws
    { search := none, status := none, page := some 1, pageSize := some 10 }
    { search := none, stage := none, page := none, pageSize := none } "candidate-1" "job-1"
    failingDraws_fail).1

/-! ### Rollback of the jobs view (C10) -/

theorem loadJobs_jobs_of_fail (lower : String → String) (v : JobsView) (api : MockAPI)
    (d : Draws) (page : Int) (hd : d.failure < 0.075) :
    (loadJobs lower v api d page).1.jobs = v.jobs ∧ (loadJobs lower v api d page).2 = api := by
  unfold loadJobs getJobs
  rw [delay_fail hd]
  exact ⟨rfl, rfl⟩

theorem loadJobs_jobs_of_ok (lower : String → String) (v : JobsView) (api : MockAPI)
    (d : Draws) (page : Int) (hd : ¬ d.failure < 0.075) :
    ∃ result, getJobs lower api d (loadParams v page) = (.ok result, api) ∧
      (loadJobs lower v api d page).1.jobs = result.jobs.map some := by
  refine ⟨_, getJobs_eq lower api d _ hd, ?_⟩
  simp only [loadJobs]
  rw [getJobs_eq lower api d _ hd]

theorem handleReorder_failed_reload (lower : String → String) (v : JobsView) (api : MockAPI)
    (draggedJob dropTargetJob : Job) (d : Draws) (reorderDraw : ℚ) (dLoad : Draws)
    (tentative : List (Option Job)) (horder : draggedJob.order ≠ dropTargetJob.order)
    (htent : optimisticJobs v.jobs draggedJob dropTargetJob = .ok tentative)
    (hload : dLoad.failure < 0.075) :
    (handleReorder lower v api draggedJob dropTargetJob d reorderDraw dLoad).1.jobs
      = tentative := by
  unfold handleReorder
  rw [if_neg horder, htent]
  simp only
  cases hcall : reorderJobs api d reorderDraw draggedJob.order dropTargetJob.order with
  | mk out api1 =>
    cases out with
    | ok r => exact (loadJobs_jobs_of_fail lower _ api1 dLoad _ hload).1
    | error e => exact (loadJobs_jobs_of_fail lower _ api1 dLoad _ hload).1

/-- C10 (failing input): the view shows a (order 0) and b (order 1), b is dragged
onto a, the reorderJobs call fails in the transport and so does the getJobs
call of the reload: the store is unchanged, the view after handleReorder is
the tentative view b, a, and a fresh getJobs query for the page returns a, b. -/
theorem C10_view_stays_tentative_when_reload_fails :
    optimisticJobs (sampleView [sampleJob "a" 0, sampleJob "b" 1]).jobs (sampleJob "b" 1)
        (sampleJob "a" 0) = .ok [some (sampleJob "b" 1), some (sampleJob "a" 0)] ∧
    (reorderJobs (sampleStore [sampleJob "a" 0, sampleJob "b" 1]) failingDraws (1 / 2) 1 0).1
      = .error .networkError ∧
    handleReorder id (sampleView [sampleJob "a" 0, sampleJob "b" 1])
        (sampleStore [sampleJob "a" 0, sampleJob "b" 1]) (sampleJob "b" 1) (sampleJob "a" 0)
        failingDraws (1 / 2) failingDraws
      = ({ sampleView [sampleJob "a" 0, sampleJob "b" 1] with
            jobs := [some (sampleJob "b" 1), some (sampleJob "a" 0)],
            trace := [Effect.setJobs [some (sampleJob "b" 1), some (sampleJob "a" 0)],
              Effect.callReorderJobs 1 0, Effect.consoleError .networkError,
              Effect.setLoading true,
              Effect.callGetJobs (loadParams (sampleView [sampleJob "a" 0, sampleJob "b" 1]) 1),
              Effect.consoleError .networkError, Effect.setLoading false] },
         sampleStore [sampleJob "a" 0, sampleJob "b" 1]) ∧
    (getJobs id (sampleStore [sampleJob "a" 0, sampleJob "b" 1]) calmDraws
        (loadParams (sampleView [sampleJob "a" 0, sampleJob "b" 1]) 1)).1
      = .ok { jobs := [sampleJob "a" 0, sampleJob "b" 1], total := 2, page := 1,
              pageSize := 10 } := by
  have hre : reorderJobs (sampleStore [sampleJob "a" 0, sampleJob "b" 1]) failingDraws (1 / 2)
      1 0 = (.error .networkError, sampleStore [sampleJob "a" 0, sampleJob "b" 1]) := by
    unfold reorderJobs; rw [delay_fail failingDraws_fail]
  have hget : ∀ params, getJobs id (sampleStore [sampleJob "a" 0, sampleJob "b" 1]) failingDraws
      params = (.error .networkError, sampleStore [sampleJob "a" 0, sampleJob "b" 1]) := by
    intro params; unfold getJobs; rw [delay_fail failingDraws_fail]
  refine ⟨by decide, by rw [hre], ?_, ?_⟩
  · unfold handleReorder
    rw [if_neg (by decide)]
    have ht : optimisticJobs (sampleView [sampleJob "a" 0, sampleJob "b" 1]).jobs
        (sampleJob "b" 1) (sampleJob "a" 0)
        = .ok [some (sampleJob "b" 1), some (sampleJob "a" 0)] := by decide
    rw [ht]
    simp only
    have ho : (sampleJob "b" 1).order = 1 ∧ (sampleJob "a" 0).order = 0 := ⟨rfl, rfl⟩
    rw [ho.1, ho.2, hre]
    simp only [loadJobs, hget]
    rfl
  · rw [getJobs_eq _ _ _ _ calmDraws_ok]
    decide

/-! ### Updates by id (C11, C12) -/

theorem find?_eq_none_of_ids {α : Type} (xs : List α) (key : α → String) (id : String)
    (h : ∀ x ∈ xs, key x ≠ id) : xs.find? (fun x => key x = id) = none := by
  rw [List.find?_eq_none]
  intro x hx
  simpa using h x hx

/-- C11: when the transport does not fail, updateJob with an id that no job has
fails with the job-not-found error, and updateCandidate with an id that no
candidate has fails with the candidate-not-found error; neither is a transport
error, and the store (data, timelines and persisted snapshot) is unchanged. -/
theorem C11_absent_id_not_found (api : MockAPI) (d : Draws) (c : Clock) (id : String)
    (jobUpdates : JobPatch) (candidateUpdates : CandidatePatch)
    (hd : ¬ d.failure < 0.075) :
    ((∀ job ∈ api.data.jobs, job.id ≠ id) →
      updateJob api d id jobUpdates = (.error .jobNotFound, api)) ∧
    ((∀ cand ∈ api.data.candidates, cand.id ≠ id) →
      updateCandidate api d c id candidateUpdates = (.error .candidateNotFound, api)) ∧
    ApiError.jobNotFound.isTransport = false ∧
    ApiError.candidateNotFound.isTransport = false := by
  refine ⟨?_, ?_, rfl, rfl⟩
  · intro h
    have hn := findIndex_of_find?_none _ _ (find?_eq_none_of_ids _ (fun j : Job => j.id) id h)
    unfold updateJob
    rw [delay_ok hd]
    simp only [if_neg hn]
  · intro h
    have hn := findIndex_of_find?_none _ _ (find?_eq_none_of_ids _ (fun x : Candidate => x.id) id h)
    unfold updateCandidate
    rw [delay_ok hd]
    simp only [if_neg hn]

theorem C11_absent_id_not_found_witness :
    updateJob (sampleStore [sampleJob "a" 0]) calmDraws "zzz"
        { id := none, title := some "T", slug := none, status := none, tags := none,
          order := none, createdAt := none }
      = (.error .jobNotFound, sampleStore [sampleJob "a" 0]) :=
  (C11_absent_id_not_found (sampleStore [sampleJob "a" 0]) calmDraws sampleClock "zzz"
    { id := none, title := some "T", slug := none, status := none, tags := none,
      order := none, createdAt := none } (stagePatch "tech") calmDraws_ok).1 (by decide)

/-- C12: for an id present in the jobs collection, a successful updateJob
returns and stores, at the position of the first job with that id, the job in
which every field named in the patch has the value of the patch and every
other field keeps its value; every other position, the number of jobs and the
other collections are unchanged. -/
theorem C12_updateJob_merges_patch (api : MockAPI) (d : Draws) (id : String)
    (updates : JobPatch) (job : Job) (hd : ¬ d.failure < 0.075)
    (hfind : api.data.jobs.find? (fun j => j.id = id) = some job) :
    ∃ updated api1, updateJob api d id updates = (.ok updated, api1) ∧
      api.data.jobs[api.data.jobs.findIdx (fun j => j.id = id)]? = some job ∧
      api1.data.jobs[api.data.jobs.findIdx (fun j => j.id = id)]? = some updated ∧
      updated.id = updates.id.getD job.id ∧
      updated.title = updates.title.getD job.title ∧
      updated.slug = updates.slug.getD job.slug ∧
      updated.status = updates.status.getD job.status ∧
      updated.tags = updates.tags.getD job.tags ∧
      updated.order = updates.order.getD job.order ∧
      updated.createdAt = updates.createdAt.getD job.createdAt ∧
      (∀ k, k ≠ api.data.jobs.findIdx (fun j => j.id = id) →
        api1.data.jobs[k]? = api.data.jobs[k]?) ∧
      api1.data.jobs.length = api.data.jobs.length ∧
      api1.data.candidates = api.data.candidates ∧
      api1.data.assessments = api.data.assessments ∧
      api1.data.candidateTimelines = api.data.candidateTimelines := by
  obtain ⟨hlt, hget⟩ := find?_findIdx _ _ _ hfind
  obtain ⟨h1, h2⟩ := findIndex_of_find? _ _ _ hfind
  have hidx : (findIndex (fun j : Job => decide (j.id = id)) api.data.jobs).toNat
      = api.data.jobs.findIdx (fun j => j.id = id) := by
    unfold findIndex; rw [if_pos hlt]; simp
  have heq : updateJob api d id updates
      = (.ok (job.spread updates), saveToStorage { api with data := { api.data with
          jobs := api.data.jobs.set (api.data.jobs.findIdx (fun j => j.id = id))
            (job.spread updates) } }) := by
    unfold updateJob
    rw [delay_ok hd]
    simp only [if_pos h1, h2]
    rw [hidx]
  refine ⟨job.spread updates, _, heq, hget, ?_, rfl, rfl, rfl, rfl, rfl, rfl, rfl, ?_, ?_,
    rfl, rfl, rfl⟩
  · simp only [saveToStorage]
    rw [List.getElem?_set_self hlt]
  · intro k hk
    simp only [saveToStorage]
    rw [List.getElem?_set_ne (Ne.symm hk)]
  · simp only [saveToStorage, List.length_set]

theorem C12_updateJob_merges_patch_witness :
    ∃ api1, updateJob (sampleStore [sampleJob "a" 0, sampleJob "b" 1]) calmDraws "b"
        { id := none, title := none, slug := none, status := some "archived", tags := none,
          order := none, createdAt := none }
      = (.ok { sampleJob "b" 1 with status := "archived" }, api1) ∧
      api1.data.jobs = [sampleJob "a" 0, { sampleJob "b" 1 with status := "archived" }] := by
  obtain ⟨updated, api1, h1, _, h3, h4, h5, h6, h7, h8, h9, h10, h11, h12, _⟩ :=
    C12_updateJob_merges_patch (sampleStore [sampleJob "a" 0, sampleJob "b" 1]) calmDraws "b"
      { id := none, title := none, slug := none, status := some "archived", tags := none,
        order := none, createdAt := none } (sampleJob "b" 1) calmDraws_ok rfl
  have hu : updated = { sampleJob "b" 1 with status := "archived" } := by
    cases updated
    simp only [Option.getD_none, Option.getD_some] at h4 h5 h6 h7 h8 h9 h10
    simp [sampleJob, h4, h5, h6, h7, h8, h9, h10]
  subst hu
  refine ⟨api1, h1, ?_⟩
  have hidx : List.findIdx (fun j : Job => decide (j.id = "b"))
      (sampleStore [sampleJob "a" 0, sampleJob "b" 1]).data.jobs = 1 := by decide
  rw [hidx] at h3 h11
  have h0 := h11 0 (by decide)
  apply List.ext_getElem?
  intro k
  match k with
  | 0 => rw [h0]; rfl
  | 1 => rw [h3]; rfl
  | k + 2 =>
    rw [h11 (k + 2) (by omega)]
    rfl

/-! ### Creation and ids (C13, C14) -/

theorem decimalValue_append_singleton (cs : List Char) (c : Char) :
    decimalValue (cs ++ [c]) = decimalValue cs * 10 + (c.toNat - 48) := by
  simp [decimalValue, List.foldl_append]

theorem digitChar_value (k : Nat) (hk : k < 10) : (Nat.digitChar k).toNat - 48 = k := by
  interval_cases k <;> rfl

theorem toDigitsCore_value (fuel n : Nat) (ds : List Char) (h : n < fuel) :
    ∃ pre, Nat.toDigitsCore 10 fuel n ds = pre ++ ds ∧ decimalValue pre = n := by
  induction fuel generalizing n ds with
  | zero => omega
  | succ fuel ih =>
    simp only [Nat.toDigitsCore]
    by_cases h0 : n / 10 = 0
    · rw [if_pos h0]
      refine ⟨[Nat.digitChar (n % 10)], rfl, ?_⟩
      have hn : n < 10 := by omega
      simp only [decimalValue, List.foldl_cons, List.foldl_nil, Nat.zero_mul, Nat.zero_add]
      rw [digitChar_value _ (Nat.mod_lt _ (by decide))]
      omega
    · rw [if_neg h0]
      obtain ⟨pre, hpre, hval⟩ := ih (n / 10) (Nat.digitChar (n % 10) :: ds) (by omega)
      refine ⟨pre ++ [Nat.digitChar (n % 10)], ?_, ?_⟩
      · rw [hpre]; simp
      · rw [decimalValue_append_singleton, hval, digitChar_value _ (Nat.mod_lt _ (by decide))]
        omega

theorem toString_nat_injective (a b : Nat) (h : toString a = toString b) : a = b := by
  have h1 : Nat.toDigits 10 a = Nat.toDigits 10 b := by
    have h2 : (Nat.toDigits 10 a).asString = (Nat.toDigits 10 b).asString := h
    exact congrArg String.data h2
  obtain ⟨pa, hpa, hva⟩ := toDigitsCore_value (a + 1) a [] (by omega)
  obtain ⟨pb, hpb, hvb⟩ := toDigitsCore_value (b + 1) b [] (by omega)
  unfold Nat.toDigits at h1
  rw [hpa, hpb] at h1
  simp only [List.append_nil] at h1
  rw [← hva, ← hvb, h1]

theorem jobId_injective (a b : Nat) (h : "job-" ++ toString a = "job-" ++ toString b) :
    a = b := by
  apply toString_nat_injective
  have h1 := congrArg String.data h
  simp only [String.data_append, List.append_cancel_left_eq] at h1
  exact String.ext h1

/-- C13: on a store with N jobs a successful createJob, whatever id, slug, order
or createdAt the input carries, returns a job with order N, id job- followed by
the clock reading, the slug of the title and the current time stamp, appends
exactly that job so that the count becomes N + 1, and leaves every job that
was there before unchanged and in place. -/
theorem C13_createJob_appends (lower : String → String) (api : MockAPI) (d : Draws) (c : Clock)
    (job : JobInput) (hd : ¬ d.failure < 0.075) :
    ∃ newJob api1, createJob lower api d c job = (.ok newJob, api1) ∧
      newJob.order = (api.data.jobs.length : Int) ∧
      newJob.id = "job-" ++ toString c.now ∧
      newJob.title = job.title ∧ newJob.status = job.status ∧ newJob.tags = job.tags ∧
      newJob.slug = slugOf lower job.title ∧ newJob.createdAt = c.iso ∧
      api1.data.jobs = api.data.jobs ++ [newJob] ∧
      api1.data.jobs.length = api.data.jobs.length + 1 ∧
      api1.data.jobs.take api.data.jobs.length = api.data.jobs ∧
      api1.data.candidates = api.data.candidates ∧
      api1.data.assessments = api.data.assessments ∧
      api1.data.candidateTimelines = api.data.candidateTimelines := by
  have heq : createJob lower api d c job = (.ok
      { id := "job-" ++ toString c.now, title := job.title, slug := slugOf lower job.title,
        status := job.status, tags := job.tags, order := (api.data.jobs.length : Int),
        createdAt := c.iso },
      saveToStorage { api with data := { api.data with jobs := api.data.jobs ++
        [{ id := "job-" ++ toString c.now, title := job.title, slug := slugOf lower job.title,
           status := job.status, tags := job.tags, order := (api.data.jobs.length : Int),
           createdAt := c.iso }] } }) := by
    unfold createJob
    rw [delay_ok hd]
  refine ⟨_, _, heq, rfl, rfl, rfl, rfl, rfl, rfl, rfl, rfl, ?_, ?_, rfl, rfl, rfl⟩
  · simp [saveToStorage]
  · simp [saveToStorage]

theorem C13_createJob_appends_witness :
    ∃ newJob api1,
      createJob id (sampleStore [sampleJob "a" 0, sampleJob "b" 1]) calmDraws sampleClock
        (sampleInput "QA Engineer") = (.ok newJob, api1) ∧
      newJob.order = 2 ∧
      api1.data.jobs = [sampleJob "a" 0, sampleJob "b" 1, newJob] := by
  obtain ⟨newJob, api1, h1, h2, _, _, _, _, _, _, h9, _⟩ :=
    C13_createJob_appends id (sampleStore [sampleJob "a" 0, sampleJob "b" 1]) calmDraws
      sampleClock (sampleInput "QA Engineer") calmDraws_ok
  exact ⟨newJob, api1, h1, h2, h9⟩

theorem createJob_ok (lower : String → String) (api : MockAPI) (d : Draws) (c : Clock)
    (job : JobInput) (hd : ¬ d.failure < 0.075) :
    createJob lower api d c job = (.ok
      { id := "job-" ++ toString c.now, title := job.title, slug := slugOf lower job.title,
        status := job.status, tags := job.tags, order := (api.data.jobs.length : Int),
        createdAt := c.iso },
      saveToStorage { api with data := { api.data with jobs := api.data.jobs ++
        [{ id := "job-" ++ toString c.now, title := job.title, slug := slugOf lower job.title,
           status := job.status, tags := job.tags, order := (api.data.jobs.length : Int),
           createdAt := c.iso }] } }) := by
  unfold createJob
  rw [delay_ok hd]

theorem createJob_success (lower : String → String) (api api1 : MockAPI) (d : Draws) (c : Clock)
    (job : JobInput) (newJob : Job)
    (h : createJob lower api d c job = (.ok newJob, api1)) :
    ¬ d.failure < 0.075 ∧ api1.data.jobs = api.data.jobs ++ [newJob] ∧
      newJob.id = "job-" ++ toString c.now := by
  by_cases hd : d.failure < 0.075
  · simp [createJob, delay_fail hd] at h
  · rw [createJob_ok lower api d c job hd] at h
    simp only [Prod.mk.injEq, Except.ok.injEq] at h
    rw [← h.1, ← h.2]
    exact ⟨hd, rfl, rfl⟩

theorem runCreates_ids (lower : String → String) (calls : List CreateCall) (api api1 : MockAPI)
    (h : runCreates lower api calls = .ok api1) :
    api1.data.jobs.map (fun j => j.id)
      = api.data.jobs.map (fun j => j.id)
          ++ calls.map (fun call => "job-" ++ toString call.c.now) := by
  induction calls generalizing api with
  | nil =>
    simp only [runCreates, Except.ok.injEq] at h
    rw [← h]; simp
  | cons call rest ih =>
    simp only [runCreates] at h
    cases hcall : createJob lower api call.d call.c call.job with
    | mk out api2 =>
      rw [hcall] at h
      cases out with
      | error e => simp at h
      | ok newJob =>
        simp only at h
        obtain ⟨_, h2, h3⟩ :=
          createJob_success lower api api2 call.d call.c call.job newJob hcall
        rw [ih api2 h, h2]
        simp [h3]

theorem runCreates_succeeds (lower : String → String) (calls : List CreateCall) (api : MockAPI)
    (hok : ∀ call ∈ calls, ¬ call.d.failure < 0.075) :
    ∃ api1, runCreates lower api calls = .ok api1 := by
  induction calls generalizing api with
  | nil => exact ⟨api, rfl⟩
  | cons call rest ih =>
    simp only [runCreates]
    rw [createJob_ok lower api call.d call.c call.job (hok call (List.mem_cons_self _ _))]
    exact ih _ (fun x hx => hok x (List.mem_cons_of_mem _ hx))

/-- C14 (amended): in a sequence of successful createJob calls every created job
receives the id job- followed by the clock reading of its call; when the
clock readings of the calls are pairwise different and none of these ids is
the id of a job of the initial store, the created ids are pairwise distinct,
none of them is the id of a job that was in the store, and job ids that were
pairwise distinct stay pairwise distinct. The sequence succeeds whenever no
draw fails the transport. -/
theorem C14_ids_fresh_for_distinct_clock_readings (lower : String → String) (api : MockAPI)
    (calls : List CreateCall)
    (hclock : (calls.map (fun call => call.c.now)).Nodup)
    (hstore : ∀ call ∈ calls, ∀ job ∈ api.data.jobs,
      job.id ≠ "job-" ++ toString call.c.now) :
    ((∀ call ∈ calls, ¬ call.d.failure < 0.075) →
      ∃ api1, runCreates lower api calls = .ok api1) ∧
    (∀ api1, runCreates lower api calls = .ok api1 →
      api1.data.jobs.map (fun j => j.id)
        = api.data.jobs.map (fun j => j.id)
            ++ calls.map (fun call => "job-" ++ toString call.c.now) ∧
      (calls.map (fun call => "job-" ++ toString call.c.now)).Nodup ∧
      (∀ x ∈ calls.map (fun call => "job-" ++ toString call.c.now),
        x ∉ api.data.jobs.map (fun j => j.id)) ∧
      ((api.data.jobs.map (fun j => j.id)).Nodup →
        (api1.data.jobs.map (fun j => j.id)).Nodup)) := by
  have hcreated : (calls.map (fun call => "job-" ++ toString call.c.now)).Nodup := by
    have hmap : calls.map (fun call => "job-" ++ toString call.c.now)
        = (calls.map (fun call => call.c.now)).map (fun n => "job-" ++ toString n) := by
      simp
    rw [hmap]
    exact hclock.map (fun a b hab => jobId_injective a b hab)
  have hfresh : ∀ x ∈ calls.map (fun call => "job-" ++ toString call.c.now),
      x ∉ api.data.jobs.map (fun j => j.id) := by
    intro x hx hmem
    obtain ⟨call, hcall, rfl⟩ := List.mem_map.mp hx
    obtain ⟨job, hjob, hid⟩ := List.mem_map.mp hmem
    exact hstore call hcall job hjob hid
  refine ⟨runCreates_succeeds lower calls api, ?_⟩
  intro api1 hrun
  have hids := runCreates_ids lower calls api api1 hrun
  refine ⟨hids, hcreated, hfresh, ?_⟩
  intro hnd
  rw [hids]
  exact List.Nodup.append hnd hcreated (fun x hx1 hx2 => hfresh x hx2 hx1)

theorem C14_ids_fresh_for_distinct_clock_readings_witness :
    ∃ api1, runCreates id (sampleStore [sampleJob "job-1" 0])
        [{ d := calmDraws, c := { now := 5, iso := "t5" }, job := sampleInput "A" },
         { d := calmDraws, c := { now := 6, iso := "t6" }, job := sampleInput "B" }] = .ok api1 ∧
      api1.data.jobs.map (fun j => j.id) = ["job-1", "job-5", "job-6"] := by
  have h := C14_ids_fresh_for_distinct_clock_readings id (sampleStore [sampleJob "job-1" 0])
    [{ d := calmDraws, c := { now := 5, iso := "t5" }, job := sampleInput "A" },
     { d := calmDraws, c := { now := 6, iso := "t6" }, job := sampleInput "B" }]
    (by decide) (by decide)
  obtain ⟨api1, h1⟩ := h.1 (by
    intro call hc
    simp only [List.mem_cons, List.mem_singleton, List.not_mem_nil, or_false] at hc
    rcases hc with rfl | rfl <;> exact calmDraws_ok)
  exact ⟨api1, h1, (h.2 api1 h1).1.trans (by decide)⟩

/-- C14 (counterexample): two successful createJob calls at the same clock
reading give both created jobs the same id, so the second id is not fresh and
the ids of the store are no longer pairwise distinct. -/
theorem C14_same_clock_reading_same_id :
    ∃ api1, runCreates id (sampleStore [])
        [{ d := calmDraws, c := sampleClock, job := sampleInput "A" },
         { d := calmDraws, c := sampleClock, job := sampleInput "B" }] = .ok api1 ∧
      api1.data.jobs.map (fun j => j.id)
        = ["job-" ++ toString sampleClock.now, "job-" ++ toString sampleClock.now] ∧
      ¬ (api1.data.jobs.map (fun j => j.id)).Nodup := by
  obtain ⟨api1, h1⟩ := runCreates_succeeds id
    [{ d := calmDraws, c := sampleClock, job := sampleInput "A" },
     { d := calmDraws, c := sampleClock, job := sampleInput "B" }] (sampleStore [])
    (by
      intro call hc
      simp only [List.mem_cons, List.mem_singleton, List.not_mem_nil, or_false] at hc
      rcases hc with rfl | rfl <;> exact calmDraws_ok)
  have hids := runCreates_ids id _ _ api1 h1
  refine ⟨api1, h1, hids, ?_⟩
  rw [hids]
  simp [sampleStore]

/-! ### Persistence and process start (C15, C16, C17) -/

theorem allSome_map {α : Type} (read : Json → Option α) (write : α → Json)
    (h : ∀ x, read (write x) = some x) (xs : List α) :
    allSome ((xs.map write).map read) = some xs := by
  induction xs with
  | nil => rfl
  | cons x rest ih => simp only [List.map_cons, h, allSome, ih, Option.map_some']

theorem readArr_arr {α : Type} (read : Json → Option α) (write : α → Json)
    (h : ∀ x, read (write x) = some x) (xs : List α) :
    readArr read (.arr (xs.map write)) = some xs := by
  simp only [readArr, Json.asArr, Option.some_bind, allSome_map read write h]

theorem readObj_obj {α : Type} (read : Json → Option α) (write : α → Json)
    (h : ∀ x, read (write x) = some x) (xs : List (String × α)) :
    readObj read (.obj (xs.map (fun p => (p.1, write p.2)))) = some xs := by
  simp only [readObj, Json.asObj, Option.some_bind]
  induction xs with
  | nil => rfl
  | cons x rest ih => simp only [List.map_cons, h, allSome, ih, Option.map_some']

theorem parse_write_job (job : Job) : Job.ofJson job.toJson = some job := by
  simp [Job.ofJson, Job.toJson, Json.field, objGet, Json.asStr, Json.asInt,
    readArr_arr Json.asStr Json.str (fun _ => rfl)]

theorem parse_write_candidate (c : Candidate) : Candidate.ofJson c.toJson = some c := by
  simp [Candidate.ofJson, Candidate.toJson, Json.field, objGet, Json.asStr]

theorem parse_write_timelineEvent (e : TimelineEvent) :
    TimelineEvent.ofJson e.toJson = some e := by
  cases e with
  | mk id type fromStage toStage timestamp note =>
    cases fromStage <;>
      simp [TimelineEvent.ofJson, TimelineEvent.toJson, Json.field, objGet, Json.asStr, readFrom]

theorem parse_write_validation (v : Validation) : Validation.ofJson v.toJson = some v := by
  cases v with
  | mk min max maxLength =>
    cases min <;> cases max <;> cases maxLength <;>
      simp [Validation.ofJson, Validation.toJson, Json.field, objGet, Json.asObj, Json.asInt,
        Json.asNat, readOpt, optField]

theorem parse_write_question (q : Question) : Question.ofJson q.toJson = some q := by
  cases q with
  | mk id type title required options validation =>
    cases options <;> cases validation <;>
      simp [Question.ofJson, Question.toJson, Json.field, objGet, Json.asStr, Json.asBool,
        readOpt, optField, parse_write_validation,
        readArr_arr Json.asStr Json.str (fun _ => rfl)]

theorem parse_write_section (s : Section) : Section.ofJson s.toJson = some s := by
  simp [Section.ofJson, Section.toJson, Json.field, objGet, Json.asStr,
    readArr_arr Question.ofJson Question.toJson parse_write_question]

theorem parse_write_assessment (a : Assessment) : Assessment.ofJson a.toJson = some a := by
  simp [Assessment.ofJson, Assessment.toJson, Json.field, objGet, Json.asStr,
    readArr_arr Section.ofJson Section.toJson parse_write_section]

theorem parse_stringify (data : Data) : parse (stringify data) = some data := by
  have ht : ∀ events : List TimelineEvent,
      readArr TimelineEvent.ofJson (Json.arr (events.map TimelineEvent.toJson)) = some events :=
    readArr_arr TimelineEvent.ofJson TimelineEvent.toJson parse_write_timelineEvent
  simp [parse, stringify, Json.field, objGet,
    readArr_arr Job.ofJson Job.toJson parse_write_job,
    readArr_arr Candidate.ofJson Candidate.toJson parse_write_candidate,
    readObj_obj Assessment.ofJson Assessment.toJson parse_write_assessment,
    readObj_obj (readArr TimelineEvent.ofJson)
      (fun events => Json.arr (events.map TimelineEvent.toJson)) ht]

/-- C15: when a mutating call (createJob, updateJob, reorderJobs,
updateCandidate, saveAssessment) returns without throwing, the persisted
snapshot is the in-memory state as it is after the call. -/
theorem C15_persisted_after_mutation (lower : String → String) (api : MockAPI) (d : Draws)
    (m : Mutation) (hok : (m.run lower api d).1 = none) :
    (m.run lower api d).2.storage = some (m.run lower api d).2.data := by
  by_cases hd : d.failure < 0.075
  · exfalso
    cases m <;>
      simp [Mutation.run, TalentFlow.createJob, TalentFlow.updateJob, TalentFlow.reorderJobs,
        TalentFlow.updateCandidate, TalentFlow.saveAssessment, delay_fail hd, thrown] at hok
  · cases m with
    | createJob c job =>
      simp [Mutation.run, TalentFlow.createJob, delay_ok hd, saveToStorage]
    | saveAssessment jobId assessment =>
      simp [Mutation.run, TalentFlow.saveAssessment, delay_ok hd, saveToStorage]
    | updateJob id updates =>
      simp only [Mutation.run, TalentFlow.updateJob, delay_ok hd] at hok ⊢
      split at hok
      · split at hok
        · split
          · rfl
          · contradiction
        · simp [thrown] at hok
      · simp [thrown] at hok
    | updateCandidate c id updates =>
      simp only [Mutation.run] at hok ⊢
      rcases updateCandidate_outcome_of_calm api d c id updates hd
        with ⟨e1, _, h⟩ | ⟨u, a, h⟩
      · rw [h] at hok
        simp [thrown] at hok
      · rw [h]
        rfl
    | reorderJobs reorderDraw fromOrder toOrder =>
      simp only [Mutation.run, TalentFlow.reorderJobs, delay_ok hd] at hok ⊢
      by_cases hr : reorderDraw < 0.1
      · simp [hr, thrown] at hok
      · simp only [if_neg hr] at hok ⊢
        split at hok
        · simp [thrown] at hok
        · rfl

theorem C15_persisted_after_mutation_witness :
    (Mutation.run id (sampleStore [sampleJob "a" 0]) calmDraws
        (Mutation.createJob sampleClock (sampleInput "QA Engineer"))).2.storage
      = some (Mutation.run id (sampleStore [sampleJob "a" 0]) calmDraws
        (Mutation.createJob sampleClock (sampleInput "QA Engineer"))).2.data :=
  C15_persisted_after_mutation id (sampleStore [sampleJob "a" 0]) calmDraws
    (Mutation.createJob sampleClock (sampleInput "QA Engineer"))
    (by simp [Mutation.run, TalentFlow.createJob, delay_ok calmDraws_ok, thrown])

/-- C16: loadFromStorage replaces the in-memory state by the stored snapshot when
there is one and leaves it unchanged when there is none; saveToStorage followed
by loadFromStorage yields the state that was saved, and the document written
for a state parses back to that state. -/
theorem C16_load_replaces_and_round_trip (data stored : Data) (storage : Option Data) :
    loadFromStorage { data := data, storage := some stored }
      = { data := stored, storage := some stored } ∧
    loadFromStorage { data := data, storage := none } = { data := data, storage := none } ∧
    (loadFromStorage (saveToStorage { data := data, storage := storage })).data = data ∧
    loadFromStorage (saveToStorage { data := data, storage := storage })
      = saveToStorage { data := data, storage := storage } ∧
    parse (stringify data) = some data :=
  ⟨rfl, rfl, rfl, rfl, parse_stringify data⟩

/-- C17 (failing input): at process start the constructor seeds the store and
saves the seed over whatever snapshot was persisted, and only then is
loadFromStorage called: the in-memory state after startup is the seed, not the
snapshot that was in storage, and the snapshot is gone from storage. -/
theorem C17_startup_overwrites_persisted_snapshot (stored seed : Data) :
    startup (some stored) seed = { data := seed, storage := some seed } ∧
    (construct (some stored) seed).storage = some seed ∧
    (stored ≠ seed → (startup (some stored) seed).data ≠ stored) :=
  ⟨rfl, rfl, fun h heq => h heq.symm⟩

/-! ### Queries leave the store alone (C18) -/

/-- C18: getJobs and getCandidates leave the store unchanged, and two
successful calls with the same parameters on the same store return the same
result, whatever their draws. -/
theorem C18_queries_pure (lower : String → String) (api : MockAPI) (d1 d2 : Draws)
    (jp : JobParams) (cp : CandidateParams) :
    (getJobs lower api d1 jp).2 = api ∧
    (getCandidates lower api d1 cp).2 = api ∧
    (∀ r1 r2, (getJobs lower api d1 jp).1 = .ok r1 →
      (getJobs lower (getJobs lower api d1 jp).2 d2 jp).1 = .ok r2 → r1 = r2) ∧
    (∀ r1 r2, (getCandidates lower api d1 cp).1 = .ok r1 →
      (getCandidates lower (getCandidates lower api d1 cp).2 d2 cp).1 = .ok r2 → r1 = r2) := by
  have hj : ∀ d, (getJobs lower api d jp).2 = api := by
    intro d
    unfold getJobs
    split <;> rfl
  have hc : ∀ d, (getCandidates lower api d cp).2 = api := by
    intro d
    unfold getCandidates
    split <;> rfl
  refine ⟨hj d1, hc d1, ?_, ?_⟩
  · intro r1 r2 h1 h2
    rw [hj d1] at h2
    by_cases hd1 : d1.failure < 0.075
    · simp [getJobs, delay_fail hd1] at h1
    · by_cases hd2 : d2.failure < 0.075
      · simp [getJobs, delay_fail hd2] at h2
      · rw [getJobs_eq lower api d1 jp hd1] at h1
        rw [getJobs_eq lower api d2 jp hd2] at h2
        simp only [Except.ok.injEq] at h1 h2
        rw [← h1, ← h2]
  · intro r1 r2 h1 h2
    rw [hc d1] at h2
    by_cases hd1 : d1.failure < 0.075
    · simp [getCandidates, delay_fail hd1] at h1
    · by_cases hd2 : d2.failure < 0.075
      · simp [getCandidates, delay_fail hd2] at h2
      · rw [getCandidates_eq lower api d1 cp hd1] at h1
        rw [getCandidates_eq lower api d2 cp hd2] at h2
        simp only [Except.ok.injEq] at h1 h2
        rw [← h1, ← h2]

/-! ### Every successful reorder (C19) -/

theorem twoSplices_rel {α : Type} (xs : List α) (fromOrder toOrder : Int)
    (hk : relIndex xs.length fromOrder < xs.length) :
    (jsSplice (jsSplice (xs.map some) fromOrder 1 []).2 toOrder 0
        [(jsSplice (xs.map some) fromOrder 1 []).1.head?.join]).2
      = (moveItem xs (relIndex xs.length fromOrder) toOrder).map some := by
  have hm : min 1 ((xs.map some).length - relIndex xs.length fromOrder) = 1 := by
    rw [List.length_map]; omega
  have h1 : (jsSplice (xs.map some) fromOrder 1 []).1
      = [some xs[relIndex xs.length fromOrder]] := by
    simp only [jsSplice, List.length_map]
    rw [List.length_map] at hm
    rw [hm, List.drop_eq_getElem_cons (by simpa using hk)]
    simp
  have h2 : (jsSplice (xs.map some) fromOrder 1 []).2
      = (xs.eraseIdx (relIndex xs.length fromOrder)).map some := by
    simp only [jsSplice, List.length_map]
    rw [List.length_map] at hm
    rw [hm, List.eraseIdx_eq_take_drop_succ]
    simp
  rw [h1, h2]
  simp only [jsSplice, moveItem, List.getElem?_eq_getElem hk]
  simp

theorem twoSplices_none {α : Type} (xs : List α) (fromOrder toOrder : Int)
    (hk : relIndex xs.length fromOrder = xs.length) :
    ∃ k, (jsSplice (jsSplice (xs.map some) fromOrder 1 []).2 toOrder 0
        [(jsSplice (xs.map some) fromOrder 1 []).1.head?.join]).2
      = (xs.take k).map some ++ none :: (xs.drop k).map some := by
  have h1 : (jsSplice (xs.map some) fromOrder 1 []).1 = [] := by
    simp [jsSplice, hk]
  have h2 : (jsSplice (xs.map some) fromOrder 1 []).2 = xs.map some := by
    simp [jsSplice, hk]
  rw [h1, h2]
  refine ⟨relIndex (xs.map some).length toOrder, ?_⟩
  simp [jsSplice]

theorem renumber_none (pre : List Nat) (rest : List (Option Nat)) (k : Nat) (heap : List Job) :
    renumber (pre.map some ++ none :: rest) k heap = .error (writeAll pre k heap) := by
  induction pre generalizing k heap with
  | nil => rfl
  | cons r pre ih =>
    simp only [List.map_cons, List.cons_append, renumber, writeAll]
    exact ih (k + 1) (writeOrder heap r k)

theorem reorderJobs_ok_rel (api : MockAPI) (d : Draws) (reorderDraw : ℚ)
    (fromOrder toOrder : Int) (hd : ¬ d.failure < 0.075) (hr : ¬ reorderDraw < 0.1)
    (hk : relIndex api.data.jobs.length fromOrder < api.data.jobs.length) :
    reorderJobs api d reorderDraw fromOrder toOrder
      = (.ok (reordered api.data.jobs (relIndex api.data.jobs.length fromOrder) toOrder),
         saveToStorage { api with data := { api.data with
           jobs := reordered api.data.jobs (relIndex api.data.jobs.length fromOrder)
             toOrder } }) := by
  have hlen : relIndex (sortedRefs api.data.jobs).length fromOrder
      < (sortedRefs api.data.jobs).length := by
    rw [sortedRefs_length]; exact hk
  have hrel : relIndex (sortedRefs api.data.jobs).length fromOrder
      = relIndex api.data.jobs.length fromOrder := by rw [sortedRefs_length]
  have hM : moveItem (sortedRefs api.data.jobs) (relIndex api.data.jobs.length fromOrder) toOrder
      = (moveItem (sortedPairs api.data.jobs) (relIndex api.data.jobs.length fromOrder)
          toOrder).map Prod.fst := by
    rw [← moveItem_map]; rfl
  have hperm : (moveItem (sortedPairs api.data.jobs) (relIndex api.data.jobs.length fromOrder)
      toOrder).Perm api.data.jobs.enum := (moveItem_perm _ _ _).trans (sortedPairs_perm _)
  have hnd : ((moveItem (sortedPairs api.data.jobs) (relIndex api.data.jobs.length fromOrder)
      toOrder).map Prod.fst).Nodup := by
    rw [(hperm.map Prod.fst).nodup_iff, List.enum_map_fst]
    exact List.nodup_range _
  have hget : ∀ p ∈ moveItem (sortedPairs api.data.jobs)
      (relIndex api.data.jobs.length fromOrder) toOrder, api.data.jobs[p.1]? = some p.2 := by
    intro p hp
    exact List.mk_mem_enum_iff_getElem?.mp (hperm.mem_iff.mp hp)
  have hval : (moveItem (sortedPairs api.data.jobs) (relIndex api.data.jobs.length fromOrder)
      toOrder).map Prod.snd
      = moveItem (sortByOrder api.data.jobs) (relIndex api.data.jobs.length fromOrder)
          toOrder := by
    rw [← moveItem_map, sortedPairs_map_snd]
  unfold reorderJobs
  rw [delay_ok hd]
  simp only [if_neg hr]
  rw [twoSplices_rel _ _ _ hlen, hrel, renumber_map_some]
  simp only [List.filterMap_map]
  have hfun : (deref (writeAll (moveItem (sortedRefs api.data.jobs)
      (relIndex api.data.jobs.length fromOrder) toOrder) 0 api.data.jobs) ∘ some)
      = fun r => (writeAll (moveItem (sortedRefs api.data.jobs)
        (relIndex api.data.jobs.length fromOrder) toOrder) 0 api.data.jobs)[r]? := rfl
  rw [hfun, hM, filterMap_writeAll _ _ _ hnd hget, hval]
  rfl

theorem reorderJobs_success_rel (api api1 : MockAPI) (d : Draws) (reorderDraw : ℚ)
    (fromOrder toOrder : Int) (result : List Job)
    (h : reorderJobs api d reorderDraw fromOrder toOrder = (.ok result, api1)) :
    relIndex api.data.jobs.length fromOrder < api.data.jobs.length ∧
      api1.data.jobs = reordered api.data.jobs (relIndex api.data.jobs.length fromOrder)
        toOrder := by
  by_cases hd : d.failure < 0.075
  · simp [reorderJobs, delay_fail hd] at h
  · by_cases hr : reorderDraw < 0.1
    · simp [reorderJobs, delay_ok hd, hr] at h
    · by_cases hk : relIndex api.data.jobs.length fromOrder < api.data.jobs.length
      · rw [reorderJobs_ok_rel api d reorderDraw fromOrder toOrder hd hr hk] at h
        simp only [Prod.mk.injEq] at h
        refine ⟨hk, ?_⟩
        rw [← h.2]; rfl
      · exfalso
        have hk2 : relIndex (sortedRefs api.data.jobs).length fromOrder
            = (sortedRefs api.data.jobs).length := by
          have := relIndex_le api.data.jobs.length fromOrder
          rw [sortedRefs_length]; omega
        obtain ⟨k, hsplice⟩ := twoSplices_none (sortedRefs api.data.jobs) fromOrder toOrder hk2
        unfold reorderJobs at h
        rw [delay_ok hd] at h
        simp only [if_neg hr] at h
        rw [hsplice, renumber_none] at h
        simp at h

theorem reindex_map_status (k : Nat) (xs : List Job) :
    (reindex k xs).map (fun j => j.status) = xs.map (fun j => j.status) := by
  induction xs generalizing k with
  | nil => rfl
  | cons x rest ih => simp [reindex, ih]

theorem reordered_status_perm (jobs : List Job) (f : Nat) (toOrder : Int) :
    ((reordered jobs f toOrder).map (fun j => j.status)).Perm (jobs.map (fun j => j.status)) := by
  unfold reordered
  rw [reindex_map_status]
  exact ((moveItem_perm _ _ _).trans (sortByOrder_perm _)).map _

theorem denseOrders_nodup (n : Nat) : (denseOrders n).Nodup := by
  unfold denseOrders
  exact (List.nodup_range n).map (fun a b h => by exact_mod_cast h)

theorem mem_denseOrders (n : Nat) (o : Int) (h : o ∈ denseOrders n) : 0 ≤ o ∧ o < n := by
  unfold denseOrders at h
  obtain ⟨i, hi, rfl⟩ := List.mem_map.mp h
  rw [List.mem_range] at hi
  omega

/-- C19 (amended): after a successful reorderJobs call on a collection of N jobs
the order values of all the jobs, whatever their status, are exactly 0..N-1 in
the stored sequence; the order values of the jobs whose status is active are
pairwise distinct values among 0..N-1, and they are exactly 0..A-1, A the
number of active jobs, when every job is active. -/
theorem C19_orders_dense_over_all_jobs (api api1 : MockAPI) (d : Draws) (reorderDraw : ℚ)
    (fromOrder toOrder : Int) (result : List Job)
    (h : reorderJobs api d reorderDraw fromOrder toOrder = (.ok result, api1)) :
    api1.data.jobs.map (fun j => j.order) = denseOrders api.data.jobs.length ∧
    api1.data.jobs.length = api.data.jobs.length ∧
    ((api1.data.jobs.filter isActive).map (fun j => j.order)).Nodup ∧
    (∀ o ∈ (api1.data.jobs.filter isActive).map (fun j => j.order),
      0 ≤ o ∧ o < (api.data.jobs.length : Int)) ∧
    ((∀ job ∈ api.data.jobs, isActive job = true) →
      (api1.data.jobs.filter isActive).map (fun j => j.order)
        = denseOrders (api1.data.jobs.filter isActive).length) := by
  obtain ⟨_, hs⟩ := reorderJobs_success_rel api api1 d reorderDraw fromOrder toOrder result h
  have hall : api1.data.jobs.map (fun j => j.order) = denseOrders api.data.jobs.length := by
    rw [hs, reordered_orders]
  have hsub : ((api1.data.jobs.filter isActive).map (fun j => j.order)).Sublist
      (denseOrders api.data.jobs.length) := by
    rw [← hall]
    exact (List.filter_sublist _).map _
  refine ⟨hall, by rw [hs, reordered_length], hsub.nodup (denseOrders_nodup _),
    fun o ho => mem_denseOrders _ o (hsub.subset ho), ?_⟩
  intro hact
  have hact1 : ∀ job ∈ api1.data.jobs, isActive job = true := by
    intro job hjob
    have hmem : job.status ∈ api1.data.jobs.map (fun j => j.status) :=
      List.mem_map_of_mem (fun j => j.status) hjob
    rw [hs] at hmem
    obtain ⟨job0, hjob0, hst⟩ := List.mem_map.mp
      ((reordered_status_perm _ _ _).mem_iff.mp hmem)
    have := hact job0 hjob0
    simp only [isActive, decide_eq_true_eq] at this ⊢
    rw [← hst]; exact this
  rw [List.filter_eq_self.mpr hact1, hall]
  rw [hs, reordered_length]

theorem C19_orders_dense_over_all_jobs_witness :
    ∃ result api1,
      reorderJobs (sampleStore [sampleJob "a" 5, sampleJob "b" 3]) calmDraws (1 / 2) (-1) 0
        = (.ok result, api1) ∧
      api1.data.jobs.map (fun j => j.order) = [0, 1] := by
  have hcall := reorderJobs_ok_rel (sampleStore [sampleJob "a" 5, sampleJob "b" 3]) calmDraws
    (1 / 2) (-1) 0 calmDraws_ok half_not_lt_tenth (by decide)
  exact ⟨_, _, hcall, (C19_orders_dense_over_all_jobs _ _ calmDraws (1 / 2) (-1) 0 _ hcall).1⟩

/-- C19 (counterexample): with an archived job at order 0 and an active job at
order 1, a successful reorderJobs(0, 0) leaves the only active job with order
1, while a dense numbering of the active jobs would give it order 0. -/
theorem C19_active_orders_not_dense :
    ∃ result api1,
      reorderJobs (sampleStore [{ sampleJob "x" 0 with status := "archived" }, sampleJob "y" 1])
        calmDraws (1 / 2) 0 0 = (.ok result, api1) ∧
      (api1.data.jobs.filter isActive).map (fun j => j.order) = [1] ∧
      (api1.data.jobs.filter isActive).map (fun j => j.order)
        ≠ denseOrders (api1.data.jobs.filter isActive).length := by
  have hcall := reorderJobs_ok
    (sampleStore [{ sampleJob "x" 0 with status := "archived" }, sampleJob "y" 1]) calmDraws
    (1 / 2) 0 0 calmDraws_ok half_not_lt_tenth (by decide) (by decide)
  exact ⟨_, _, hcall, by decide, by decide⟩

/-! ### The tentative view (C20) -/

theorem findIndex_cons_of_neg {α : Type} (p : α → Bool) (x : α) (xs : List α)
    (h : p x = false) :
    findIndex p (x :: xs) = if findIndex p xs < 0 then -1 else findIndex p xs + 1 := by
  unfold findIndex
  rw [List.findIdx_cons, h]
  simp only [cond_false, List.length_cons]
  by_cases hlt : xs.findIdx p < xs.length
  · rw [if_pos hlt, if_pos (by omega), if_neg (by omega)]
    push_cast
    rfl
  · rw [if_neg hlt, if_neg (by omega)]
    rfl

theorem findIndexById_map_some (id : String) (jobs : List Job) :
    findIndexById id (jobs.map some) = .ok (findIndex (fun job => job.id = id) jobs) := by
  induction jobs with
  | nil => rfl
  | cons job rest ih =>
    simp only [List.map_cons, findIndexById]
    by_cases h : job.id = id
    · rw [if_pos h]
      simp [findIndex, List.findIdx_cons, h]
    · rw [if_neg h, ih, findIndex_cons_of_neg _ _ _ (by simpa using h)]

theorem optimisticJobs_eq (jobs : List Job) (draggedJob dropTargetJob : Job)
    (hi : jobs.findIdx (fun job => job.id = draggedJob.id) < jobs.length)
    (hj : jobs.findIdx (fun job => job.id = dropTargetJob.id) < jobs.length) :
    optimisticJobs (jobs.map some) draggedJob dropTargetJob
      = .ok (((jobs.eraseIdx (jobs.findIdx (fun job => job.id = draggedJob.id))).insertIdx
          (jobs.findIdx (fun job => job.id = dropTargetJob.id))
          (jobs[jobs.findIdx (fun job => job.id = draggedJob.id)])).map some) := by
  unfold optimisticJobs
  simp only [findIndexById_map_some]
  have h1 : findIndex (fun job : Job => decide (job.id = draggedJob.id)) jobs
      = ((jobs.findIdx (fun job => job.id = draggedJob.id) : Nat) : Int) := by
    unfold findIndex; rw [if_pos hi]
  have h2 : findIndex (fun job : Job => decide (job.id = dropTargetJob.id)) jobs
      = ((jobs.findIdx (fun job => job.id = dropTargetJob.id) : Nat) : Int) := by
    unfold findIndex; rw [if_pos hj]
  rw [h1, h2, twoSplices_eq jobs _ _ (by omega) (by exact_mod_cast hi)]
  simp only [Int.toNat_ofNat]
  rw [moveItem_eq_insertIdx jobs _ _ _ (List.getElem?_eq_getElem hi) hj]

theorem loadJobs_trace (lower : String → String) (v : JobsView) (api : MockAPI) (d : Draws)
    (page : Int) : ∃ more, (loadJobs lower v api d page).1.trace = v.trace ++ more := by
  simp only [loadJobs]
  split
  · exact ⟨_, List.append_assoc _ _ _⟩
  · exact ⟨_, List.append_assoc _ _ _⟩

/-- C20: when the local view contains the dragged job and the drop target and
their order values differ, handleReorder publishes with setJobs the sequence
obtained from the view by removing the dragged job at its index and inserting
it at the index of the drop target, and in the trace of effects this setJobs
comes right before the call of reorderJobs with the two order values. -/
theorem C20_tentative_view_published_before_dispatch (lower : String → String) (v : JobsView)
    (api : MockAPI) (jobs : List Job) (draggedJob dropTargetJob : Job) (d : Draws)
    (reorderDraw : ℚ) (dLoad : Draws) (hview : v.jobs = jobs.map some)
    (hi : jobs.findIdx (fun job => job.id = draggedJob.id) < jobs.length)
    (hj : jobs.findIdx (fun job => job.id = dropTargetJob.id) < jobs.length)
    (horder : draggedJob.order ≠ dropTargetJob.order) :
    ∃ later,
      (handleReorder lower v api draggedJob dropTargetJob d reorderDraw dLoad).1.trace
        = v.trace ++
          Effect.setJobs
            (((jobs.eraseIdx (jobs.findIdx (fun job => job.id = draggedJob.id))).insertIdx
              (jobs.findIdx (fun job => job.id = dropTargetJob.id))
              (jobs[jobs.findIdx (fun job => job.id = draggedJob.id)])).map some) ::
          Effect.callReorderJobs draggedJob.order dropTargetJob.order :: later := by
  unfold handleReorder
  rw [if_neg horder, hview, optimisticJobs_eq jobs draggedJob dropTargetJob hi hj]
  simp only
  cases hcall : reorderJobs api d reorderDraw draggedJob.order dropTargetJob.order with
  | mk out api1 =>
    cases out with
    | ok r =>
      simp only
      obtain ⟨more, hmore⟩ := loadJobs_trace lower _ api1 dLoad v.currentPage
      exact ⟨more, by rw [hmore]; simp⟩
    | error e =>
      simp only
      obtain ⟨more, hmore⟩ := loadJobs_trace lower _ api1 dLoad v.currentPage
      exact ⟨Effect.consoleError e :: more, by rw [hmore]; simp⟩

theorem C20_tentative_view_published_before_dispatch_witness :
    ∃ later,
      (handleReorder id (sampleView [sampleJob "a" 0, sampleJob "b" 1, sampleJob "c" 2])
        (sampleStore [sampleJob "a" 0, sampleJob "b" 1, sampleJob "c" 2]) (sampleJob "c" 2)
        (sampleJob "a" 0) calmDraws (1 / 2) calmDraws).1.trace
      = Effect.setJobs [some (sampleJob "c" 2), some (sampleJob "a" 0), some (sampleJob "b" 1)] ::
          Effect.callReorderJobs 2 0 :: later := by
  obtain ⟨later, h⟩ := C20_tentative_view_published_before_dispatch id
    (sampleView [sampleJob "a" 0, sampleJob "b" 1, sampleJob "c" 2])
    (sampleStore [sampleJob "a" 0, sampleJob "b" 1, sampleJob "c" 2])
    [sampleJob "a" 0, sampleJob "b" 1, sampleJob "c" 2] (sampleJob "c" 2) (sampleJob "a" 0)
    calmDraws (1 / 2) calmDraws rfl (by decide) (by decide) (by decide)
  exact ⟨later, h.trans (by rfl)⟩

/-! ### The candidates board (C21) -/

theorem loadCandidatesFinish_trace (lower : String → String) (v : CandidatesView)
    (api : MockAPI) (d : Draws) :
    ∃ more, (loadCandidatesFinish lower v api d).1.trace = v.trace ++ more := by
  simp only [loadCandidatesFinish]
  split
  · exact ⟨_, rfl⟩
  · exact ⟨_, rfl⟩

theorem loadCandidatesFinish_ok (lower : String → String) (v : CandidatesView)
    (api : MockAPI) (d : Draws) (hd : ¬ d.failure < 0.075) :
    ∃ result, getCandidates lower api d (candidateLoadParams v) = (.ok result, api) ∧
      (loadCandidatesFinish lower v api d).1.candidates = result.candidates := by
  refine ⟨_, getCandidates_eq lower api d _ hd, ?_⟩
  simp only [loadCandidatesFinish]
  rw [getCandidates_eq lower api d _ hd]

/-- C21 (amended): on a stage-change intent (a dragged candidate dropped on a
column of another stage) handleDrop publishes no tentative view: its first
effect is the dispatch of updateCandidate with the new stage; when that call
fails the candidates view is left as it was, and when it succeeds the view is
replaced, after the call, by the result of a fresh getCandidates query, if
that query succeeds. -/
theorem C21_stage_change_dispatched_first (lower : String → String) (v : CandidatesView)
    (api : MockAPI) (newStage : String) (d : Draws) (c : Clock) (dLoad : Draws)
    (dragged : Candidate) (hdrag : v.draggedCandidate = some dragged)
    (hne : dragged.stage ≠ newStage) :
    (∃ later, (handleDrop lower v api newStage d c dLoad).1.trace
      = v.trace ++ CandidateEffect.callUpdateCandidate dragged.id (stagePatch newStage) ::
          later) ∧
    (∀ e, (updateCandidate api d c dragged.id (stagePatch newStage)).1 = .error e →
      (handleDrop lower v api newStage d c dLoad).1.candidates = v.candidates ∧
      (handleDrop lower v api newStage d c dLoad).1.trace
        = v.trace ++ [CandidateEffect.callUpdateCandidate dragged.id (stagePatch newStage),
            CandidateEffect.consoleError e, CandidateEffect.setDraggedCandidate none]) ∧
    (∀ updated, (updateCandidate api d c dragged.id (stagePatch newStage)).1 = .ok updated →
      ¬ dLoad.failure < 0.075 →
      ∃ result,
        getCandidates lower (updateCandidate api d c dragged.id (stagePatch newStage)).2 dLoad
          (candidateLoadParams v)
          = (.ok result, (updateCandidate api d c dragged.id (stagePatch newStage)).2) ∧
        (handleDrop lower v api newStage d c dLoad).1.candidates = result.candidates) := by
  unfold handleDrop
  rw [hdrag]
  simp only [if_pos hne]
  cases hcall : updateCandidate api d c dragged.id (stagePatch newStage) with
  | mk out api1 =>
    cases out with
    | error e =>
      refine ⟨⟨[CandidateEffect.consoleError e, CandidateEffect.setDraggedCandidate none],
        by simp⟩, ?_, ?_⟩
      · intro e' he'
        simp only [Except.error.injEq] at he'
        subst he'
        exact ⟨rfl, by simp⟩
      · intro updated hu
        simp at hu
    | ok updated =>
      refine ⟨?_, ?_, ?_⟩
      · have key : ∀ (v3 : CandidatesView) (rest : List CandidateEffect),
            v3.trace = v.trace ++
              CandidateEffect.callUpdateCandidate dragged.id (stagePatch newStage) :: rest →
            ∃ later, (loadCandidatesFinish lower v3 api1 dLoad).1.trace = v.trace ++
              CandidateEffect.callUpdateCandidate dragged.id (stagePatch newStage) :: later := by
          intro v3 rest h3
          obtain ⟨more, hmore⟩ := loadCandidatesFinish_trace lower v3 api1 dLoad
          exact ⟨rest ++ more, by rw [hmore, h3]; simp⟩
        exact key _ [CandidateEffect.setLoading true,
          CandidateEffect.callGetCandidates (candidateLoadParams v),
          CandidateEffect.setDraggedCandidate none] (by simp [loadCandidatesStart]; rfl)
      · intro e he
        simp at he
      · intro updated' _ hload
        have key : ∀ v3 : CandidatesView, v3.searchTerm = v.searchTerm →
            v3.stageFilter = v.stageFilter →
            ∃ result, getCandidates lower api1 dLoad (candidateLoadParams v)
                = (.ok result, api1) ∧
              (loadCandidatesFinish lower v3 api1 dLoad).1.candidates = result.candidates := by
          intro v3 h1 h2
          have hp : candidateLoadParams v3 = candidateLoadParams v := by
            simp only [candidateLoadParams, h1, h2]
          obtain ⟨result, hr1, hr2⟩ := loadCandidatesFinish_ok lower v3 api1 dLoad hload
          rw [hp] at hr1
          exact ⟨result, hr1, hr2⟩
        exact key _ rfl rfl

theorem C21_stage_change_dispatched_first_witness :
    ∃ later, (handleDrop id
        (sampleCandidatesView [sampleCandidate "candidate-1" "applied"]
          (sampleCandidate "candidate-1" "applied"))
        (candidateStore "candidate-1" "applied") "tech" calmDraws sampleClock calmDraws).1.trace
      = CandidateEffect.callUpdateCandidate "candidate-1" (stagePatch "tech") :: later :=
  (C21_stage_change_dispatched_first id
    (sampleCandidatesView [sampleCandidate "candidate-1" "applied"]
      (sampleCandidate "candidate-1" "applied"))
    (candidateStore "candidate-1" "applied") "tech" calmDraws sampleClock calmDraws
    (sampleCandidate "candidate-1" "applied") rfl (by decide)).1

theorem updateCandidate_fail (api : MockAPI) (d : Draws) (c : Clock) (id : String)
    (updates : CandidatePatch) (hd : d.failure < 0.075) :
    updateCandidate api d c id updates = (.error .networkError, api) := by
  unfold updateCandidate
  rw [delay_fail hd]

/-- C21 (counterexample): candidate-1 is shown in stage applied and dropped on
the column tech. When the update succeeds, the effects of handleDrop are the
updateCandidate call, then the reload, whose setCandidates is the only
publication and comes after the call; when the update fails, nothing is
published at all and the view still shows applied. -/
theorem C21_no_tentative_relabel :
    (handleDrop id
        (sampleCandidatesView [sampleCandidate "candidate-1" "applied"]
          (sampleCandidate "candidate-1" "applied"))
        (candidateStore "candidate-1" "applied") "tech" calmDraws sampleClock calmDraws).1.trace
      = [CandidateEffect.callUpdateCandidate "candidate-1" (stagePatch "tech"),
         CandidateEffect.setLoading true,
         CandidateEffect.callGetCandidates
           { search := some "", stage := some "", page := none, pageSize := some 1000 },
         CandidateEffect.setDraggedCandidate none,
         CandidateEffect.setCandidates [sampleCandidate "candidate-1" "tech"],
         CandidateEffect.setLoading false] ∧
    (handleDrop id
        (sampleCandidatesView [sampleCandidate "candidate-1" "applied"]
          (sampleCandidate "candidate-1" "applied"))
        (candidateStore "candidate-1" "applied") "tech" failingDraws sampleClock calmDraws).1
      = { sampleCandidatesView [sampleCandidate "candidate-1" "applied"]
            (sampleCandidate "candidate-1" "applied") with
          draggedCandidate := none,
          trace := [CandidateEffect.callUpdateCandidate "candidate-1" (stagePatch "tech"),
            CandidateEffect.consoleError .networkError,
            CandidateEffect.setDraggedCandidate none] } := by
  constructor
  · have hu := (updateCandidate_stage_change (candidateStore "candidate-1" "applied")
      calmDraws sampleClock "candidate-1" (sampleCandidate "candidate-1" "applied") "tech"
      calmDraws_ok rfl (by decide) (by decide) [seedEvent] (by decide)).1
    unfold handleDrop
    simp only [sampleCandidatesView]
    rw [if_pos (by decide)]
    cases hcall : updateCandidate (candidateStore "candidate-1" "applied") calmDraws sampleClock
        (sampleCandidate "candidate-1" "applied").id (stagePatch "tech") with
    | mk out api1 =>
      have hid : (sampleCandidate "candidate-1" "applied").id = "candidate-1" := rfl
      rw [hid] at hcall
      rw [hcall] at hu
      simp only at hu
      subst hu
      have hapi : api1 = (updateCandidate (candidateStore "candidate-1" "applied") calmDraws
          sampleClock "candidate-1" (stagePatch "tech")).2 := by rw [hcall]
      simp only [loadCandidatesFinish, loadCandidatesStart]
      rw [getCandidates_eq _ _ _ _ calmDraws_ok]
      simp only [List.append_assoc, List.nil_append, List.cons_append, List.singleton_append]
      rw [hapi]
      unfold updateCandidate
      rw [delay_ok calmDraws_ok]
      decide
  · unfold handleDrop
    simp only [sampleCandidatesView]
    rw [if_pos (by decide)]
    rw [updateCandidate_fail _ _ _ _ _ failingDraws_fail]
    rfl

/-! ### Thresholds of the simulated failures (C22) -/

theorem reorderJobs_outcome_of_calm (api : MockAPI) (d : Draws) (reorderDraw : ℚ)
    (fromOrder toOrder : Int) (hd : ¬ d.failure < 0.075) (hr : ¬ reorderDraw < 0.1) :
    (reorderJobs api d reorderDraw fromOrder toOrder).1 = .error .typeError ∨
      ∃ result, (reorderJobs api d reorderDraw fromOrder toOrder).1 = .ok result := by
  unfold reorderJobs
  rw [delay_ok hd]
  simp only [if_neg hr]
  split
  · exact Or.inl rfl
  · exact Or.inr ⟨_, rfl⟩

/-- C22 (amended): a general write (createJob, updateJob, updateCandidate,
saveAssessment) fails by simulated failure exactly when its delay draw is
below 0.075; reorderJobs fails by simulated failure exactly when its delay
draw is below 0.075 or its reorder draw is below 0.1, and it throws the error
of the reorder draw exactly when the delay draw is not below 0.075 and the
reorder draw is below 0.1. -/
theorem C22_failure_thresholds (lower : String → String) (api : MockAPI) (d : Draws) :
    (∀ m : Mutation, m.isGeneralWrite = true →
      (failsBySimulation (m.run lower api d).1 = true ↔ d.failure < 0.075)) ∧
    (∀ (reorderDraw : ℚ) (fromOrder toOrder : Int),
      (failsBySimulation (thrown (reorderJobs api d reorderDraw fromOrder toOrder).1) = true
        ↔ (d.failure < 0.075 ∨ reorderDraw < 0.1)) ∧
      ((reorderJobs api d reorderDraw fromOrder toOrder).1 = .error .reorderFailed
        ↔ (¬ d.failure < 0.075 ∧ reorderDraw < 0.1))) := by
  constructor
  · intro m hm
    by_cases hd : d.failure < 0.075
    · cases m <;>
        simp [Mutation.run, TalentFlow.createJob, TalentFlow.updateJob,
          TalentFlow.updateCandidate, TalentFlow.saveAssessment, delay_fail hd, thrown,
          failsBySimulation, ApiError.isTransport, hd, Mutation.isGeneralWrite] at hm ⊢
    · cases m with
      | reorderJobs r f t => simp [Mutation.isGeneralWrite] at hm
      | createJob c job =>
        simp [Mutation.run, TalentFlow.createJob, delay_ok hd, thrown, failsBySimulation, hd]
      | saveAssessment jobId a =>
        simp [Mutation.run, TalentFlow.saveAssessment, delay_ok hd, thrown, failsBySimulation,
          hd]
      | updateJob id updates =>
        simp only [Mutation.run, TalentFlow.updateJob, delay_ok hd, hd, iff_false]
        split
        · split <;> simp [thrown, failsBySimulation, ApiError.isTransport]
        · simp [thrown, failsBySimulation, ApiError.isTransport]
      | updateCandidate c id updates =>
        simp only [Mutation.run, hd, iff_false]
        rcases updateCandidate_outcome_of_calm api d c id updates hd
        with ⟨e1, he1, h⟩ | ⟨u, a, h⟩
        · rw [h]
          simp [thrown, failsBySimulation, he1]
        · rw [h]
          simp [thrown, failsBySimulation]
  · intro reorderDraw fromOrder toOrder
    by_cases hd : d.failure < 0.075
    · simp [reorderJobs, delay_fail hd, thrown, failsBySimulation, ApiError.isTransport, hd]
    · by_cases hr : reorderDraw < 0.1
      · simp [reorderJobs, delay_ok hd, thrown, failsBySimulation, ApiError.isTransport, hd, hr]
      · rcases reorderJobs_outcome_of_calm api d reorderDraw fromOrder toOrder hd hr
          with h | ⟨r, h⟩
        · simp [h, thrown, failsBySimulation, ApiError.isTransport, hd, hr]
        · simp [h, thrown, failsBySimulation, hd, hr]

/-- C22 (counterexample): with a reorder draw of one half, which is not below
0.1, reorderJobs still fails by simulated failure when its delay draw is 0. -/
theorem C22_reorder_fails_on_delay_draw :
    ¬ ((1 : ℚ) / 2 < 0.1) ∧
    (reorderJobs (sampleStore [sampleJob "a" 0, sampleJob "b" 1]) failingDraws (1 / 2) 0 1).1
      = .error .networkError ∧
    ApiError.networkError.isTransport = true := by
  refine ⟨half_not_lt_tenth, ?_, rfl⟩
  unfold reorderJobs
  rw [delay_fail failingDraws_fail]

/-! ### The pages of a result (C24) -/

theorem bind_pageSlice_eq_take {α : Type} (xs : List α) (size n : Nat) :
    (List.range n).flatMap (pageSlice xs size) = xs.take (n * size) := by
  induction n with
  | zero => simp
  | succ n ih =>
    rw [List.range_succ, List.flatMap_append, ih]
    simp only [List.flatMap_cons, List.flatMap_nil, List.append_nil, pageSlice]
    rw [Nat.succ_mul, List.take_add]

theorem pageCount_mul_ge (total size : Nat) (hs : 0 < size) :
    total ≤ pageCount total size * size := by
  unfold pageCount
  have h := Nat.div_add_mod (total + size - 1) size
  have hm := Nat.mod_lt (total + size - 1) hs
  have hc := Nat.mul_comm size ((total + size - 1) / size)
  omega

theorem pageCount_pred_mul_lt (total size : Nat) (hs : 0 < size) (ht : 0 < total) :
    (pageCount total size - 1) * size < total ∧ 0 < pageCount total size := by
  unfold pageCount
  have h := Nat.div_add_mod (total + size - 1) size
  have hm := Nat.mod_lt (total + size - 1) hs
  have hpos : 0 < (total + size - 1) / size := Nat.div_pos (by omega) hs
  refine ⟨?_, hpos⟩
  have hsub : ((total + size - 1) / size - 1) * size
      = (total + size - 1) / size * size - size := by
    rw [Nat.sub_mul, Nat.one_mul]
  rw [hsub]
  have := Nat.mul_comm size ((total + size - 1) / size)
  omega

theorem bind_pageSlice_all {α : Type} (xs : List α) (size : Nat) (hs : 0 < size) :
    (List.range (pageCount xs.length size)).flatMap (pageSlice xs size) = xs := by
  rw [bind_pageSlice_eq_take]
  exact List.take_of_length_le (pageCount_mul_ge _ _ hs)

theorem pageSlice_length_full {α : Type} (xs : List α) (size k : Nat) (hs : 0 < size)
    (hk : k + 1 < pageCount xs.length size) : (pageSlice xs size k).length = size := by
  have hpos : 0 < xs.length := by
    by_contra h0
    have : xs.length = 0 := by omega
    rw [this] at hk
    unfold pageCount at hk
    have : (0 + size - 1) / size = 0 := Nat.div_eq_of_lt (by omega)
    omega
  obtain ⟨h1, _⟩ := pageCount_pred_mul_lt xs.length size hs hpos
  have h2 : (k + 1) * size ≤ (pageCount xs.length size - 1) * size :=
    Nat.mul_le_mul_right _ (by omega)
  simp only [pageSlice, List.length_take, List.length_drop]
  have : (k + 1) * size = k * size + size := by ring
  omega

theorem pageSlice_length_last {α : Type} (xs : List α) (size : Nat) (hs : 0 < size)
    (hpos : 0 < xs.length) :
    1 ≤ (pageSlice xs size (pageCount xs.length size - 1)).length ∧
      (pageSlice xs size (pageCount xs.length size - 1)).length ≤ size := by
  obtain ⟨h1, _⟩ := pageCount_pred_mul_lt xs.length size hs hpos
  simp only [pageSlice, List.length_take, List.length_drop]
  omega

theorem getJobs_page_of (lower : String → String) (api : MockAPI) (d : Draws)
    (search status : Option String) (page pageSize : Int) (size k : Nat)
    (hd : ¬ d.failure < 0.075) (hs : 1 ≤ size)
    (hp : parseIntOr (some page) 1 = (k : Int) + 1)
    (hz : parseIntOr (some pageSize) 10 = (size : Int)) :
    getJobs lower api d
        { search := search, status := status, page := some page, pageSize := some pageSize }
      = (.ok { jobs := pageSlice (matchingJobs lower api search status) size k,
               total := (matchingJobs lower api search status).length,
               page := (k : Int) + 1, pageSize := (size : Int) }, api) := by
  rw [getJobs_eq lower api d _ hd]
  simp only
  rw [hp, hz]
  have h1 : ((k : Int) + 1 - 1) * (size : Int) = ((k * size : Nat) : Int) := by
    push_cast; ring
  rw [h1, jsSlice_of_nonneg _ _ _ (Int.ofNat_nonneg _) (by omega)]
  simp only [Int.toNat_ofNat, matchingJobs, pageSlice, sortByOrder_length]

theorem getJobs_page (lower : String → String) (api : MockAPI) (d : Draws)
    (search status : Option String) (size k : Nat) (hd : ¬ d.failure < 0.075)
    (hs : 1 ≤ size) (hk : isPlainNumber ((k : Int) + 1)) (hsize : isPlainNumber (size : Int)) :
    getJobs lower api d
        { search := search, status := status, page := some ((k : Int) + 1),
          pageSize := some (size : Int) }
      = (.ok { jobs := pageSlice (matchingJobs lower api search status) size k,
               total := (matchingJobs lower api search status).length,
               page := (k : Int) + 1, pageSize := (size : Int) }, api) :=
  getJobs_page_of lower api d search status _ _ size k hd hs
    (parseIntOr_of_pos _ _ (by omega) hk) (parseIntOr_of_pos _ _ (by omega) hsize)

theorem getCandidates_page (lower : String → String) (api : MockAPI) (d : Draws)
    (search stage : Option String) (size k : Nat) (hd : ¬ d.failure < 0.075)
    (hs : 1 ≤ size) (hk : isPlainNumber ((k : Int) + 1)) (hsize : isPlainNumber (size : Int)) :
    getCandidates lower api d
        { search := search, stage := stage, page := some ((k : Int) + 1),
          pageSize := some (size : Int) }
      = (.ok { candidates := pageSlice (matchingCandidates lower api search stage) size k,
               total := (matchingCandidates lower api search stage).length,
               page := (k : Int) + 1, pageSize := (size : Int) }, api) := by
  rw [getCandidates_eq lower api d _ hd]
  simp only
  rw [parseIntOr_of_pos _ _ (by omega : (1 : Int) ≤ (k : Int) + 1) hk,
    parseIntOr_of_pos _ _ (by omega : (1 : Int) ≤ (size : Int)) hsize]
  have h1 : ((k : Int) + 1 - 1) * (size : Int) = ((k * size : Nat) : Int) := by
    push_cast; ring
  rw [h1, jsSlice_of_nonneg _ _ _ (Int.ofNat_nonneg _) (by omega)]
  simp only [Int.toNat_ofNat, matchingCandidates, pageSlice]

theorem page_isPlainNumber (total size k : Nat) (hs : 1 ≤ size) (hlen : total < 2 ^ 53)
    (hk : k < pageCount total size) : isPlainNumber ((k : Int) + 1) := by
  apply isPlainNumber_of_lt
  have hle : pageCount total size ≤ total := by
    unfold pageCount
    rcases Nat.eq_zero_or_pos total with h0 | hpos
    · subst h0
      simp only [Nat.zero_add]
      exact Nat.le_of_eq (Nat.div_eq_of_lt (by omega))
    · have hlt : (total + size - 1) / size < total + 1 := by
        rw [Nat.div_lt_iff_lt_mul (by omega)]
        have h1 := Nat.mul_le_mul_left total hs
        have h2 : (total + 1) * size = total * size + size := by ring
        rw [h2]
        omega
      omega
  have h3 : ((k : Int) + 1).natAbs = k + 1 := by omega
  rw [h3]
  omega

/-- C24 (amended): for a page size of at least 1 that parseInt reads back as
itself (a Number below 10^21), the successful getJobs calls for the pages 1,
2, ... that parseInt reads back as themselves return the consecutive slices of
the filtered, order-sorted list, with its length as total; every page up to
ceil(total / pageSize) is such a number when total is below 2^53; the slices
of the pages 1 to ceil(total / pageSize) concatenated are exactly that list, a
rearrangement of the matching jobs; every page but the last has pageSize items
and the last has between 1 and pageSize items. The same holds for
getCandidates with the matching candidates in store order. -/
theorem C24_pages_partition_the_result (lower : String → String) (api : MockAPI)
    (ds : Nat → Draws) (search filter : Option String) (size : Nat)
    (hds : ∀ k, ¬ (ds k).failure < 0.075) (hs : 1 ≤ size)
    (hsize : isPlainNumber (size : Int)) :
    ((∀ k : Nat, isPlainNumber ((k : Int) + 1) → getJobs lower api (ds k)
          { search := search, status := filter, page := some ((k : Int) + 1),
            pageSize := some (size : Int) }
        = (.ok { jobs := pageSlice (matchingJobs lower api search filter) size k,
                 total := (matchingJobs lower api search filter).length,
                 page := (k : Int) + 1, pageSize := (size : Int) }, api)) ∧
      ((matchingJobs lower api search filter).length < 2 ^ 53 →
        ∀ k : Nat, k < pageCount (matchingJobs lower api search filter).length size →
          isPlainNumber ((k : Int) + 1)) ∧
      (List.range (pageCount (matchingJobs lower api search filter).length size)).flatMap
          (pageSlice (matchingJobs lower api search filter) size)
        = matchingJobs lower api search filter ∧
      (matchingJobs lower api search filter).Perm
        (api.data.jobs.filter (jobMatches lower search filter)) ∧
      (∀ k, k + 1 < pageCount (matchingJobs lower api search filter).length size →
        (pageSlice (matchingJobs lower api search filter) size k).length = size) ∧
      (0 < (matchingJobs lower api search filter).length →
        1 ≤ (pageSlice (matchingJobs lower api search filter) size
              (pageCount (matchingJobs lower api search filter).length size - 1)).length ∧
        (pageSlice (matchingJobs lower api search filter) size
              (pageCount (matchingJobs lower api search filter).length size - 1)).length
          ≤ size)) ∧
    ((∀ k : Nat, isPlainNumber ((k : Int) + 1) → getCandidates lower api (ds k)
          { search := search, stage := filter, page := some ((k : Int) + 1),
            pageSize := some (size : Int) }
        = (.ok { candidates := pageSlice (matchingCandidates lower api search filter) size k,
                 total := (matchingCandidates lower api search filter).length,
                 page := (k : Int) + 1, pageSize := (size : Int) }, api)) ∧
      ((matchingCandidates lower api search filter).length < 2 ^ 53 →
        ∀ k : Nat, k < pageCount (matchingCandidates lower api search filter).length size →
          isPlainNumber ((k : Int) + 1)) ∧
      (List.range (pageCount (matchingCandidates lower api search filter).length size)).flatMap
          (pageSlice (matchingCandidates lower api search filter) size)
        = matchingCandidates lower api search filter ∧
      (∀ k, k + 1 < pageCount (matchingCandidates lower api search filter).length size →
        (pageSlice (matchingCandidates lower api search filter) size k).length = size) ∧
      (0 < (matchingCandidates lower api search filter).length →
        1 ≤ (pageSlice (matchingCandidates lower api search filter) size
              (pageCount (matchingCandidates lower api search filter).length size - 1)).length ∧
        (pageSlice (matchingCandidates lower api search filter) size
              (pageCount (matchingCandidates lower api search filter).length size - 1)).length
          ≤ size)) := by
  refine ⟨⟨fun k hk => getJobs_page lower api (ds k) search filter size k (hds k) hs hk hsize,
      fun hlen k hk => page_isPlainNumber _ size k hs hlen hk,
      bind_pageSlice_all _ _ hs, sortByOrder_perm _,
      fun k hk => pageSlice_length_full _ _ _ hs hk,
      fun hpos => pageSlice_length_last _ _ hs hpos⟩,
    ⟨fun k hk =>
        getCandidates_page lower api (ds k) search filter size k (hds k) hs hk hsize,
      fun hlen k hk => page_isPlainNumber _ size k hs hlen hk,
      bind_pageSlice_all _ _ hs,
      fun k hk => pageSlice_length_full _ _ _ hs hk,
      fun hpos => pageSlice_length_last _ _ hs hpos⟩⟩

theorem C24_pages_partition_the_result_witness :
    (List.range 2).flatMap (pageSlice
        [sampleJob "b" 0, sampleJob "c" 1, sampleJob "a" 2] 2)
      = [sampleJob "b" 0, sampleJob "c" 1, sampleJob "a" 2] ∧
    getJobs id (sampleStore [sampleJob "a" 2, sampleJob "b" 0, sampleJob "c" 1]) calmDraws
        { search := none, status := none, page := some 2, pageSize := some 2 }
      = (.ok { jobs := [sampleJob "a" 2], total := 3, page := 2, pageSize := 2 },
         sampleStore [sampleJob "a" 2, sampleJob "b" 0, sampleJob "c" 1]) := by
  have h := (C24_pages_partition_the_result id
    (sampleStore [sampleJob "a" 2, sampleJob "b" 0, sampleJob "c" 1]) (fun _ => calmDraws)
    none none 2 (fun _ => calmDraws_ok) (by decide) (by decide)).1
  refine ⟨?_, ?_⟩
  · have h2 := h.2.2.1
    have hm : matchingJobs id (sampleStore [sampleJob "a" 2, sampleJob "b" 0, sampleJob "c" 1])
        none none = [sampleJob "b" 0, sampleJob "c" 1, sampleJob "a" 2] := by decide
    rw [hm] at h2
    exact h2
  · have h1 := h.1 1 (by decide)
    have hm : matchingJobs id (sampleStore [sampleJob "a" 2, sampleJob "b" 0, sampleJob "c" 1])
        none none = [sampleJob "b" 0, sampleJob "c" 1, sampleJob "a" 2] := by decide
    rw [hm] at h1
    exact h1

/-- C24 (counterexample): with three jobs and pageSize 10^21 the total is 3 and
ceil(total / pageSize) is 1, so page 1 alone should return the whole list; but
parseInt reads the rendering 1e+21 of the page size as 1, and the successful
getJobs for page 1 returns one job. -/
theorem C24_page_size_in_exponent_notation_read_as_one :
    (getJobs id (sampleStore [sampleJob "a" 2, sampleJob "b" 0, sampleJob "c" 1]) calmDraws
        { search := none, status := none, page := some 1, pageSize := some (10 ^ 21) }).1
      = .ok { jobs := [sampleJob "b" 0], total := 3, page := 1, pageSize := 1 } ∧
    pageCount 3 (10 ^ 21) = 1 ∧
    matchingJobs id (sampleStore [sampleJob "a" 2, sampleJob "b" 0, sampleJob "c" 1]) none none
      = [sampleJob "b" 0, sampleJob "c" 1, sampleJob "a" 2] := by
  refine ⟨?_, by decide, by decide⟩
  rw [getJobs_eq _ _ _ _ calmDraws_ok]
  decide

/-! ### A move onto itself and a move back (C25) -/

theorem reindex_map_otherFields (k : Nat) (xs : List Job) :
    (reindex k xs).map Job.otherFields = xs.map Job.otherFields := by
  induction xs generalizing k with
  | nil => rfl
  | cons x rest ih => simp [reindex, ih, Job.otherFields]

theorem reindex_congr (k : Nat) (xs ys : List Job)
    (h : xs.map Job.otherFields = ys.map Job.otherFields) : reindex k xs = reindex k ys := by
  induction xs generalizing k ys with
  | nil =>
    cases ys with
    | nil => rfl
    | cons y rest => simp at h
  | cons x rest ih =>
    cases ys with
    | nil => simp at h
    | cons y rest2 =>
      simp only [List.map_cons, List.cons.injEq] at h
      simp only [reindex, ih (k + 1) rest2 h.2, List.cons.injEq, and_true]
      have h1 := h.1
      simp only [Job.otherFields, Prod.mk.injEq] at h1
      obtain ⟨e1, e2, e3, e4, e5, e6⟩ := h1
      simp [e1, e2, e3, e4, e5, e6]

theorem reindex_of_dense (k : Nat) (xs : List Job)
    (h : xs.map (fun j => j.order)
      = (List.range' k xs.length).map (fun (i : Nat) => (i : Int))) :
    reindex k xs = xs := by
  induction xs generalizing k with
  | nil => rfl
  | cons x rest ih =>
    simp only [List.map_cons, List.length_cons, List.range'_succ, List.cons.injEq] at h
    simp only [reindex, ih (k + 1) h.2, List.cons.injEq, and_true]
    cases x
    simp only at h
    simp [h.1]

theorem denseOrders_sorted (n : Nat) : (denseOrders n).Sorted (· ≤ ·) := by
  unfold denseOrders
  exact List.Pairwise.map _ (fun a b h => by exact_mod_cast h) (List.sorted_le_range n)

theorem sortByOrder_orders_of_dense (jobs : List Job)
    (h : (jobs.map (fun j => j.order)).Perm (denseOrders jobs.length)) :
    (sortByOrder jobs).map (fun j => j.order) = denseOrders jobs.length := by
  have hmap : (sortByOrder jobs).map (fun j => j.order)
      = (jobs.map (fun j => j.order)).insertionSort (· ≤ ·) := by
    unfold sortByOrder
    exact List.map_insertionSort (fun a b => a.order ≤ b.order) (· ≤ ·) (fun j => j.order)
      jobs (fun _ _ _ _ => Iff.rfl)
  rw [hmap]
  exact List.eq_of_perm_of_sorted ((List.perm_insertionSort _ _).trans h)
    (List.sorted_insertionSort _ _) (denseOrders_sorted _)

theorem reindex_sortByOrder_of_dense (jobs : List Job)
    (h : (jobs.map (fun j => j.order)).Perm (denseOrders jobs.length)) :
    reindex 0 (sortByOrder jobs) = sortByOrder jobs := by
  apply reindex_of_dense
  rw [sortByOrder_orders_of_dense jobs h, sortByOrder_length, denseOrders, List.range_eq_range']

theorem insertIdx_eraseIdx_self {α : Type} (xs : List α) (a : Nat) (h : a < xs.length) :
    (xs.eraseIdx a).insertIdx a xs[a] = xs := by
  rw [insertIdx_eq_take_drop _ _ _ (by rw [List.length_eraseIdx_of_lt h]; omega),
    List.eraseIdx_eq_take_drop_succ]
  have h1 : (xs.take a ++ xs.drop (a + 1)).take a = xs.take a := by
    rw [List.take_append_of_le_length (by simp; omega), List.take_take]
    simp
  have h2 : (xs.take a ++ xs.drop (a + 1)).drop a = xs.drop (a + 1) := by
    rw [List.drop_append_of_le_length (by simp; omega)]
    simp [List.drop_take]
  rw [h1, h2, ← List.drop_eq_getElem_cons h, List.take_append_drop]

theorem moveItem_self {α : Type} (xs : List α) (a : Nat) (h : a < xs.length) :
    moveItem xs a (a : Int) = xs := by
  rw [moveItem_eq_insertIdx xs a a _ (List.getElem?_eq_getElem h) h]
  exact insertIdx_eraseIdx_self xs a h

theorem moveItem_back {α : Type} (xs : List α) (a b : Nat) (ha : a < xs.length)
    (hb : b < xs.length) : moveItem (moveItem xs a (b : Int)) b (a : Int) = xs := by
  rw [moveItem_eq_insertIdx xs a b _ (List.getElem?_eq_getElem ha) hb]
  have hlenE : (xs.eraseIdx a).length = xs.length - 1 := List.length_eraseIdx_of_lt ha
  have hble : b ≤ (xs.eraseIdx a).length := by omega
  have hlen : ((xs.eraseIdx a).insertIdx b xs[a]).length = xs.length := by
    rw [List.length_insertIdx _ _ hble]; omega
  have hget : ((xs.eraseIdx a).insertIdx b xs[a])[b]? = some xs[a] := by
    rw [List.getElem?_eq_getElem (by omega), List.getElem_insertIdx_self _ _ _ hble]
  rw [moveItem_eq_insertIdx _ b a _ hget (by omega), List.eraseIdx_insertIdx]
  exact insertIdx_eraseIdx_self xs a ha

theorem sortByOrder_of_orders_dense (jobs : List Job) (n : Nat)
    (h : jobs.map (fun j => j.order) = denseOrders n) : sortByOrder jobs = jobs := by
  unfold sortByOrder
  apply List.Sorted.insertionSort_eq
  have hs := denseOrders_sorted n
  rw [← h] at hs
  exact List.pairwise_map.mp hs

theorem reordered_self_of_dense (jobs : List Job) (a : Nat) (ha : a < jobs.length)
    (h : (jobs.map (fun j => j.order)).Perm (denseOrders jobs.length)) :
    reordered jobs a (a : Int) = sortByOrder jobs := by
  unfold reordered
  rw [moveItem_self _ _ (by rw [sortByOrder_length]; exact ha)]
  exact reindex_sortByOrder_of_dense jobs h

theorem reordered_back_of_dense (jobs : List Job) (a b : Nat) (ha : a < jobs.length)
    (hb : b < jobs.length)
    (h : (jobs.map (fun j => j.order)).Perm (denseOrders jobs.length)) :
    reordered (reordered jobs a (b : Int)) b (a : Int) = sortByOrder jobs := by
  have hsorted : sortByOrder (reordered jobs a (b : Int)) = reordered jobs a (b : Int) :=
    sortByOrder_of_orders_dense _ _ (reordered_orders jobs a b)
  have hfields : (moveItem (reordered jobs a (b : Int)) b (a : Int)).map Job.otherFields
      = (sortByOrder jobs).map Job.otherFields := by
    rw [← moveItem_map]
    unfold reordered
    rw [reindex_map_otherFields, moveItem_map,
      moveItem_back _ a b (by rw [sortByOrder_length]; exact ha)
        (by rw [sortByOrder_length]; exact hb)]
  have hstep : reordered (reordered jobs a (b : Int)) b (a : Int)
      = reindex 0 (moveItem (reordered jobs a (b : Int)) b (a : Int)) := by
    rw [show reordered (reordered jobs a (b : Int)) b (a : Int)
      = reindex 0 (moveItem (sortByOrder (reordered jobs a (b : Int))) b (a : Int)) from rfl,
      hsorted]
  rw [hstep, reindex_congr 0 _ _ hfields]
  exact reindex_sortByOrder_of_dense jobs h

/-- C25: on a collection with dense orders 0..N-1 and for a, b in 0..N-1, a
successful reorderJobs(a, a) returns and stores the jobs in their order
sequence with every record, order value included, as it was; and a successful
reorderJobs(a, b) followed by a successful reorderJobs(b, a) returns and stores
that same sequence. The sequence of the ids by order and the order value of
every job are thus unchanged, and a collection that was stored in its order
sequence is unchanged. -/
theorem C25_reorder_identity_and_inverse (api : MockAPI) (d1 d2 d3 : Draws)
    (r1 r2 r3 : ℚ) (a b : Int)
    (hd1 : ¬ d1.failure < 0.075) (hr1 : ¬ r1 < 0.1)
    (hd2 : ¬ d2.failure < 0.075) (hr2 : ¬ r2 < 0.1)
    (hd3 : ¬ d3.failure < 0.075) (hr3 : ¬ r3 < 0.1)
    (hdense : (api.data.jobs.map (fun j => j.order)).Perm (denseOrders api.data.jobs.length))
    (ha : 0 ≤ a ∧ a < (api.data.jobs.length : Int))
    (hb : 0 ≤ b ∧ b < (api.data.jobs.length : Int)) :
    reorderJobs api d1 r1 a a
      = (.ok (sortByOrder api.data.jobs),
         saveToStorage { api with data := { api.data with jobs := sortByOrder api.data.jobs } }) ∧
    (∃ result api1, reorderJobs api d2 r2 a b = (.ok result, api1) ∧
      (reorderJobs api1 d3 r3 b a).1 = .ok (sortByOrder api.data.jobs) ∧
      (reorderJobs api1 d3 r3 b a).2.data.jobs = sortByOrder api.data.jobs) ∧
    (sortByOrder api.data.jobs).Perm api.data.jobs ∧
    sortByOrder (sortByOrder api.data.jobs) = sortByOrder api.data.jobs ∧
    (sortByOrder api.data.jobs = api.data.jobs →
      (reorderJobs api d1 r1 a a).2.data.jobs = api.data.jobs) := by
  obtain ⟨ha0, haN⟩ := ha
  obtain ⟨hb0, hbN⟩ := hb
  obtain ⟨na, rfl⟩ := Int.eq_ofNat_of_zero_le ha0
  obtain ⟨nb, rfl⟩ := Int.eq_ofNat_of_zero_le hb0
  have hna : na < api.data.jobs.length := by exact_mod_cast haN
  have hnb : nb < api.data.jobs.length := by exact_mod_cast hbN
  have h1 : reorderJobs api d1 r1 (na : Int) (na : Int)
      = (.ok (sortByOrder api.data.jobs),
         saveToStorage { api with data :=
           { api.data with jobs := sortByOrder api.data.jobs } }) := by
    rw [reorderJobs_ok api d1 r1 _ _ hd1 hr1 ha0 haN]
    simp only [Int.toNat_ofNat, reordered_self_of_dense _ _ hna hdense]
  have hidem : sortByOrder (sortByOrder api.data.jobs) = sortByOrder api.data.jobs :=
    sortByOrder_of_orders_dense _ _ (sortByOrder_orders_of_dense _ hdense)
  refine ⟨h1, ?_, sortByOrder_perm _, hidem, ?_⟩
  · refine ⟨_, _, reorderJobs_ok api d2 r2 _ _ hd2 hr2 ha0 haN, ?_⟩
    have hlen : ((saveToStorage { api with data := { api.data with
        jobs := reordered api.data.jobs (na : Int).toNat (nb : Int) } }).data.jobs.length : Int)
        = (api.data.jobs.length : Int) := by
      simp only [saveToStorage, reordered_length]
    rw [reorderJobs_ok _ d3 r3 _ _ hd3 hr3 hb0 (by rw [hlen]; exact hbN)]
    simp only [Int.toNat_ofNat, saveToStorage]
    rw [reordered_back_of_dense _ _ _ hna hnb hdense]
    exact ⟨rfl, rfl⟩
  · intro hs
    rw [h1]
    exact hs

theorem C25_reorder_identity_and_inverse_witness :
    ∃ result api1,
      reorderJobs (sampleStore [sampleJob "a" 0, sampleJob "b" 1, sampleJob "c" 2]) calmDraws
        (1 / 2) 2 0 = (.ok result, api1) ∧
      (reorderJobs api1 calmDraws (1 / 2) 0 2).2.data.jobs
        = [sampleJob "a" 0, sampleJob "b" 1, sampleJob "c" 2] := by
  obtain ⟨_, ⟨result, api1, h1, _, h3⟩, _⟩ := C25_reorder_identity_and_inverse
    (sampleStore [sampleJob "a" 0, sampleJob "b" 1, sampleJob "c" 2]) calmDraws calmDraws
    calmDraws (1 / 2) (1 / 2) (1 / 2) 2 0 calmDraws_ok half_not_lt_tenth calmDraws_ok
    half_not_lt_tenth calmDraws_ok half_not_lt_tenth (by decide) (by decide) (by decide)
  exact ⟨result, api1, h1, h3.trans (by decide)⟩

/-! ### What a reorder leaves alone (C26) -/

theorem reordered_otherFields_perm (jobs : List Job) (f : Nat) (toOrder : Int) :
    ((reordered jobs f toOrder).map Job.otherFields).Perm (jobs.map Job.otherFields) := by
  unfold reordered
  rw [reindex_map_otherFields]
  exact ((moveItem_perm _ _ _).trans (sortByOrder_perm _)).map _

/-- C26: a successful reorderJobs changes no field of any job other than order:
the jobs after the call, with order left aside, are the jobs before the call,
with order left aside, in another arrangement, so that no job is added or
removed and id, title, slug, status, tags and createdAt are kept; the
candidates, the timelines and the assessments are unchanged; for fromOrder in
0..N-1 the call succeeds whenever no draw fails the transport. -/
theorem C26_reorder_changes_order_only (api : MockAPI) (d : Draws) (reorderDraw : ℚ)
    (fromOrder toOrder : Int)
    (hfrom : 0 ≤ fromOrder ∧ fromOrder < (api.data.jobs.length : Int)) :
    ((¬ d.failure < 0.075 ∧ ¬ reorderDraw < 0.1) →
      ∃ result api1, reorderJobs api d reorderDraw fromOrder toOrder = (.ok result, api1)) ∧
    (∀ result api1, reorderJobs api d reorderDraw fromOrder toOrder = (.ok result, api1) →
      (api1.data.jobs.map Job.otherFields).Perm (api.data.jobs.map Job.otherFields) ∧
      api1.data.jobs.length = api.data.jobs.length ∧
      result = api1.data.jobs ∧
      api1.data.candidates = api.data.candidates ∧
      api1.data.candidateTimelines = api.data.candidateTimelines ∧
      api1.data.assessments = api.data.assessments) := by
  constructor
  · intro hok
    exact ⟨_, _, reorderJobs_ok api d reorderDraw fromOrder toOrder hok.1 hok.2 hfrom.1 hfrom.2⟩
  · intro result api1 h
    obtain ⟨hok, hs⟩ := reorderJobs_success api api1 d reorderDraw fromOrder toOrder result
      hfrom.1 hfrom.2 h
    rw [reorderJobs_ok api d reorderDraw fromOrder toOrder hok.1 hok.2 hfrom.1 hfrom.2] at h
    simp only [Prod.mk.injEq, Except.ok.injEq] at h
    obtain ⟨hres, hapi⟩ := h
    refine ⟨?_, ?_, ?_, ?_, ?_, ?_⟩
    · rw [hs]; exact reordered_otherFields_perm _ _ _
    · rw [hs, reordered_length]
    · rw [hs, ← hres]
    · rw [← hapi]; rfl
    · rw [← hapi]; rfl
    · rw [← hapi]; rfl

theorem C26_reorder_changes_order_only_witness :
    ∃ result api1,
      reorderJobs (sampleStore [sampleJob "a" 5, sampleJob "b" 3]) calmDraws (1 / 2) 1 0
        = (.ok result, api1) ∧
      (api1.data.jobs.map Job.otherFields).Perm
        ((sampleStore [sampleJob "a" 5, sampleJob "b" 3]).data.jobs.map Job.otherFields) := by
  have h := C26_reorder_changes_order_only (sampleStore [sampleJob "a" 5, sampleJob "b" 3])
    calmDraws (1 / 2) 1 0 (by decide)
  obtain ⟨result, api1, h1⟩ := h.1 ⟨calmDraws_ok, half_not_lt_tenth⟩
  exact ⟨result, api1, h1, (h.2 result api1 h1).1⟩

/-! ### The tentative array and the reloaded page (C23) -/

theorem moveItem_forward {α : Type} (X Y Z : List α) (d t : α) :
    moveItem (X ++ d :: (Y ++ t :: Z)) X.length ((X.length + 1 + Y.length : Nat) : Int)
      = X ++ (Y ++ t :: d :: Z) := by
  have hx : (X ++ d :: (Y ++ t :: Z))[X.length]? = some d := by
    rw [List.getElem?_append_right (le_refl _)]; simp
  have he : (X ++ d :: (Y ++ t :: Z)).eraseIdx X.length = X ++ (Y ++ t :: Z) := by
    rw [List.eraseIdx_append_of_length_le (le_refl _)]; simp
  unfold moveItem
  rw [hx]
  simp only [he]
  have hk : relIndex (X ++ (Y ++ t :: Z)).length ((X.length + 1 + Y.length : Nat) : Int)
      = (X ++ (Y ++ [t])).length := by
    rw [relIndex_of_nonneg _ _ (Int.ofNat_nonneg _)]
    simp only [Int.toNat_ofNat, List.length_append, List.length_cons, List.length_nil]
    omega
  rw [hk]
  have hsplit : X ++ (Y ++ t :: Z) = (X ++ (Y ++ [t])) ++ Z := by simp
  rw [hsplit, List.take_left, List.drop_left]
  simp

theorem moveItem_backward {α : Type} (X Y Z : List α) (d t : α) :
    moveItem (X ++ t :: (Y ++ d :: Z)) (X.length + 1 + Y.length) ((X.length : Nat) : Int)
      = X ++ d :: t :: (Y ++ Z) := by
  have hsplit : X ++ t :: (Y ++ d :: Z) = (X ++ t :: Y) ++ d :: Z := by simp
  have hlen : (X ++ t :: Y).length = X.length + 1 + Y.length := by simp; omega
  have hx : (X ++ t :: (Y ++ d :: Z))[X.length + 1 + Y.length]? = some d := by
    rw [hsplit, ← hlen, List.getElem?_append_right (le_refl _)]; simp
  have he : (X ++ t :: (Y ++ d :: Z)).eraseIdx (X.length + 1 + Y.length)
      = X ++ t :: (Y ++ Z) := by
    rw [hsplit, ← hlen, List.eraseIdx_append_of_length_le (le_refl _)]; simp
  unfold moveItem
  rw [hx]
  simp only [he]
  have hk : relIndex (X ++ t :: (Y ++ Z)).length ((X.length : Nat) : Int) = X.length := by
    rw [relIndex_of_nonneg _ _ (Int.ofNat_nonneg _)]
    simp only [Int.toNat_ofNat, List.length_append, List.length_cons]
    omega
  rw [hk, List.take_left, List.drop_left]

theorem filter_eq_append_cons {α : Type} (p : α → Bool) (S L1 L2 : List α) (x : α)
    (h : S.filter p = L1 ++ x :: L2) :
    ∃ S1 S2, S = S1 ++ x :: S2 ∧ S1.filter p = L1 ∧ S2.filter p = L2 ∧ p x = true := by
  obtain ⟨l1, l2, hS, h1, h2⟩ := List.filter_eq_append_iff.mp h
  obtain ⟨m1, m2, hl2, hm1, hx, hm2⟩ := List.filter_eq_cons_iff.mp h2
  refine ⟨l1 ++ m1, m2, by rw [hS, hl2]; simp, ?_, hm2, hx⟩
  rw [List.filter_append, h1, List.filter_eq_nil_iff.mpr hm1, List.append_nil]

theorem order_of_position (S X Y : List Job) (job : Job) (hS : S = X ++ job :: Y)
    (h : S.map (fun j => j.order) = denseOrders S.length) : job.order = (X.length : Int) := by
  have h1 : (S.map (fun j => j.order))[X.length]? = some job.order := by
    rw [hS, List.map_append, List.getElem?_append_right (by simp)]
    simp
  rw [h, denseOrders, List.getElem?_map, List.getElem?_range (by rw [hS]; simp)] at h1
  simpa using h1.symm

theorem findIdx_of_decomposition (X Y : List Job) (job : Job)
    (hnd : ((X ++ job :: Y).map (fun j => j.id)).Nodup) :
    (X ++ job :: Y).findIdx (fun j => j.id = job.id) = X.length := by
  have hX : ∀ y ∈ X, y.id ≠ job.id := by
    intro y hy heq
    rw [List.map_append, List.map_cons, List.nodup_append] at hnd
    exact hnd.2.2 (List.mem_map_of_mem (fun j => j.id) hy)
      (by rw [heq]; exact List.mem_cons_self _ _)
  have hnone : X.findIdx (fun j => decide (j.id = job.id)) = X.length := by
    rw [List.findIdx_eq_length]
    intro y hy
    simpa using hX y hy
  rw [List.findIdx_append, hnone, if_neg (lt_irrefl _)]
  simp [List.findIdx_cons]

theorem slice_of_decomposition {α : Type} (pre V post : List α) (size k : Nat)
    (hpre : pre.length = k * size) (hV : V.length ≤ size)
    (hpost : V.length < size → post = []) :
    pageSlice (pre ++ (V ++ post)) size k = V := by
  unfold pageSlice
  rw [← hpre, List.drop_left]
  by_cases h : V.length < size
  · rw [hpost h, List.append_nil]
    exact List.take_of_length_le (by omega)
  · have : V.length = size := by omega
    rw [← this, List.take_left]

theorem list_eq_slice_decomposition {α : Type} (F : List α) (size k : Nat)
    (hne : pageSlice F size k ≠ []) :
    F = F.take (k * size) ++ (pageSlice F size k ++ (F.drop (k * size)).drop size) ∧
    (F.take (k * size)).length = k * size ∧
    (pageSlice F size k).length ≤ size ∧
    ((pageSlice F size k).length < size → (F.drop (k * size)).drop size = []) := by
  have hlt : k * size < F.length := by
    by_contra hle
    apply hne
    unfold pageSlice
    rw [List.drop_of_length_le (by omega)]
    simp
  refine ⟨?_, ?_, ?_, ?_⟩
  · unfold pageSlice
    rw [List.take_append_drop, List.take_append_drop]
  · rw [List.length_take]; omega
  · unfold pageSlice
    rw [List.length_take]; omega
  · intro h
    unfold pageSlice at h
    rw [List.length_take, List.length_drop] at h
    apply List.drop_of_length_le
    rw [List.length_drop]
    omega

theorem filter_reindex_ids (p : Job → Bool)
    (hp : ∀ (job : Job) (o : Int), p { job with order := o } = p job) (k : Nat)
    (M : List Job) :
    ((reindex k M).filter p).map (fun j => j.id) = (M.filter p).map (fun j => j.id) := by
  induction M generalizing k with
  | nil => rfl
  | cons x rest ih =>
    simp only [reindex, List.filter_cons, hp]
    split
    · simp only [List.map_cons, ih]
    · exact ih (k + 1)

theorem sorted_lt_of_sorted_nodup (l : List Job)
    (hs : l.Sorted (fun a b => a.order ≤ b.order))
    (hnd : (l.map (fun j => j.order)).Nodup) :
    l.Sorted (fun a b => a.order < b.order) := by
  have h2 : l.Pairwise (fun a b => a.order ≠ b.order) := List.pairwise_map.mp hnd
  exact (List.Pairwise.and hs h2).imp (fun h => lt_of_le_of_ne h.1 h.2)

theorem sortByOrder_filter (jobs : List Job) (p : Job → Bool)
    (hnd : (jobs.map (fun j => j.order)).Nodup) :
    sortByOrder (jobs.filter p) = (sortByOrder jobs).filter p := by
  haveI : IsAntisymm Job (fun a b => a.order < b.order) :=
    ⟨fun a b h1 h2 => absurd h1 (not_lt_of_gt h2)⟩
  have hperm : (sortByOrder (jobs.filter p)).Perm ((sortByOrder jobs).filter p) :=
    (sortByOrder_perm _).trans ((sortByOrder_perm jobs).filter p).symm
  have hnd1 : ((sortByOrder (jobs.filter p)).map (fun j => j.order)).Nodup := by
    rw [((sortByOrder_perm (jobs.filter p)).map _).nodup_iff]
    exact hnd.sublist ((List.filter_sublist _).map _)
  have hnd2 : (((sortByOrder jobs).filter p).map (fun j => j.order)).Nodup := by
    have : ((sortByOrder jobs).map (fun j => j.order)).Nodup := by
      rw [((sortByOrder_perm jobs).map _).nodup_iff]; exact hnd
    exact this.sublist ((List.filter_sublist _).map _)
  exact List.eq_of_perm_of_sorted hperm
    (sorted_lt_of_sorted_nodup _ (sortByOrder_sorted _) hnd1)
    (sorted_lt_of_sorted_nodup _ ((sortByOrder_sorted jobs).filter p) hnd2)

theorem pageSlice_map {α β : Type} (f : α → β) (xs : List α) (size k : Nat) :
    (pageSlice xs size k).map f = pageSlice (xs.map f) size k := by
  simp [pageSlice, List.map_take, List.map_drop]

theorem jobMatches_order (lower : String → String) (search status : Option String)
    (job : Job) (o : Int) :
    jobMatches lower search status { job with order := o } = jobMatches lower search status job :=
  rfl

theorem reindex_sorted (k : Nat) (xs : List Job) :
    (reindex k xs).Sorted (fun a b => a.order ≤ b.order) := by
  have h : ((reindex k xs).map (fun j => j.order)).Sorted (· ≤ ·) := by
    rw [reindex_map_order]
    apply List.pairwise_map.mpr
    exact (List.pairwise_lt_range' k xs.length).imp (fun h => by exact_mod_cast le_of_lt h)
  exact List.pairwise_map.mp h

theorem sortByOrder_of_sorted (xs : List Job)
    (h : xs.Sorted (fun a b => a.order ≤ b.order)) : sortByOrder xs = xs :=
  List.Sorted.insertionSort_eq h

theorem matchingJobs_after_reorder_ids (lower : String → String) (api : MockAPI)
    (search status : Option String) (f : Nat) (toOrder : Int) :
    (matchingJobs lower
        (saveToStorage { api with data := { api.data with
          jobs := reordered api.data.jobs f toOrder } }) search status).map (fun j => j.id)
      = ((moveItem (sortByOrder api.data.jobs) f toOrder).filter
          (jobMatches lower search status)).map (fun j => j.id) := by
  unfold matchingJobs
  simp only [saveToStorage, reordered]
  rw [sortByOrder_of_sorted _ ((reindex_sorted 0 _).filter _)]
  exact filter_reindex_ids _ (jobMatches_order lower search status) 0 _

theorem optimisticJobs_moveItem (jobs : List Job) (draggedJob dropTargetJob : Job)
    (hi : jobs.findIdx (fun job => job.id = draggedJob.id) < jobs.length)
    (hj : jobs.findIdx (fun job => job.id = dropTargetJob.id) < jobs.length) :
    optimisticJobs (jobs.map some) draggedJob dropTargetJob
      = .ok ((moveItem jobs (jobs.findIdx (fun job => job.id = draggedJob.id))
          ((jobs.findIdx (fun job => job.id = dropTargetJob.id) : Nat) : Int)).map some) := by
  rw [optimisticJobs_eq jobs draggedJob dropTargetJob hi hj,
    moveItem_eq_insertIdx jobs _ _ _ (List.getElem?_eq_getElem hi) hj]

theorem reloaded_page_ids (lower : String → String) (api : MockAPI) (d2 d3 : Draws) (rd : ℚ)
    (search status : Option String) (page pageSize : Int) (size k : Nat) (hs : 1 ≤ size)
    (hp : parseIntOr (some page) 1 = (k : Int) + 1)
    (hz : parseIntOr (some pageSize) 10 = (size : Int))
    (hd2 : ¬ d2.failure < 0.075) (hr : ¬ rd < 0.1) (hd3 : ¬ d3.failure < 0.075)
    (f : Nat) (toOrder : Int) (hf : f < api.data.jobs.length) (pre shown post : List Job)
    (hM : (moveItem (sortByOrder api.data.jobs) f toOrder).filter
        (jobMatches lower search status) = pre ++ (shown ++ post))
    (hpre : pre.length = k * size) (hshown : shown.length ≤ size)
    (hpost : shown.length < size → post = []) :
    ∃ result api1 page1,
      reorderJobs api d2 rd (f : Int) toOrder = (.ok result, api1) ∧
      getJobs lower api1 d3
        { search := search, status := status, page := some page,
          pageSize := some pageSize } = (.ok page1, api1) ∧
      page1.jobs.map (fun j => j.id) = shown.map (fun j => j.id) := by
  refine ⟨_, _, _, reorderJobs_ok api d2 rd (f : Int) toOrder hd2 hr (Int.ofNat_nonneg _)
    (by exact_mod_cast hf),
    getJobs_page_of lower _ d3 search status page pageSize size k hd3 hs hp hz, ?_⟩
  simp only [Int.toNat_ofNat]
  rw [pageSlice_map, matchingJobs_after_reorder_ids, hM, List.map_append, List.map_append]
  apply slice_of_decomposition
  · simpa using hpre
  · simpa using hshown
  · intro h
    rw [hpost (by simpa using h)]
    rfl

/-- C23, with ids pairwise distinct: on a store with dense orders, for search
and status filters, a page size of at least 1 and a page number k + 1, and two
jobs of different orders on the page getJobs returns, the tentative array
handleReorder computes from that page exists, the call
reorderJobs(d.order, t.order) succeeds when no draw fails, the query repeated on
the store it leaves succeeds, and the ids of the tentative array are the ids of
the page the repeated query returns. -/
theorem C23_tentative_ids_equal_reloaded_ids (lower : String → String) (api api0 : MockAPI)
    (d1 d2 d3 : Draws) (rd : ℚ) (search status : Option String) (size k : Nat)
    (page0 : JobsPage) (dJob tJob : Job)
    (hdense : (api.data.jobs.map (fun j => j.order)).Perm (denseOrders api.data.jobs.length))
    (hids : (api.data.jobs.map (fun j => j.id)).Nodup)
    (hs : 1 ≤ size)
    (hpage0 : getJobs lower api d1
        { search := search, status := status, page := some ((k : Int) + 1),
          pageSize := some (size : Int) } = (.ok page0, api0))
    (hd : dJob ∈ page0.jobs) (ht : tJob ∈ page0.jobs) (hne : dJob.order ≠ tJob.order)
    (hd2 : ¬ d2.failure < 0.075) (hr : ¬ rd < 0.1) (hd3 : ¬ d3.failure < 0.075) :
    ∃ (tentative : List Job) (result : List Job) (api1 : MockAPI) (page1 : JobsPage),
      optimisticJobs (page0.jobs.map some) dJob tJob = .ok (tentative.map some) ∧
      reorderJobs api d2 rd dJob.order tJob.order = (.ok result, api1) ∧
      getJobs lower api1 d3
        { search := search, status := status, page := some ((k : Int) + 1),
          pageSize := some (size : Int) } = (.ok page1, api1) ∧
      tentative.map (fun j => j.id) = page1.jobs.map (fun j => j.id) := by
  have hd1 : ¬ d1.failure < 0.075 := by
    intro h
    simp [getJobs, delay_fail h] at hpage0
  obtain ⟨k', hk'⟩ : ∃ k' : Nat, parseIntOr (some ((k : Int) + 1)) 1 = (k' : Int) + 1 := by
    have h1 := parseIntOr_pos ((k : Int) + 1) 1 (by omega) (le_refl _)
    exact ⟨(parseIntOr (some ((k : Int) + 1)) 1 - 1).toNat, by omega⟩
  obtain ⟨size', hsize', hs'⟩ : ∃ size' : Nat,
      parseIntOr (some (size : Int)) 10 = (size' : Int) ∧ 1 ≤ size' := by
    have h1 := parseIntOr_pos (size : Int) 10 (by omega) (by norm_num)
    exact ⟨(parseIntOr (some (size : Int)) 10).toNat, by omega, by omega⟩
  rw [getJobs_page_of lower api d1 search status _ _ size' k' hd1 hs' hk' hsize'] at hpage0
  obtain ⟨V, hVdef⟩ : ∃ V, V = page0.jobs := ⟨_, rfl⟩
  have hV : V = pageSlice (matchingJobs lower api search status) size' k' := by
    have h1 := (Prod.mk.inj hpage0).1
    injection h1 with h2
    rw [hVdef, ← h2]
  rw [← hVdef] at hd ht ⊢
  obtain ⟨S, hS⟩ : ∃ S, S = sortByOrder api.data.jobs := ⟨_, rfl⟩
  have hSlen : S.length = api.data.jobs.length := by rw [hS, sortByOrder_length]
  have hordNodup : (api.data.jobs.map (fun j => j.order)).Nodup :=
    hdense.nodup_iff.mpr (denseOrders_nodup _)
  have hF : matchingJobs lower api search status = S.filter (jobMatches lower search status) := by
    rw [hS]
    exact sortByOrder_filter _ _ hordNodup
  have hSord : S.map (fun j => j.order) = denseOrders S.length := by
    rw [hSlen, hS]
    exact sortByOrder_orders_of_dense _ hdense
  have hSids : (S.map (fun j => j.id)).Nodup := by
    rw [hS]
    exact ((sortByOrder_perm _).map _).nodup_iff.mpr hids
  have hne0 : pageSlice (matchingJobs lower api search status) size' k' ≠ [] := by
    rw [← hV]
    exact List.ne_nil_of_mem hd
  obtain ⟨pre, post, hFdec, hprelen, hVlen, hpost⟩ : ∃ pre post,
      matchingJobs lower api search status = pre ++ (V ++ post) ∧ pre.length = k' * size' ∧
        V.length ≤ size' ∧ (V.length < size' → post = []) := by
    rw [hV]
    exact ⟨_, _, list_eq_slice_decomposition _ size' k' hne0⟩
  rw [hF] at hFdec
  have hVsub : V.Sublist S := by
    have h1 : V.Sublist (pre ++ (V ++ post)) :=
      (List.sublist_append_left V post).trans (List.sublist_append_right pre _)
    rw [← hFdec] at h1
    exact h1.trans (List.filter_sublist _)
  have hVids : (V.map (fun j => j.id)).Nodup := hSids.sublist (hVsub.map _)
  have hdt : dJob ≠ tJob := fun h => hne (by rw [h])
  obtain ⟨A, B, hAB⟩ := List.append_of_mem hd
  rw [hAB] at ht
  rcases List.mem_append.mp ht with htA | htB
  · -- the drop target stands before the dragged job
    obtain ⟨A1, A2, hA⟩ := List.append_of_mem htA
    have hVeq : V = A1 ++ tJob :: (A2 ++ dJob :: B) := by rw [hAB, hA]; simp
    have hFfull : S.filter (jobMatches lower search status)
        = (pre ++ A1) ++ tJob :: (A2 ++ dJob :: (B ++ post)) := by
      rw [hFdec, hVeq]; simp
    obtain ⟨S1, R, hSdec, hS1, hR, hPt⟩ := filter_eq_append_cons _ S _ _ tJob hFfull
    obtain ⟨S2, S3, hRdec, hS2, hS3, hPd⟩ := filter_eq_append_cons _ R _ _ dJob hR
    have htord : tJob.order = ((S1.length : Nat) : Int) :=
      order_of_position S S1 R tJob hSdec hSord
    have hdord : dJob.order = ((S1.length + 1 + S2.length : Nat) : Int) := by
      rw [order_of_position S (S1 ++ tJob :: S2) S3 dJob (by rw [hSdec, hRdec]; simp) hSord]
      simp
      omega
    have hM : moveItem S (S1.length + 1 + S2.length) ((S1.length : Nat) : Int)
        = S1 ++ dJob :: tJob :: (S2 ++ S3) := by
      rw [hSdec, hRdec]
      exact moveItem_backward S1 S2 S3 dJob tJob
    have hMfilter : (moveItem (sortByOrder api.data.jobs) (S1.length + 1 + S2.length)
        ((S1.length : Nat) : Int)).filter (jobMatches lower search status)
        = pre ++ ((A1 ++ dJob :: tJob :: (A2 ++ B)) ++ post) := by
      rw [← hS, hM]
      simp [List.filter_append, List.filter_cons, hS1, hS2, hS3, hPd, hPt]
    have hf : S1.length + 1 + S2.length < api.data.jobs.length := by
      rw [← hSlen, hSdec, hRdec]
      simp
      omega
    obtain ⟨result, api1, page1, hre, hget, hidsEq⟩ := reloaded_page_ids lower api d2 d3 rd
      search status _ _ size' k' hs' hk' hsize' hd2 hr hd3 _ _ hf pre
      (A1 ++ dJob :: tJob :: (A2 ++ B)) post
      hMfilter hprelen (by rw [hVeq] at hVlen; simpa using hVlen)
      (fun h => hpost (by rw [hVeq]; simpa using h))
    have hi : V.findIdx (fun job => job.id = dJob.id) = A1.length + 1 + A2.length := by
      have hV2 : V = (A1 ++ tJob :: A2) ++ dJob :: B := by rw [hVeq]; simp
      rw [hV2, findIdx_of_decomposition _ _ _ (by rw [← hV2]; exact hVids)]
      simp
      omega
    have hj : V.findIdx (fun job => job.id = tJob.id) = A1.length := by
      rw [hVeq, findIdx_of_decomposition _ _ _ (by rw [← hVeq]; exact hVids)]
    have hVl : V.length = A1.length + 1 + A2.length + 1 + B.length := by
      rw [hVeq]; simp; omega
    refine ⟨A1 ++ dJob :: tJob :: (A2 ++ B), result, api1, page1, ?_, ?_, hget, hidsEq.symm⟩
    · rw [optimisticJobs_moveItem V dJob tJob (by rw [hi, hVl]; omega) (by rw [hj, hVl]; omega),
        hi, hj, hVeq, moveItem_backward]
    · rw [hdord, htord]
      exact hre
  · rcases List.mem_cons.mp htB with h | htB
    · exact absurd h.symm hdt
    -- the dragged job stands before the drop target
    obtain ⟨B1, B2, hB⟩ := List.append_of_mem htB
    have hVeq : V = A ++ dJob :: (B1 ++ tJob :: B2) := by rw [hAB, hB]
    have hFfull : S.filter (jobMatches lower search status)
        = (pre ++ A) ++ dJob :: (B1 ++ tJob :: (B2 ++ post)) := by
      rw [hFdec, hVeq]; simp
    obtain ⟨S1, R, hSdec, hS1, hR, hPd⟩ := filter_eq_append_cons _ S _ _ dJob hFfull
    obtain ⟨S2, S3, hRdec, hS2, hS3, hPt⟩ := filter_eq_append_cons _ R _ _ tJob hR
    have hdord : dJob.order = ((S1.length : Nat) : Int) :=
      order_of_position S S1 R dJob hSdec hSord
    have htord : tJob.order = ((S1.length + 1 + S2.length : Nat) : Int) := by
      rw [order_of_position S (S1 ++ dJob :: S2) S3 tJob (by rw [hSdec, hRdec]; simp) hSord]
      simp
      omega
    have hM : moveItem S S1.length ((S1.length + 1 + S2.length : Nat) : Int)
        = S1 ++ (S2 ++ tJob :: dJob :: S3) := by
      rw [hSdec, hRdec]
      exact moveItem_forward S1 S2 S3 dJob tJob
    have hMfilter : (moveItem (sortByOrder api.data.jobs) S1.length
        ((S1.length + 1 + S2.length : Nat) : Int)).filter (jobMatches lower search status)
        = pre ++ ((A ++ (B1 ++ tJob :: dJob :: B2)) ++ post) := by
      rw [← hS, hM]
      simp [List.filter_append, List.filter_cons, hS1, hS2, hS3, hPd, hPt]
    have hf : S1.length < api.data.jobs.length := by
      rw [← hSlen, hSdec]
      simp
    obtain ⟨result, api1, page1, hre, hget, hidsEq⟩ := reloaded_page_ids lower api d2 d3 rd
      search status _ _ size' k' hs' hk' hsize' hd2 hr hd3 _ _ hf pre
      (A ++ (B1 ++ tJob :: dJob :: B2)) post
      hMfilter hprelen (by rw [hVeq] at hVlen; simpa using hVlen)
      (fun h => hpost (by rw [hVeq]; simpa using h))
    have hi : V.findIdx (fun job => job.id = dJob.id) = A.length := by
      rw [hVeq, findIdx_of_decomposition _ _ _ (by rw [← hVeq]; exact hVids)]
    have hj : V.findIdx (fun job => job.id = tJob.id) = A.length + 1 + B1.length := by
      have hV2 : V = (A ++ dJob :: B1) ++ tJob :: B2 := by rw [hVeq]; simp
      rw [hV2, findIdx_of_decomposition _ _ _ (by rw [← hV2]; exact hVids)]
      simp
      omega
    have hVl : V.length = A.length + 1 + B1.length + 1 + B2.length := by
      rw [hVeq]; simp; omega
    refine ⟨A ++ (B1 ++ tJob :: dJob :: B2), result, api1, page1, ?_, ?_, hget, hidsEq.symm⟩
    · rw [optimisticJobs_moveItem V dJob tJob (by rw [hi, hVl]; omega) (by rw [hj, hVl]; omega),
        hi, hj, hVeq, moveItem_forward]
    · rw [hdord, htord]
      exact hre

theorem C23_tentative_ids_equal_reloaded_ids_witness :
    ∃ (tentative : List Job) (result : List Job) (api1 : MockAPI) (page1 : JobsPage),
      optimisticJobs ([sampleJob "b" 0, sampleJob "c" 1].map some) (sampleJob "b" 0)
        (sampleJob "c" 1) = .ok (tentative.map some) ∧
      reorderJobs (sampleStore [sampleJob "a" 2, sampleJob "b" 0, sampleJob "c" 1]) calmDraws
        (1 / 2) 0 1 = (.ok result, api1) ∧
      getJobs id api1 calmDraws
        { search := none, status := none, page := some (((0 : Nat) : Int) + 1),
          pageSize := some ((2 : Nat) : Int) } = (.ok page1, api1) ∧
      tentative.map (fun j => j.id) = page1.jobs.map (fun j => j.id) :=
  C23_tentative_ids_equal_reloaded_ids id
    (sampleStore [sampleJob "a" 2, sampleJob "b" 0, sampleJob "c" 1])
    (sampleStore [sampleJob "a" 2, sampleJob "b" 0, sampleJob "c" 1])
    calmDraws calmDraws calmDraws (1 / 2) none none 2 0
    { jobs := [sampleJob "b" 0, sampleJob "c" 1], total := 3, page := 1, pageSize := 2 }
    (sampleJob "b" 0) (sampleJob "c" 1) (by decide) (by decide) (by decide)
    (by rw [getJobs_page _ _ _ _ _ _ _ calmDraws_ok (by decide) (by decide) (by decide)]
        decide)
    (by decide) (by decide) (by decide) calmDraws_ok half_not_lt_tenth calmDraws_ok

/-- C23 as written fails when two jobs share an id: in a store with dense
orders holding jobs with ids a, c, a, b at orders 0, 1, 2, 3, dragging the job
at order 2 onto the job at order 3 gives a tentative array with ids c, a, b, a,
because the lookup by id finds the job at order 0, while the page returned
after the successful reorderJobs(2, 3) has ids a, c, b, a. -/
theorem C23_duplicate_ids_diverge :
    duplicateIdStore.data.jobs.map (fun j => j.order) = denseOrders 4 ∧
    getJobs id duplicateIdStore calmDraws firstPageParams
      = (.ok { jobs := [sampleJob "a" 0, sampleJob "c" 1, sampleJob "a" 2, sampleJob "b" 3],
               total := 4, page := 1, pageSize := 10 }, duplicateIdStore) ∧
    (sampleJob "a" 2).order ≠ (sampleJob "b" 3).order ∧
    optimisticJobs
        ([sampleJob "a" 0, sampleJob "c" 1, sampleJob "a" 2, sampleJob "b" 3].map some)
        (sampleJob "a" 2) (sampleJob "b" 3)
      = .ok ([sampleJob "c" 1, sampleJob "a" 2, sampleJob "b" 3, sampleJob "a" 0].map some) ∧
    reorderJobs duplicateIdStore calmDraws (1 / 2) (sampleJob "a" 2).order (sampleJob "b" 3).order
      = (.ok [sampleJob "a" 0, sampleJob "c" 1, sampleJob "b" 2, sampleJob "a" 3],
         saveToStorage (sampleStore
           [sampleJob "a" 0, sampleJob "c" 1, sampleJob "b" 2, sampleJob "a" 3])) ∧
    getJobs id
        (saveToStorage (sampleStore
          [sampleJob "a" 0, sampleJob "c" 1, sampleJob "b" 2, sampleJob "a" 3]))
        calmDraws firstPageParams
      = (.ok { jobs := [sampleJob "a" 0, sampleJob "c" 1, sampleJob "b" 2, sampleJob "a" 3],
               total := 4, page := 1, pageSize := 10 },
         saveToStorage (sampleStore
           [sampleJob "a" 0, sampleJob "c" 1, sampleJob "b" 2, sampleJob "a" 3])) ∧
    [sampleJob "c" 1, sampleJob "a" 2, sampleJob "b" 3, sampleJob "a" 0].map (fun j => j.id)
      ≠ [sampleJob "a" 0, sampleJob "c" 1, sampleJob "b" 2, sampleJob "a" 3].map
          (fun j => j.id) := by
  refine ⟨by decide, ?_, by decide, by decide, ?_, ?_, by decide⟩
  · rw [getJobs_eq _ _ _ _ calmDraws_ok]
    decide
  · rw [reorderJobs_ok _ _ _ _ _ calmDraws_ok half_not_lt_tenth (by decide) (by decide)]
    decide
  · rw [getJobs_eq _ _ _ _ calmDraws_ok]
    decide

end TalentFlow
